import Mathlib

/-!
# RadioPacket: packet and message codecs over a growable byte buffer

A shallow embedding of the C++ sources `ExpandingArray.h`, `NetworkBuffer.h`,
`Util.h`, `RadioPacket.{h,cpp}` and `src/Message.{h,cpp}`.

Modelling conventions.

* A storage cell (`uint8_t`) is a `Byte = Fin 256`.  Wider machine integers are
  natural numbers, reduced explicitly where the source converts them to a
  narrower type.
* A pointer is an `Option (List Byte)`: `none` is `nullptr`, `some l` points at
  the bytes `l`.  Pointer arithmetic `p + k` is `List.drop k`.
* `new StorageType[n]` and uninitialised locals hold indeterminate bytes.  They
  are supplied by an oracle `junk : Nat → Byte`; the general statements below
  hold for all oracles (building, parsing and reading each get their own).
  Reading past the end of an object also yields oracle bytes, and a `memcpy`
  never writes past the end of its destination object.
* `IndexType` is a template parameter; its modulus `M` (`256` for the packet
  buffer, `65536` for the message buffer) is an explicit argument.
* The host is little-endian (first branch of the `#if` in `Util.h`).
-/

set_option linter.dupNamespace false

namespace RadioPacket

/-! ## Bytes and raw memory -/

/-- An 8-bit storage cell, `uint8_t`. -/
abbrev Byte := Fin 256

/-- Conversion of an integer value to `uint8_t`. -/
def toByte (n : Nat) : Byte := ⟨n % 256, Nat.mod_lt _ (by decide)⟩

/-- Modulus of `size_t` on the host. -/
def SIZE_MOD : Nat := 2 ^ 64

/-- An object of `n` bytes with indeterminate contents (`new uint8_t[n]`, or an
uninitialised local). -/
def fresh (junk : Nat → Byte) (n : Nat) : List Byte :=
  (List.range n).map junk

/-- The `len` bytes read through a pointer to `src`; positions past the end of
`src` read indeterminate bytes. -/
def readBytes (junk : Nat → Byte) (src : List Byte) (len : Nat) : List Byte :=
  (List.range len).map (fun k => src.getD k (junk k))

/-- The destination object `dst` after `::memcpy(&dst[i], src, len)`. -/
def memcpy (junk : Nat → Byte) (dst : List Byte) (i : Nat) (src : List Byte)
    (len : Nat) : List Byte :=
  (dst.take i ++ readBytes junk src len ++ dst.drop (i + len)).take dst.length

/-! ## Util.h -/

namespace Util

/-- The builtin `__builtin_bswap16`. -/
def bswap16 (s : Nat) : Nat := (s % 256) * 256 + (s / 256) % 256

/-- `Util::htons`, little-endian branch. -/
def htons (s : Nat) : Nat := bswap16 s

/-- `Util::ntohs`, little-endian branch. -/
def ntohs (s : Nat) : Nat := bswap16 s

/-- Modelled from the spec: `Util::zero` is declared in `Util.h` but its body
(`Util.cpp`) is not among the sources; per the spec it "overwrites `len` bytes
with 0". -/
def zero (data : List Byte) (len : Nat) : List Byte :=
  (List.replicate len (0 : Byte) ++ data.drop len).take data.length

end Util

/-- Object representation of a `uint16_t` on the little-endian host. -/
def objBytes16 (x : Nat) : List Byte := [toByte x, toByte (x / 256)]

/-- Value of a `uint16_t` whose object representation is `l`. -/
def ofObjBytes16 (l : List Byte) : Nat :=
  (l.getD 0 0).val + 256 * (l.getD 1 0).val

/-- Object representation of an `n`-byte unsigned integer on the little-endian
host: the `n` low bytes of `x`, least significant first. -/
def objBytes : Nat → Nat → List Byte
  | 0, _ => []
  | n + 1, x => toByte x :: objBytes n (x / 256)

/-- The unsigned integer whose object representation on the little-endian host
is `l`. -/
def ofObjBytes : List Byte → Nat
  | [] => 0
  | b :: l => b.val + 256 * ofObjBytes l

namespace Util

/-- `__builtin_bswap32`: the four bytes of the operand in reverse order. -/
def bswap32 (l : Nat) : Nat := ofObjBytes (objBytes 4 l).reverse

/-- `__builtin_bswap64`: the eight bytes of the operand in reverse order. -/
def bswap64 (ll : Nat) : Nat := ofObjBytes (objBytes 8 ll).reverse

/-- `Util::htonl` on the little-endian host. -/
def htonl (l : Nat) : Nat := bswap32 l

/-- `Util::ntohl` on the little-endian host. -/
def ntohl (l : Nat) : Nat := bswap32 l

/-- `Util::htonll` on the little-endian host. -/
def htonll (ll : Nat) : Nat := bswap64 ll

/-- `Util::ntohll` on the little-endian host. -/
def ntohll (ll : Nat) : Nat := bswap64 ll

end Util

/-! ## ExpandingArray.h -/

/-- The class `ExpandingArray<uint8_t, IndexType>`: storage pointer, logical
length and allocated length. -/
structure ExpandingArray where
  _data : Option (List Byte)
  _currentLength : Nat
  _arrayLength : Nat
  deriving DecidableEq

namespace ExpandingArray

/-- The bytes the storage pointer points at (none for `nullptr`). -/
def cells (a : ExpandingArray) : List Byte := a._data.getD []

/-- The member initialisers: `_data = nullptr`, both lengths `0`. -/
def init : ExpandingArray :=
  { _data := none, _currentLength := 0, _arrayLength := 0 }

/-- `ExpandingArray::_indexInRange`; the argument is converted to `IndexType`,
and `i >= 0` always holds for the unsigned index. -/
def _indexInRange (M : Nat) (a : ExpandingArray) (i : Nat) : Bool :=
  a._data.isSome && decide (i % M < a._currentLength)

/-- `ExpandingArray::copyToAt`: the destination after the call.  `len < 0`
never holds for `size_t`. -/
def copyToAt (M : Nat) (junk : Nat → Byte) (a : ExpandingArray)
    (data : Option (List Byte)) (len i : Nat) : Option (List Byte) :=
  match data with
  | none => none
  | some dst =>
    if len > a._currentLength then some dst
    else if !a._indexInRange M i then some dst
    else if (i + len) % SIZE_MOD > a._currentLength then some dst
    else some (memcpy junk dst 0 (a.cells.drop i) len)

/-- `ExpandingArray::copyTo`. -/
def copyTo (M : Nat) (junk : Nat → Byte) (a : ExpandingArray)
    (data : Option (List Byte)) (len : Nat) : Option (List Byte) :=
  a.copyToAt M junk data (if len > 0 then len else a._currentLength) 0

/-- `ExpandingArray::allocate`.  `len < 0` never holds; zeroing the old region
before it is released has no effect on the new state. -/
def allocate (M : Nat) (junk : Nat → Byte) (a : ExpandingArray) (len : Nat)
    (copy zero : Bool) : ExpandingArray :=
  if len ≤ a._currentLength ∧ a._data.isSome then a
  else
    let arr := fresh junk len
    let arr := if copy then (a.copyTo M junk (some arr) a._currentLength).getD arr else arr
    let _old := if zero then Util.zero a.cells a._arrayLength else a.cells
    { _data := some arr, _currentLength := a._currentLength, _arrayLength := len }

/-- `ExpandingArray::clear`. -/
def clear (a : ExpandingArray) (zero : Bool) : ExpandingArray :=
  { _data := if zero then a._data.map (fun c => Util.zero c a._arrayLength) else a._data,
    _currentLength := 0,
    _arrayLength := a._arrayLength }

/-- `ExpandingArray::dispose`: `clear(safe)`, then `delete[] _data`.  The
`delete[]` releases the storage and assigns no member: the pointer keeps its
value (not `nullptr`) and `_arrayLength` is not touched. -/
def dispose (a : ExpandingArray) (safe : Bool) : ExpandingArray :=
  a.clear safe

/-- `ExpandingArray::reclaim`.  Zeroing the old region before it is released has
no effect on the new state. -/
def reclaim (M : Nat) (junk : Nat → Byte) (a : ExpandingArray) (zero : Bool) :
    ExpandingArray :=
  if a._arrayLength ≤ a._currentLength then a
  else
    let arr := fresh junk a._currentLength
    let arr := (a.copyTo M junk (some arr) 0).getD arr
    let _old := if zero then Util.zero a.cells a._currentLength else a.cells
    { _data := some arr, _currentLength := a._currentLength, _arrayLength := a._currentLength }

/-- `ExpandingArray::length`. -/
def length (a : ExpandingArray) : Nat := a._currentLength

/-- `ExpandingArray::resize`. -/
def resize (M : Nat) (junk : Nat → Byte) (a : ExpandingArray) (len : Nat)
    (copy : Bool) : ExpandingArray :=
  if len = a._currentLength ∧ a._data.isSome then a
  else if len < a._arrayLength then { a with _currentLength := len }
  else { a.allocate M junk len copy false with _currentLength := len }

/-- `ExpandingArray::copyFromAt`.  The arithmetic of the resize argument is
`size_t` arithmetic, converted to `IndexType` at the call. -/
def copyFromAt (M : Nat) (junk : Nat → Byte) (a : ExpandingArray)
    (data : Option (List Byte)) (len i : Nat) : ExpandingArray :=
  match data with
  | none => a
  | some src =>
    if len = 0 then a
    else if !a._indexInRange M i then a
    else
      let a1 :=
        if (i + len) % SIZE_MOD > a._currentLength then
          a.resize M junk
            (((a._currentLength
                + (a._currentLength + SIZE_MOD - (i + len) % SIZE_MOD) % SIZE_MOD)
              % SIZE_MOD) % M) true
        else a
      { a1 with _data := a1._data.map (fun c => memcpy junk c i src len) }

/-- `ExpandingArray::copyFrom`. -/
def copyFrom (M : Nat) (junk : Nat → Byte) (a : ExpandingArray)
    (data : Option (List Byte)) (len : Nat) : ExpandingArray :=
  a.copyFromAt M junk data len 0

/-- The constructor `ExpandingArray(len)`. -/
def ctor (M : Nat) (junk : Nat → Byte) (len : Nat) : ExpandingArray :=
  init.resize M junk len false

/-- Reading `(*this)[i]` (unchecked). -/
def get (junk : Nat → Byte) (a : ExpandingArray) (i : Nat) : Byte :=
  a.cells.getD i (junk i)

/-- Writing `(*this)[i] = v` (unchecked). -/
def set (a : ExpandingArray) (i : Nat) (v : Byte) : ExpandingArray :=
  { a with _data := a._data.map (fun c => c.set i v) }

end ExpandingArray

/-! ## NetworkBuffer.h -/

namespace NetworkBuffer

/-- `NetworkBuffer::setUInt16`. -/
def setUInt16 (M : Nat) (junk : Nat → Byte) (a : ExpandingArray) (s offset : Nat) :
    ExpandingArray :=
  let netShort := Util.htons s
  a.copyFromAt M junk (some (objBytes16 netShort)) 2 offset

/-- `NetworkBuffer::getUInt16`. -/
def getUInt16 (M : Nat) (junk : Nat → Byte) (a : ExpandingArray) (offset : Nat) : Nat :=
  let netuint := fresh junk 2
  let netuint := (a.copyToAt M junk (some netuint) 2 offset).getD netuint
  Util.ntohs (ofObjBytes16 netuint)

/-- `NetworkBuffer::setUInt32`. -/
def setUInt32 (M : Nat) (junk : Nat → Byte) (a : ExpandingArray) (i offset : Nat) :
    ExpandingArray :=
  let netInt := Util.htonl i
  a.copyFromAt M junk (some (objBytes 4 netInt)) 4 offset

/-- `NetworkBuffer::setUInt64`. -/
def setUInt64 (M : Nat) (junk : Nat → Byte) (a : ExpandingArray) (ll offset : Nat) :
    ExpandingArray :=
  let netLong := Util.htonll ll
  a.copyFromAt M junk (some (objBytes 8 netLong)) 8 offset

/-- `NetworkBuffer::getUInt32`. -/
def getUInt32 (M : Nat) (junk : Nat → Byte) (a : ExpandingArray) (offset : Nat) : Nat :=
  let netuint := fresh junk 4
  let netuint := (a.copyToAt M junk (some netuint) 4 offset).getD netuint
  Util.ntohl (ofObjBytes netuint)

/-- `NetworkBuffer::getUInt64`. -/
def getUInt64 (M : Nat) (junk : Nat → Byte) (a : ExpandingArray) (offset : Nat) : Nat :=
  let netuint := fresh junk 8
  let netuint := (a.copyToAt M junk (some netuint) 8 offset).getD netuint
  Util.ntohll (ofObjBytes netuint)

end NetworkBuffer

/-! ## Util::crc8 -/

namespace Util

/-- Modelled from the spec: one shift step of the bit-reflected CRC-8 (the
body of `Util::crc8` is in `Util.cpp`, which is not among the sources).  The
reflected 8-bit CRC of the AVR reference (`util/crc16.h`) uses the polynomial
constant `0x8C`. -/
def crc8_shift (crc : Nat) : Nat :=
  if crc % 2 = 1 then (crc / 2) ^^^ 0x8C else crc / 2

/-- Modelled from the spec: the CRC-8 update for one data byte, "bit-reflected,
poly consistent with the reference AVR CRC-8 algorithm": the byte is folded
into the running value, followed by eight shift steps. -/
def crc8_update (crc : Nat) (b : Byte) : Nat :=
  crc8_shift^[8] ((crc % 256) ^^^ b.val)

/-- Modelled from the spec: the seed of the CRC-8, the value `Util::crc8`
returns for a null `data`. -/
def crc8_seed : Nat := 0

/-- Modelled from the spec: `Util::crc8(crc, data, len)` is declared in `Util.h`
but defined in `Util.cpp`, which is not among the sources.  Per the spec it is
the "incremental CRC-8 ... over `data[0..len)`, starting from `seed`", and
"calling with `data = null, len = 0` returns the algorithm's initial seed
value". -/
def crc8 (junk : Nat → Byte) (crc : Nat) (data : Option (List Byte)) (len : Nat) : Nat :=
  match data with
  | none => crc8_seed
  | some d => (readBytes junk d len).foldl crc8_update (crc % 256)

end Util

/-! ## RadioPacket.h, RadioPacket.cpp -/

/-- The class `RadioPacket`: a `NetworkBuffer<uint8_t, uint8_t>`. -/
structure RadioPacket where
  _data : ExpandingArray
  deriving DecidableEq

namespace RadioPacket

/-- Modulus of the packet buffer index type `uint8_t`. -/
def IDX_MOD : Nat := 256

def _HEADER_LEN : Nat := 9

def _DEFAULT_HEADER : List Byte := [9, 1, 0x00, 0x00, 0xff, 0xff, 1, 0, 0]

def PARSE_OK : Nat := 0
def PARSE_ERROR_INCOMPLETE_HEADER : Nat := 1
def PARSE_ERROR_INSUFFICIENT_BYTES : Nat := 2
def PARSE_ERROR_MAX_LENGTH_EXCEEDED : Nat := 3

def getMaxPacketLength : Nat := 0xff

def getHeaderLength : Nat := _HEADER_LEN

def getMaxBodyLength : Nat := (getMaxPacketLength - getHeaderLength) % 256

/-- `RadioPacket::_init`. -/
def _init (junk : Nat → Byte) (p : RadioPacket) : RadioPacket :=
  let d := p._data.clear false
  let d := d.resize IDX_MOD junk getHeaderLength false
  let d := d.copyFrom IDX_MOD junk (some _DEFAULT_HEADER) getHeaderLength
  { _data := d }

/-- The default constructor `RadioPacket()`: the buffer member is default
constructed, then `_init` runs. -/
def ctor (junk : Nat → Byte) : RadioPacket :=
  _init junk { _data := ExpandingArray.ctor IDX_MOD junk 0 }

def setRawPacketLength (p : RadioPacket) (len : Nat) : RadioPacket :=
  { _data := p._data.set 0 (toByte len) }

def setRawVersion (p : RadioPacket) (version : Nat) : RadioPacket :=
  { _data := p._data.set 1 (toByte version) }

def setRawTransmitterId (junk : Nat → Byte) (p : RadioPacket) (id : Nat) : RadioPacket :=
  { _data := NetworkBuffer.setUInt16 IDX_MOD junk p._data (id % 65536) 2 }

def setRawReceiverId (junk : Nat → Byte) (p : RadioPacket) (id : Nat) : RadioPacket :=
  { _data := NetworkBuffer.setUInt16 IDX_MOD junk p._data (id % 65536) 4 }

def setRawFragmentNumber (p : RadioPacket) (n : Nat) : RadioPacket :=
  { _data := p._data.set 6 (toByte n) }

def setRawBodyLength (p : RadioPacket) (len : Nat) : RadioPacket :=
  { _data := p._data.set 7 (toByte len) }

def setRawCrc8 (p : RadioPacket) (crc : Nat) : RadioPacket :=
  { _data := p._data.set 8 (toByte crc) }

def getRawPacketLength (junk : Nat → Byte) (p : RadioPacket) : Nat :=
  (p._data.get junk 0).val

def getRawVersion (junk : Nat → Byte) (p : RadioPacket) : Nat :=
  (p._data.get junk 1).val

def getRawTransmitterId (junk : Nat → Byte) (p : RadioPacket) : Nat :=
  NetworkBuffer.getUInt16 IDX_MOD junk p._data 2

def getRawReceiverId (junk : Nat → Byte) (p : RadioPacket) : Nat :=
  NetworkBuffer.getUInt16 IDX_MOD junk p._data 4

def getRawFragmentNumber (junk : Nat → Byte) (p : RadioPacket) : Nat :=
  (p._data.get junk 6).val

def getRawBodyLength (junk : Nat → Byte) (p : RadioPacket) : Nat :=
  (p._data.get junk 7).val

def getRawCrc8 (junk : Nat → Byte) (p : RadioPacket) : Nat :=
  (p._data.get junk 8).val

/-- `RadioPacket::getData`: pointer to the first storage byte. -/
def getData (p : RadioPacket) : Option (List Byte) := p._data._data

/-- `RadioPacket::getHeaderData`. -/
def getHeaderData (p : RadioPacket) : Option (List Byte) := p._data._data

/-- `RadioPacket::getBodyData`: pointer to storage byte `getHeaderLength()`. -/
def getBodyData (p : RadioPacket) : Option (List Byte) :=
  p._data._data.map (fun c => c.drop getHeaderLength)

/-- `RadioPacket::resizeBody`. -/
def resizeBody (junk : Nat → Byte) (p : RadioPacket) (bodyLen : Nat) (copy : Bool) :
    RadioPacket :=
  if bodyLen > getMaxBodyLength then p
  else
    let d :=
      if !copy then
        let headerCopy := fresh junk getHeaderLength
        let headerCopy := (p._data.copyTo IDX_MOD junk (some headerCopy) getHeaderLength).getD headerCopy
        let d := p._data.resize IDX_MOD junk ((getHeaderLength + bodyLen) % 256) false
        d.copyFrom IDX_MOD junk (some headerCopy) getHeaderLength
      else
        p._data.resize IDX_MOD junk ((getHeaderLength + bodyLen) % 256) true
    let q : RadioPacket := { _data := d }
    let q := q.setRawPacketLength (getHeaderLength + bodyLen)
    q.setRawBodyLength bodyLen

/-- `RadioPacket::setBodyData`. -/
def setBodyData (junk : Nat → Byte) (p : RadioPacket) (data : Option (List Byte))
    (len : Nat) : RadioPacket :=
  let q := p.resizeBody junk len false
  { _data := q._data.copyFromAt IDX_MOD junk data len getHeaderLength }

/-- The constructor `RadioPacket(body, len)`. -/
def ctorBody (junk : Nat → Byte) (body : Option (List Byte)) (len : Nat) : RadioPacket :=
  (ctor junk).setBodyData junk body len

/-- `RadioPacket::generateChecksum`. -/
def generateChecksum (junk : Nat → Byte) (p : RadioPacket) : Nat :=
  let crc := Util.crc8 junk 0 none 0
  let crc := Util.crc8 junk crc p.getHeaderData (getHeaderLength - 1)
  let crc := Util.crc8 junk crc p.getBodyData (p.getRawBodyLength junk)
  crc

/-- `RadioPacket::reset`. -/
def reset (junk : Nat → Byte) (p : RadioPacket) : RadioPacket := _init junk p

/-- `RadioPacket::parse(p, buff, len)` for a non-null `buff`: the returned status
and the packet left in `*p` (none where the packet was never created or was
deleted again). -/
def parse (junk : Nat → Byte) (buff : List Byte) (len : Nat) : Nat × Option RadioPacket :=
  if len < getHeaderLength then (PARSE_ERROR_INCOMPLETE_HEADER, none)
  else
    let p := ctor junk
    let p : RadioPacket := { _data := p._data.copyFrom IDX_MOD junk (some buff) getHeaderLength }
    if p.getRawBodyLength junk > len - getHeaderLength then
      (PARSE_ERROR_INSUFFICIENT_BYTES, none)
    else if p.getRawBodyLength junk > getMaxBodyLength then
      (PARSE_ERROR_MAX_LENGTH_EXCEEDED, none)
    else
      (PARSE_OK,
        some (p.setBodyData junk (some (buff.drop getHeaderLength)) (p.getRawBodyLength junk)))

end RadioPacket

/-! ## src/Message.h, src/Message.cpp -/

/-- The class `Message`: a `NetworkBuffer<uint8_t, uint16_t>`. -/
structure Message where
  _data : ExpandingArray
  deriving DecidableEq

namespace Message

/-- Modulus of the message buffer index type `uint16_t`. -/
def IDX_MOD : Nat := 65536

def _HEADER_LEN : Nat := 4
def _BODYLEN_OFFSET : Nat := 0x0
def _ACTION_OFFSET : Nat := 0x2
def _BODY_OFFSET : Nat := 0x4

def _DEFAULT_HEADER_DATA : List Byte := [0x0, 0x0, 0x0, 0x0]

def PARSE_OK : Nat := 0
def PARSE_ERROR_INSUFFICIENT_HEADER_BYTES : Nat := 1
def PARSE_ERROR_INSUFFICIENT_BUFFER_BYTES : Nat := 2
def PARSE_ERROR_BODY_LENGTH_EXCEEDED : Nat := 3
def BODY_LENGTH_EXCEEDED : Nat := 4

def getMaxMessageLength : Nat := 0xffff

def getHeaderLength : Nat := _HEADER_LEN

def getMaxBodyLength : Nat := (getMaxMessageLength - getHeaderLength) % 65536

/-- `Message::_init`. -/
def _init (junk : Nat → Byte) (m : Message) : Message :=
  let d := m._data.clear false
  let d := d.resize IDX_MOD junk getHeaderLength false
  let d := d.copyFrom IDX_MOD junk (some _DEFAULT_HEADER_DATA) getHeaderLength
  { _data := d }

/-- The default constructor `Message()`. -/
def ctor (junk : Nat → Byte) : Message :=
  _init junk { _data := ExpandingArray.ctor IDX_MOD junk 0 }

def getRawBodyLength (junk : Nat → Byte) (m : Message) : Nat :=
  NetworkBuffer.getUInt16 IDX_MOD junk m._data _BODYLEN_OFFSET

def getRawAction (junk : Nat → Byte) (m : Message) : Nat :=
  NetworkBuffer.getUInt16 IDX_MOD junk m._data _ACTION_OFFSET

def setRawBodyLength (junk : Nat → Byte) (m : Message) (len : Nat) : Message :=
  { _data := NetworkBuffer.setUInt16 IDX_MOD junk m._data (len % 65536) _BODYLEN_OFFSET }

def setRawAction (junk : Nat → Byte) (m : Message) (action : Nat) : Message :=
  { _data := NetworkBuffer.setUInt16 IDX_MOD junk m._data (action % 65536) _ACTION_OFFSET }

def fromBaseBodyOffset (offset : Nat) : Nat := (getHeaderLength + offset) % 65536

def getMessageLength (m : Message) : Nat := m._data.length

/-- `Message::reset`. -/
def reset (junk : Nat → Byte) (m : Message) : Message := _init junk m

/-- `Message::resizeBody`. -/
def resizeBody (junk : Nat → Byte) (m : Message) (bodyLen : Nat) (copy : Bool) : Message :=
  if bodyLen > getMaxBodyLength then m
  else
    let d :=
      if !copy then
        let headerCopy := fresh junk getHeaderLength
        let headerCopy := (m._data.copyTo IDX_MOD junk (some headerCopy) getHeaderLength).getD headerCopy
        let d := m._data.resize IDX_MOD junk ((getHeaderLength + bodyLen) % 65536) false
        d.copyFrom IDX_MOD junk (some headerCopy) getHeaderLength
      else
        m._data.resize IDX_MOD junk ((getHeaderLength + bodyLen) % 65536) true
    let q : Message := { _data := d }
    q.setRawBodyLength junk bodyLen

/-- `Message::setBodyData`. -/
def setBodyData (junk : Nat → Byte) (m : Message) (data : Option (List Byte))
    (len : Nat) : Message :=
  let q := m.resizeBody junk len true
  { _data := q._data.copyFromAt IDX_MOD junk data len getHeaderLength }

/-- The constructor `Message(data, len)`. -/
def ctorBody (junk : Nat → Byte) (data : Option (List Byte)) (len : Nat) : Message :=
  (ctor junk).setBodyData junk data len

/-- `Message::getData`: pointer to the first storage byte. -/
def getData (m : Message) : Option (List Byte) := m._data._data

/-- `Message::getHeaderData`. -/
def getHeaderData (m : Message) : Option (List Byte) := m._data._data

/-- `Message::getBodyData`. -/
def getBodyData (m : Message) : Option (List Byte) :=
  m._data._data.map (fun c => c.drop getHeaderLength)

/-- `Message::parse(m, buff, len)` for a non-null `buff`: the returned status and
the message left in `*m` (none where it was never created or was deleted). -/
def parse (junk : Nat → Byte) (buff : List Byte) (len : Nat) : Nat × Option Message :=
  if len < getHeaderLength then (PARSE_ERROR_INSUFFICIENT_HEADER_BYTES, none)
  else
    let m := ctor junk
    let m : Message := { _data := m._data.copyFrom IDX_MOD junk (some buff) getHeaderLength }
    if m.getRawBodyLength junk < len - getHeaderLength then
      (PARSE_ERROR_INSUFFICIENT_BUFFER_BYTES, none)
    else if m.getRawBodyLength junk > getMaxBodyLength then
      (PARSE_ERROR_BODY_LENGTH_EXCEEDED, none)
    else
      (PARSE_OK,
        some (m.setBodyData junk (some (buff.drop getHeaderLength)) (m.getRawBodyLength junk)))

end Message

/-! ## Reading a packet or message the way its consumers do -/

/-- Big-endian value of a two-byte field. -/
def be16 (hi lo : Byte) : Nat := 256 * hi.val + lo.val

namespace RadioPacket

/-- The body of a packet as its readers take it (`defragment`, `getMessage`):
`getRawBodyLength()` bytes read through `getBodyData()`. -/
def body (junk : Nat → Byte) (p : RadioPacket) : List Byte :=
  readBytes junk (p.getBodyData.getD []) (p.getRawBodyLength junk)

/-- The serialized packet: the `_data.length()` bytes read through `getData()`. -/
def serialize (junk : Nat → Byte) (p : RadioPacket) : List Byte :=
  readBytes junk (p.getData.getD []) p._data.length

/-- A packet built by the body constructor followed by the raw setters. -/
def build (junk : Nat → Byte) (version tx rx frag crc : Nat) (b : List Byte) : RadioPacket :=
  (((((ctorBody junk (some b) b.length).setRawVersion version).setRawTransmitterId
    junk tx).setRawReceiverId junk rx).setRawFragmentNumber frag).setRawCrc8 crc

end RadioPacket

namespace Message

/-- The body of a message: `getRawBodyLength()` bytes read through
`getBodyData()`. -/
def body (junk : Nat → Byte) (m : Message) : List Byte :=
  readBytes junk (m.getBodyData.getD []) (m.getRawBodyLength junk)

/-- The serialized message: `getMessageLength()` bytes read through `getData()`. -/
def serialize (junk : Nat → Byte) (m : Message) : List Byte :=
  readBytes junk (m.getData.getD []) m.getMessageLength

/-- A message built by the body constructor followed by `setRawAction`. -/
def build (junk : Nat → Byte) (action : Nat) (b : List Byte) : Message :=
  (ctorBody junk (some b) b.length).setRawAction junk action

end Message

/-! ## Fragmentation and reassembly (RadioPacket.cpp) -/

/-- The bytes seen through the pointer `p + off` for a signed offset: a
non-negative offset skips bytes of the object, a negative one points before
the object, where indeterminate bytes are read. -/
def ptrOffset (junk : Nat → Byte) (p : List Byte) (off : Int) : List Byte :=
  if 0 ≤ off then p.drop off.toNat else fresh junk (-off).toNat ++ p

namespace RadioPacket

/-- `RadioPacket::calculateFragmentNumber`: `ceil(len / 246.0)` converted to
`uint8_t`.  Quotient and ceiling are exact in `double` for a 16-bit `len`; the
conversion of a value above 255 is rendered as reduction modulo 256. -/
def calculateFragmentNumber (len : Nat) : Nat :=
  ((len + (getMaxBodyLength - 1)) / getMaxBodyLength) % 256

/-- The array `RadioPacket** packets` handed in by the caller: one pointer per
slot, none for a slot that has not been assigned. -/
abbrev PacketArray := List (Option RadioPacket)

/-- `RadioPacket::fragment2` for a non-null `data`: the returned count and the
caller's array after the call. -/
def fragment2 (junk : Nat → Byte) (packets : PacketArray) (data : List Byte) (len : Nat) :
    Nat × PacketArray :=
  let fragments := calculateFragmentNumber (len % 65536)
  let packets := (List.range fragments).foldl
    (fun (pk : PacketArray) (f : Nat) =>
      let p := ctor junk
      let p := p.setRawFragmentNumber f
      let p := p.setBodyData junk (some (data.drop (f * getMaxBodyLength))) getMaxBodyLength
      pk.set f (some p))
    packets
  (fragments, packets)

/-- The local variables of `RadioPacket::fragment` together with the caller's
array. -/
structure FragmentState where
  packets : PacketArray
  fragmentNumber : Nat
  bytesPacketised : Nat
  deriving DecidableEq

/-- One pass through the body of the `while` loop of `RadioPacket::fragment`.
The pointer offset is computed in `int`; the two counters wrap as `uint16_t`
and `uint8_t`. -/
def fragmentBody (junk : Nat → Byte) (data : List Byte) (s : FragmentState) : FragmentState :=
  let p := ctor junk
  let p := p.setRawFragmentNumber s.fragmentNumber
  let p := p.setBodyData junk
    (some (ptrOffset junk data ((s.bytesPacketised : Int) - (getMaxBodyLength : Int))))
    getMaxBodyLength
  { packets := s.packets.set s.fragmentNumber (some p),
    fragmentNumber := (s.fragmentNumber + 1) % 256,
    bytesPacketised := (s.bytesPacketised + 65536 - getMaxBodyLength) % 65536 }

/-- The `while(bytesPacketised > 0)` loop of `RadioPacket::fragment`, run for at
most `fuel` evaluations of its condition; none when the fuel runs out before
the loop is left. -/
def fragmentLoop (junk : Nat → Byte) (data : List Byte) : Nat → FragmentState →
    Option FragmentState
  | 0, _ => none
  | fuel + 1, s =>
    if s.bytesPacketised > 0 then fragmentLoop junk data fuel (fragmentBody junk data s)
    else some s

/-- `RadioPacket::fragment` for a non-null `data`, with `fuel` bounding the
number of loop tests: the returned count and the caller's array after the call,
or none when the call has not returned within the fuel. -/
def fragment (fuel : Nat) (junk : Nat → Byte) (packets : PacketArray) (data : List Byte)
    (len : Nat) : Option (Nat × PacketArray) :=
  (fragmentLoop junk data fuel
      { packets := packets, fragmentNumber := 0, bytesPacketised := len % 65536 }).map
    (fun s => (s.fragmentNumber, s.packets))

/-- One pass through the body of the `for` loop of `RadioPacket::defragment`,
on the pair of `byteOffset` and the output buffer.  A slot that holds no
packet is skipped. -/
def defragmentBody (junk : Nat → Byte) (packets : PacketArray) (st : Nat × List Byte)
    (i : Nat) : Nat × List Byte :=
  match packets.getD i none with
  | some p =>
    ((st.1 + p.getRawBodyLength junk) % 65536,
      memcpy junk st.2 st.1 (p.getBodyData.getD []) (p.getRawBodyLength junk))
  | none => st

/-- `RadioPacket::defragment`: the returned value and the output buffer `data`
after the call. -/
def defragment (junk : Nat → Byte) (packets : PacketArray) (packetsLen : Nat)
    (data : List Byte) : Nat × List Byte :=
  let r := (List.range (packetsLen % 256)).foldl (defragmentBody junk packets) (0, data)
  ((r.1 + 1) % 65536, r.2)

/-- The packets an array holds in its first `n` slots, in array order. -/
def assigned (packets : PacketArray) (n : Nat) : List RadioPacket :=
  (packets.take n).filterMap id

/-- A packet whose storage is allocated with the recorded capacity and whose
buffer holds the header and exactly the body its header declares, within the
255 byte limit. -/
def WellFormed (junk : Nat → Byte) (p : RadioPacket) : Prop :=
  match p._data._data with
  | none => False
  | some cs =>
    cs.length = p._data._arrayLength ∧
    p._data._currentLength ≤ p._data._arrayLength ∧
    p._data._currentLength = 9 + p.getRawBodyLength junk ∧
    p.getRawPacketLength junk = p._data._currentLength

instance (junk : Nat → Byte) (p : RadioPacket) : Decidable (WellFormed junk p) := by
  unfold WellFormed
  split <;> infer_instance

/-- `RadioPacket::generateChecksum` with the CRC routine it calls left open. -/
def generateChecksumWith (crc8 : Nat → Option (List Byte) → Nat → Nat)
    (junk : Nat → Byte) (p : RadioPacket) : Nat :=
  let crc := crc8 0 none 0
  let crc := crc8 crc p.getHeaderData (getHeaderLength - 1)
  let crc := crc8 crc p.getBodyData (p.getRawBodyLength junk)
  crc

/-- The mutating calls on a packet that the well-formedness invariant ranges
over, with their arguments; `j` is the content of the memory the call allocates
or reads beyond its source. -/
inductive Op where
  | setBodyData (j : Nat → Byte) (data : Option (List Byte)) (len : Nat)
  | resizeBody (j : Nat → Byte) (bodyLen : Nat) (copy : Bool)
  | reset (j : Nat → Byte)
  | setRawVersion (version : Nat)
  | setRawTransmitterId (j : Nat → Byte) (id : Nat)
  | setRawReceiverId (j : Nat → Byte) (id : Nat)
  | setRawFragmentNumber (n : Nat)
  | setRawCrc8 (crc : Nat)

/-- One call on the packet. -/
def Op.call (p : RadioPacket) : Op → RadioPacket
  | Op.setBodyData j data len => p.setBodyData j data len
  | Op.resizeBody j bodyLen copy => p.resizeBody j bodyLen copy
  | Op.reset j => p.reset j
  | Op.setRawVersion version => p.setRawVersion version
  | Op.setRawTransmitterId j id => p.setRawTransmitterId j id
  | Op.setRawReceiverId j id => p.setRawReceiverId j id
  | Op.setRawFragmentNumber n => p.setRawFragmentNumber n
  | Op.setRawCrc8 crc => p.setRawCrc8 crc

/-- A sequence of calls on the packet, first call first. -/
def calls (ops : List Op) (p : RadioPacket) : RadioPacket :=
  ops.foldl Op.call p

/-- The call is not a `setBodyData` with `len` above `getMaxBodyLength()`. -/
def Op.withinLimit : Op → Bool
  | Op.setBodyData _ _ len => decide (len ≤ getMaxBodyLength)
  | _ => true

end RadioPacket

/-- The byte `x` with bit number `bit` inverted. -/
def flipBit (x : Byte) (bit : Nat) : Byte := toByte (x.val ^^^ 2 ^ bit)

namespace ExpandingArray

/-- The representation invariant of the buffer: a null storage pointer goes
with length and capacity 0, an allocated storage has the recorded capacity and
the length does not exceed it. -/
def Valid (a : ExpandingArray) : Prop :=
  match a._data with
  | none => a._currentLength = 0 ∧ a._arrayLength = 0
  | some cs => cs.length = a._arrayLength ∧ a._currentLength ≤ a._arrayLength

instance (a : ExpandingArray) : Decidable (Valid a) := by
  unfold Valid
  split <;> infer_instance

/-- The mutating operations of the buffer together with their arguments; `j` is
the content of the memory the call allocates or reads beyond its source. -/
inductive Op where
  | resize (j : Nat → Byte) (len : Nat) (copy : Bool)
  | allocate (j : Nat → Byte) (len : Nat) (copy zero : Bool)
  | reclaim (j : Nat → Byte) (zero : Bool)
  | clear (zero : Bool)
  | copyFrom (j : Nat → Byte) (data : Option (List Byte)) (len : Nat)
  | copyFromAt (j : Nat → Byte) (data : Option (List Byte)) (len i : Nat)

/-- One call on the buffer. -/
def Op.call (M : Nat) (a : ExpandingArray) : Op → ExpandingArray
  | Op.resize j len copy => a.resize M j len copy
  | Op.allocate j len copy zero => a.allocate M j len copy zero
  | Op.reclaim j zero => a.reclaim M j zero
  | Op.clear zero => a.clear zero
  | Op.copyFrom j data len => a.copyFrom M j data len
  | Op.copyFromAt j data len i => a.copyFromAt M j data len i

/-- A sequence of calls on the buffer, first call first. -/
def calls (M : Nat) (ops : List Op) (a : ExpandingArray) : ExpandingArray :=
  ops.foldl (Op.call M) a

end ExpandingArray

/-! ## Raw memory and buffer lemmas -/

theorem fresh_length (junk : Nat → Byte) (n : Nat) : (fresh junk n).length = n := by
  simp [fresh]

theorem readBytes_length (junk : Nat → Byte) (src : List Byte) (len : Nat) :
    (readBytes junk src len).length = len := by
  simp [readBytes]

theorem readBytes_eq_take (junk : Nat → Byte) (src : List Byte) (len : Nat)
    (h : len ≤ src.length) : readBytes junk src len = src.take len := by
  apply List.ext_getElem
  · simp [readBytes, h]
  · intro k h1 h2
    simp [readBytes] at h1 ⊢
    have hk : k < src.length := by omega
    simp [List.getD_eq_getElem?_getD, List.getElem?_eq_getElem hk]

theorem memcpy_eq (junk : Nat → Byte) (dst src : List Byte) (i len : Nat)
    (h1 : i + len ≤ dst.length) (h2 : len ≤ src.length) :
    memcpy junk dst i src len = dst.take i ++ src.take len ++ dst.drop (i + len) := by
  unfold memcpy
  rw [readBytes_eq_take junk src len h2]
  apply List.take_of_length_le
  simp
  omega

namespace ExpandingArray

theorem copyFromAt_fit (M : Nat) (junk : Nat → Byte) (c src : List Byte) (n k len i : Nat)
    (hlen : 0 < len) (hi : i % M < n) (hfit : i + len ≤ n) :
    copyFromAt M junk ⟨some c, n, k⟩ (some src) len i
      = ⟨some (memcpy junk c i src len), n, k⟩ := by
  have h1 : ¬ (len = 0) := by omega
  have h2 : ¬ ((i + len) % SIZE_MOD > n) := by
    have := Nat.mod_le (i + len) SIZE_MOD
    omega
  simp [copyFromAt, _indexInRange, h1, hi, h2]

theorem copyFromAt_zero (M : Nat) (junk : Nat → Byte) (a : ExpandingArray)
    (data : Option (List Byte)) (i : Nat) :
    copyFromAt M junk a data 0 i = a := by
  cases data <;> simp [copyFromAt]

theorem copyToAt_fit (M : Nat) (junk : Nat → Byte) (c dst : List Byte) (n k len i : Nat)
    (hi : i % M < n) (hfit : i + len ≤ n) :
    copyToAt M junk ⟨some c, n, k⟩ (some dst) len i
      = some (memcpy junk dst 0 (c.drop i) len) := by
  have h1 : ¬ (len > n) := by omega
  have h2 : ¬ ((i + len) % SIZE_MOD > n) := by
    have := Nat.mod_le (i + len) SIZE_MOD
    omega
  simp [copyToAt, _indexInRange, cells, h1, hi, h2]

theorem resize_same (M : Nat) (junk : Nat → Byte) (c : List Byte) (n k : Nat) (copy : Bool) :
    resize M junk ⟨some c, n, k⟩ n copy = ⟨some c, n, k⟩ := by
  simp [resize]

theorem resize_within (M : Nat) (junk : Nat → Byte) (c : List Byte) (n k len : Nat)
    (copy : Bool) (h1 : len ≠ n) (h2 : len < k) :
    resize M junk ⟨some c, n, k⟩ len copy = ⟨some c, len, k⟩ := by
  simp [resize, h1, h2]

theorem resize_grow_nocopy (M : Nat) (junk : Nat → Byte) (c : List Byte) (n k len : Nat)
    (h1 : n < len) (h2 : k ≤ len) :
    resize M junk ⟨some c, n, k⟩ len false = ⟨some (fresh junk len), len, len⟩ := by
  have h3 : ¬ (len = n) := by omega
  have h4 : ¬ (len < k) := by omega
  have h5 : ¬ (len ≤ n) := by omega
  simp [resize, allocate, h3, h4, h5]

theorem resize_grow_copy (M : Nat) (junk : Nat → Byte) (c : List Byte) (n k len : Nat)
    (h0 : 0 < n) (h1 : n < len) (h2 : k ≤ len) :
    resize M junk ⟨some c, n, k⟩ len true
      = ⟨some (memcpy junk (fresh junk len) 0 c n), len, len⟩ := by
  have h3 : ¬ (len = n) := by omega
  have h4 : ¬ (len < k) := by omega
  have h5 : ¬ (len ≤ n) := by omega
  have h6 : copyTo M junk ⟨some c, n, k⟩ (some (fresh junk len)) n
      = some (memcpy junk (fresh junk len) 0 c n) := by
    unfold copyTo
    simp only [h0, if_true]
    rw [copyToAt_fit M junk c _ n k n 0 (by simpa using h0) (by omega)]
    simp
  simp [resize, allocate, h3, h4, h5, h6]

end ExpandingArray

theorem memcpy_length (junk : Nat → Byte) (dst src : List Byte) (i len : Nat) :
    (memcpy junk dst i src len).length = dst.length := by
  unfold memcpy
  simp [readBytes_length]
  omega

theorem take_of_length_eq {α : Type} (l : List α) (n : Nat) (h : l.length = n) :
    l.take n = l := by
  rw [← h]; exact List.take_length l

theorem drop_of_length_eq {α : Type} (l : List α) (n : Nat) (h : l.length = n) :
    l.drop n = [] := by
  rw [← h]; exact List.drop_length l

/-! ## 16-bit network-order accessors -/

section Accessors
open ExpandingArray

theorem bswap16_obj (x y : Byte) : Util.bswap16 (x.val + 256 * y.val) = 256 * x.val + y.val := by
  have hx := x.isLt
  have hy := y.isLt
  unfold Util.bswap16
  omega

theorem objBytes16_htons (s : Nat) :
    objBytes16 (Util.htons s) = [toByte (s / 256), toByte s] := by
  have h1 : (s % 256 * 256 + s / 256 % 256) / 256 = s % 256 := by
    rw [Nat.add_comm, Nat.add_mul_div_right _ _ (by decide : 0 < 256)]
    have : s / 256 % 256 / 256 = 0 := Nat.div_eq_of_lt (Nat.mod_lt _ (by decide))
    omega
  unfold objBytes16 Util.htons Util.bswap16 toByte
  simp only [List.cons.injEq, Fin.mk.injEq, and_true]
  constructor
  · omega
  · rw [h1]; omega

theorem take_two_drop (l : List Byte) (off : Nat) (h : off + 1 < l.length) :
    (l.drop off).take 2 = [l.getD off 0, l.getD (off + 1) 0] := by
  have h0 : off < l.length := by omega
  have e0 : l.getD off 0 = l[off] := by
    simp [List.getD_eq_getElem?_getD, List.getElem?_eq_getElem h0]
  have e1 : l.getD (off + 1) 0 = l[off + 1] := by
    simp [List.getD_eq_getElem?_getD, List.getElem?_eq_getElem h]
  rw [List.drop_eq_getElem_cons h0, List.drop_eq_getElem_cons h, e0, e1]
  rfl

theorem getUInt16_cells (M : Nat) (junk : Nat → Byte) (c : List Byte) (n k off : Nat)
    (hoff : off % M < n) (hfit : off + 2 ≤ n) (hc : n ≤ c.length) :
    NetworkBuffer.getUInt16 M junk ⟨some c, n, k⟩ off
      = 256 * (c.getD off 0).val + (c.getD (off + 1) 0).val := by
  unfold NetworkBuffer.getUInt16
  simp only [copyToAt_fit M junk c _ n k 2 off hoff hfit, Option.getD_some]
  rw [memcpy_eq junk _ _ 0 2 (by simp [fresh_length]) (by simp; omega)]
  rw [take_two_drop c off (by omega)]
  unfold Util.ntohs ofObjBytes16
  rw [← bswap16_obj]
  simp

theorem setUInt16_cells (M : Nat) (junk : Nat → Byte) (c : List Byte) (n k s off : Nat)
    (hoff : off % M < n) (hfit : off + 2 ≤ n) (hc : n ≤ c.length) :
    NetworkBuffer.setUInt16 M junk ⟨some c, n, k⟩ s off
      = ⟨some (c.take off ++ [toByte (s / 256), toByte s] ++ c.drop (off + 2)), n, k⟩ := by
  unfold NetworkBuffer.setUInt16
  simp only [objBytes16_htons s]
  rw [copyFromAt_fit M junk c _ n k 2 off (by decide) hoff hfit]
  rw [memcpy_eq junk _ _ off 2 (by omega) (by simp)]
  simp

end Accessors

/-! ## Packet body assignment on a header-only buffer -/

namespace RadioPacket
open ExpandingArray

theorem copyTo_header (junk : Nat → Byte) (h : List Byte) (n k : Nat) (hh : 9 ≤ h.length)
    (hn : 9 ≤ n) :
    (⟨some h, n, k⟩ : ExpandingArray).copyTo IDX_MOD junk (some (fresh junk 9)) 9
      = some (h.take 9) := by
  unfold copyTo
  simp only [show (9:Nat) > 0 by decide, if_true]
  rw [copyToAt_fit IDX_MOD junk h _ n k 9 0 (by simp; omega) (by omega)]
  rw [memcpy_eq junk _ _ 0 9 (by simp [fresh_length]) (by simpa using hh)]
  simp [drop_of_length_eq _ 9 (fresh_length junk 9)]

theorem resize_copyFrom_header (junk : Nat → Byte) (h : List Byte) (len : Nat)
    (hh : h.length = 9) :
    ((⟨some h, 9, 9⟩ : ExpandingArray).resize IDX_MOD junk (9 + len) false).copyFrom
        IDX_MOD junk (some h) 9
      = ⟨some (h ++ (fresh junk (9 + len)).drop 9), 9 + len, 9 + len⟩ := by
  rcases Nat.eq_zero_or_pos len with h0 | hpos
  · subst h0
    rw [resize_same]
    unfold copyFrom
    rw [copyFromAt_fit IDX_MOD junk h h 9 9 9 0 (by decide) (by decide) (by decide)]
    rw [memcpy_eq junk _ _ 0 9 (by simp [hh]) (by simp [hh])]
    simp [take_of_length_eq h 9 hh, drop_of_length_eq h 9 hh,
      drop_of_length_eq _ 9 (fresh_length junk 9)]
  · rw [resize_grow_nocopy IDX_MOD junk h 9 9 (9 + len) (by omega) (by omega)]
    unfold copyFrom
    rw [copyFromAt_fit IDX_MOD junk _ h (9 + len) (9 + len) 9 0 (by decide)
      (by simp) (by omega)]
    rw [memcpy_eq junk _ _ 0 9 (by simp [fresh_length]) (by simp [hh])]
    simp [take_of_length_eq h 9 hh]

theorem packet_resizeBody_header (junk : Nat → Byte) (h : List Byte) (len : Nat)
    (hh : h.length = 9) (hlen : len ≤ 246) :
    resizeBody junk ⟨⟨some h, 9, 9⟩⟩ len false
      = ⟨⟨some ((h.set 0 (toByte (9 + len))).set 7 (toByte len)
            ++ (fresh junk (9 + len)).drop 9), 9 + len, 9 + len⟩⟩ := by
  have hmax : ¬ (len > getMaxBodyLength) := by
    simp [getMaxBodyLength, getMaxPacketLength, getHeaderLength, _HEADER_LEN]; omega
  have hmod : (9 + len) % 256 = 9 + len := Nat.mod_eq_of_lt (by omega)
  have hcopy := copyTo_header junk h 9 9 (by omega) (by omega)
  rw [take_of_length_eq h 9 hh] at hcopy
  have hd := resize_copyFrom_header junk h len hh
  unfold resizeBody
  simp only [hmax, if_false, getHeaderLength, _HEADER_LEN, hcopy, Option.getD_some, hmod,
    Bool.not_false, if_true, hd, setRawBodyLength, setRawPacketLength, ExpandingArray.set,
    Option.map_some']
  simp [List.set_append, hh]

theorem packet_setBodyData_header (junk : Nat → Byte) (h src : List Byte) (len : Nat)
    (hh : h.length = 9) (hlen : len ≤ 246) (hsrc : len ≤ src.length) :
    setBodyData junk ⟨⟨some h, 9, 9⟩⟩ (some src) len
      = ⟨⟨some ((h.set 0 (toByte (9 + len))).set 7 (toByte len) ++ src.take len),
          9 + len, 9 + len⟩⟩ := by
  unfold setBodyData
  simp only [packet_resizeBody_header junk h len hh hlen, getHeaderLength, _HEADER_LEN]
  rcases Nat.eq_zero_or_pos len with h0 | hpos
  · subst h0
    simp [copyFromAt_zero, drop_of_length_eq _ 9 (fresh_length junk 9)]
  · rw [copyFromAt_fit IDX_MOD junk _ src (9 + len) (9 + len) len 9 hpos
      (by simp [IDX_MOD]; omega) (by omega)]
    rw [memcpy_eq junk _ _ 9 len (by simp [fresh_length, hh]) hsrc]
    simp [hh, fresh_length]

end RadioPacket

theorem list_len4 (h : List Byte) (hh : h.length = 4) :
    ∃ a0 a1 a2 a3, h = [a0, a1, a2, a3] := by
  match h, hh with
  | [a0, a1, a2, a3], _ => exact ⟨_, _, _, _, rfl⟩

theorem list_len9 (h : List Byte) (hh : h.length = 9) :
    ∃ a0 a1 a2 a3 a4 a5 a6 a7 a8, h = [a0, a1, a2, a3, a4, a5, a6, a7, a8] := by
  match h, hh with
  | [a0, a1, a2, a3, a4, a5, a6, a7, a8], _ => exact ⟨_, _, _, _, _, _, _, _, _, rfl⟩

/-! ## Message body assignment on a header-only buffer -/

namespace Message
open ExpandingArray

theorem message_ctor_eq (junk : Nat → Byte) :
    ctor junk = ⟨⟨some [0, 0, 0, 0], 4, 4⟩⟩ := rfl

theorem message_resizeBody_header (junk : Nat → Byte) (a0 a1 a2 a3 : Byte) (len : Nat)
    (hlen : len ≤ 65531) :
    resizeBody junk ⟨⟨some [a0, a1, a2, a3], 4, 4⟩⟩ len true
      = ⟨⟨some ([toByte (len / 256), toByte len, a2, a3] ++ (fresh junk (4 + len)).drop 4),
          4 + len, 4 + len⟩⟩ := by
  have hmax : ¬ (len > getMaxBodyLength) := by
    simp [getMaxBodyLength, getMaxMessageLength, getHeaderLength, _HEADER_LEN]; omega
  have hmod : (4 + len) % 65536 = 4 + len := Nat.mod_eq_of_lt (by omega)
  have hmod2 : len % 65536 = len := Nat.mod_eq_of_lt (by omega)
  have hd : (⟨some [a0, a1, a2, a3], 4, 4⟩ : ExpandingArray).resize IDX_MOD junk (4 + len) true
      = ⟨some ([a0, a1, a2, a3] ++ (fresh junk (4 + len)).drop 4), 4 + len, 4 + len⟩ := by
    rcases Nat.eq_zero_or_pos len with h0 | hpos
    · subst h0
      rw [resize_same]
      simp [drop_of_length_eq _ 4 (fresh_length junk 4)]
    · rw [resize_grow_copy IDX_MOD junk _ 4 4 (4 + len) (by decide) (by omega) (by omega)]
      rw [memcpy_eq junk _ _ 0 4 (by simp [fresh_length]) (by simp)]
      simp
  unfold resizeBody
  simp only [hmax, if_false, getHeaderLength, _HEADER_LEN, hmod, Bool.not_true,
    Bool.false_eq_true, hd, setRawBodyLength, hmod2, _BODYLEN_OFFSET]
  rw [setUInt16_cells IDX_MOD junk _ (4 + len) (4 + len) len 0 (by simp) (by omega)
    (by simp [fresh_length]; omega)]
  simp

theorem message_setBodyData_header (junk : Nat → Byte) (a0 a1 a2 a3 : Byte) (src : List Byte)
    (len : Nat) (hlen : len ≤ 65531) (hsrc : len ≤ src.length) :
    setBodyData junk ⟨⟨some [a0, a1, a2, a3], 4, 4⟩⟩ (some src) len
      = ⟨⟨some ([toByte (len / 256), toByte len, a2, a3] ++ src.take len),
          4 + len, 4 + len⟩⟩ := by
  unfold setBodyData
  simp only [message_resizeBody_header junk a0 a1 a2 a3 len hlen, getHeaderLength, _HEADER_LEN]
  rcases Nat.eq_zero_or_pos len with h0 | hpos
  · subst h0
    simp [copyFromAt_zero, drop_of_length_eq _ 4 (fresh_length junk 4)]
  · rw [copyFromAt_fit IDX_MOD junk _ src (4 + len) (4 + len) len 4 hpos
      (by simp [IDX_MOD]; omega) (by omega)]
    rw [memcpy_eq junk _ _ 4 len (by simp [fresh_length]; omega) hsrc]
    simp [fresh_length]
    omega

end Message

theorem be16_toByte (s : Nat) (hs : s < 65536) : be16 (toByte (s / 256)) (toByte s) = s := by
  unfold be16 toByte
  simp only
  omega

theorem readBytes_self (junk : Nat → Byte) (l : List Byte) (n : Nat) (h : l.length = n) :
    readBytes junk l n = l := by
  rw [readBytes_eq_take junk l n (by omega), take_of_length_eq l n h]

/-! ## Message: construction, parsing and field access in closed form -/

namespace Message
open ExpandingArray

theorem message_parse_cons (junk : Nat → Byte) (b0 b1 b2 b3 : Byte) (rest : List Byte) (len : Nat)
    (hlen : 4 ≤ len) :
    parse junk (b0 :: b1 :: b2 :: b3 :: rest) len
      = if be16 b0 b1 < len - 4 then (PARSE_ERROR_INSUFFICIENT_BUFFER_BYTES, none)
        else if be16 b0 b1 > 65531 then (PARSE_ERROR_BODY_LENGTH_EXCEEDED, none)
        else (PARSE_OK,
          some (setBodyData junk ⟨⟨some [b0, b1, b2, b3], 4, 4⟩⟩ (some rest) (be16 b0 b1))) := by
  have h1 : ¬ (len < getHeaderLength) := by
    simp [getHeaderLength, _HEADER_LEN]; omega
  have h2 : (ctor junk)._data.copyFrom IDX_MOD junk (some (b0 :: b1 :: b2 :: b3 :: rest))
      getHeaderLength = ⟨some [b0, b1, b2, b3], 4, 4⟩ := rfl
  have h3 : getRawBodyLength junk ⟨⟨some [b0, b1, b2, b3], 4, 4⟩⟩ = be16 b0 b1 := by
    unfold getRawBodyLength
    rw [getUInt16_cells IDX_MOD junk _ 4 4 _ (by decide) (by decide) (by simp)]
    rfl
  unfold parse
  simp only [h1, if_false, h2, h3]
  rfl

theorem message_build_eq (junk : Nat → Byte) (a : Nat) (b : List Byte) (hb : b.length ≤ 65531) :
    build junk a b
      = ⟨⟨some ([toByte (b.length / 256), toByte b.length, toByte (a % 65536 / 256),
          toByte (a % 65536)] ++ b), 4 + b.length, 4 + b.length⟩⟩ := by
  unfold build ctorBody
  rw [message_ctor_eq, message_setBodyData_header junk 0 0 0 0 b b.length hb (le_refl _)]
  unfold setRawAction
  rw [setUInt16_cells IDX_MOD junk _ (4 + b.length) (4 + b.length) _ _ (by simp [_ACTION_OFFSET, IDX_MOD]; omega)
    (by simp [_ACTION_OFFSET]) (by simp; omega)]
  simp [_ACTION_OFFSET]


theorem message_fields_of_cells (junk : Nat → Byte) (a0 a1 a2 a3 : Byte) (b : List Byte) (n k : Nat)
    (hn : 4 ≤ n) (hk : n ≤ 4 + b.length) :
    getRawBodyLength junk ⟨⟨some ([a0, a1, a2, a3] ++ b), n, k⟩⟩ = be16 a0 a1 ∧
    getRawAction junk ⟨⟨some ([a0, a1, a2, a3] ++ b), n, k⟩⟩ = be16 a2 a3 := by
  unfold getRawBodyLength getRawAction
  rw [getUInt16_cells IDX_MOD junk _ n k _ (by simp [_BODYLEN_OFFSET]; omega)
      (by simp [_BODYLEN_OFFSET]; omega) (by simp; omega),
    getUInt16_cells IDX_MOD junk _ n k _ (by simp [_ACTION_OFFSET, IDX_MOD]; omega)
      (by simp [_ACTION_OFFSET]; omega) (by simp; omega)]
  exact ⟨rfl, rfl⟩

end Message


/-! ## Packet: construction, parsing and field access in closed form -/

namespace RadioPacket
open ExpandingArray

theorem packet_ctor_eq (junk : Nat → Byte) :
    ctor junk = ⟨⟨some [9, 1, 0, 0, 0xff, 0xff, 1, 0, 0], 9, 9⟩⟩ := rfl

theorem packet_parse_cons (junk : Nat → Byte) (b0 b1 b2 b3 b4 b5 b6 b7 b8 : Byte) (rest : List Byte)
    (len : Nat) (hlen : 9 ≤ len) :
    parse junk (b0 :: b1 :: b2 :: b3 :: b4 :: b5 :: b6 :: b7 :: b8 :: rest) len
      = if b7.val > len - 9 then (PARSE_ERROR_INSUFFICIENT_BYTES, none)
        else if b7.val > 246 then (PARSE_ERROR_MAX_LENGTH_EXCEEDED, none)
        else (PARSE_OK,
          some (setBodyData junk ⟨⟨some [b0, b1, b2, b3, b4, b5, b6, b7, b8], 9, 9⟩⟩
            (some rest) b7.val)) := by
  have h1 : ¬ (len < getHeaderLength) := by
    simp [getHeaderLength, _HEADER_LEN]; omega
  have h2 : (ctor junk)._data.copyFrom IDX_MOD junk
      (some (b0 :: b1 :: b2 :: b3 :: b4 :: b5 :: b6 :: b7 :: b8 :: rest))
      getHeaderLength = ⟨some [b0, b1, b2, b3, b4, b5, b6, b7, b8], 9, 9⟩ := rfl
  have h3 : getRawBodyLength junk ⟨⟨some [b0, b1, b2, b3, b4, b5, b6, b7, b8], 9, 9⟩⟩
      = b7.val := rfl
  unfold parse
  simp only [h1, if_false, h2, h3]
  rfl

theorem packet_fields_of_cells (junk : Nat → Byte) (a0 a1 a2 a3 a4 a5 a6 a7 a8 : Byte)
    (b : List Byte) (n k : Nat) (hn : 9 ≤ n) (hk : n ≤ 9 + b.length) :
    getRawPacketLength junk ⟨⟨some ([a0, a1, a2, a3, a4, a5, a6, a7, a8] ++ b), n, k⟩⟩
      = a0.val ∧
    getRawVersion junk ⟨⟨some ([a0, a1, a2, a3, a4, a5, a6, a7, a8] ++ b), n, k⟩⟩
      = a1.val ∧
    getRawTransmitterId junk ⟨⟨some ([a0, a1, a2, a3, a4, a5, a6, a7, a8] ++ b), n, k⟩⟩
      = be16 a2 a3 ∧
    getRawReceiverId junk ⟨⟨some ([a0, a1, a2, a3, a4, a5, a6, a7, a8] ++ b), n, k⟩⟩
      = be16 a4 a5 ∧
    getRawFragmentNumber junk ⟨⟨some ([a0, a1, a2, a3, a4, a5, a6, a7, a8] ++ b), n, k⟩⟩
      = a6.val ∧
    getRawBodyLength junk ⟨⟨some ([a0, a1, a2, a3, a4, a5, a6, a7, a8] ++ b), n, k⟩⟩
      = a7.val ∧
    getRawCrc8 junk ⟨⟨some ([a0, a1, a2, a3, a4, a5, a6, a7, a8] ++ b), n, k⟩⟩
      = a8.val := by
  refine ⟨rfl, rfl, ?_, ?_, rfl, rfl, rfl⟩
  · unfold getRawTransmitterId
    rw [getUInt16_cells IDX_MOD junk _ n k _ (by simp [IDX_MOD]; omega) (by omega)
      (by simp; omega)]
    rfl
  · unfold getRawReceiverId
    rw [getUInt16_cells IDX_MOD junk _ n k _ (by simp [IDX_MOD]; omega) (by omega)
      (by simp; omega)]
    rfl

theorem packet_build_eq (junk : Nat → Byte) (v tx rx f c : Nat) (b : List Byte)
    (hb : b.length ≤ 246) :
    build junk v tx rx f c b
      = ⟨⟨some ([toByte (9 + b.length), toByte v, toByte (tx % 65536 / 256),
            toByte (tx % 65536), toByte (rx % 65536 / 256), toByte (rx % 65536), toByte f,
            toByte b.length, toByte c] ++ b), 9 + b.length, 9 + b.length⟩⟩ := by
  unfold build ctorBody
  rw [packet_ctor_eq, packet_setBodyData_header junk [9, 1, 0, 0, 0xff, 0xff, 1, 0, 0] b b.length rfl hb (le_refl _)]
  unfold setRawTransmitterId setRawReceiverId
  simp only [setRawVersion, setRawFragmentNumber, setRawCrc8, ExpandingArray.set,
    Option.map_some']
  rw [setUInt16_cells IDX_MOD junk _ (9 + b.length) (9 + b.length) _ _
    (by simp [IDX_MOD]; omega) (by omega) (by simp; omega)]
  rw [setUInt16_cells IDX_MOD junk _ (9 + b.length) (9 + b.length) _ _
    (by simp [IDX_MOD]; omega) (by omega) (by simp; omega)]
  simp

end RadioPacket

/-! ## Auxiliary facts for the claims -/

theorem toByte_val (n : Nat) (h : n < 256) : (toByte n).val = n := by
  unfold toByte
  exact Nat.mod_eq_of_lt h

theorem list_ge4 (l : List Byte) (h : 4 ≤ l.length) :
    ∃ b0 b1 b2 b3 rest, l = b0 :: b1 :: b2 :: b3 :: rest := by
  match l, h with
  | b0 :: b1 :: b2 :: b3 :: rest, _ => exact ⟨_, _, _, _, _, rfl⟩

theorem list_ge9 (l : List Byte) (h : 9 ≤ l.length) :
    ∃ b0 b1 b2 b3 b4 b5 b6 b7 b8 rest,
      l = b0 :: b1 :: b2 :: b3 :: b4 :: b5 :: b6 :: b7 :: b8 :: rest := by
  match l, h with
  | b0 :: b1 :: b2 :: b3 :: b4 :: b5 :: b6 :: b7 :: b8 :: rest, _ =>
    exact ⟨_, _, _, _, _, _, _, _, _, _, rfl⟩

set_option maxRecDepth 100000 in
theorem crc8_default_header :
    List.foldl Util.crc8_update 0 [(9 : Byte), 1, 0, 0, 0xff, 0xff, 1, 0] = 169 := by
  decide

theorem generateChecksum_cells (junk : Nat → Byte) (a0 a1 a2 a3 a4 a5 a6 a7 a8 : Byte)
    (b : List Byte) (n k : Nat) :
    RadioPacket.generateChecksum junk
        ⟨⟨some ([a0, a1, a2, a3, a4, a5, a6, a7, a8] ++ b), n, k⟩⟩
      = List.foldl Util.crc8_update
          (List.foldl Util.crc8_update 0 [a0, a1, a2, a3, a4, a5, a6, a7] % 256)
          (readBytes junk b a7.val) := by
  rfl

theorem generateChecksum_default (junk jr : Nat → Byte) :
    RadioPacket.generateChecksum jr (RadioPacket.ctor junk) = 169 := by
  rw [RadioPacket.packet_ctor_eq]
  have h := generateChecksum_cells jr 9 1 0 0 0xff 0xff 1 0 0 [] 9 9
  simp only [List.append_nil] at h
  rw [h, crc8_default_header]
  rfl


/-! ## Body assignment on an arbitrary packet buffer -/

section GeneralBody
open ExpandingArray

theorem memcpy_eq_read (junk : Nat → Byte) (dst src : List Byte) (i len : Nat)
    (h1 : i + len ≤ dst.length) :
    memcpy junk dst i src len = dst.take i ++ readBytes junk src len ++ dst.drop (i + len) := by
  unfold memcpy
  apply List.take_of_length_le
  simp [readBytes_length]
  omega

/-- After the header-preserving resize of `resizeBody(len, false)` the buffer
holds the old header followed by `len` or more body cells. -/
theorem packet_resize_keep_header (junk : Nat → Byte) (a0 a1 a2 a3 a4 a5 a6 a7 a8 : Byte)
    (rest : List Byte) (n k len : Nat) (hk : 9 + rest.length = k) (hn9 : 9 ≤ n)
    (hnk : n ≤ k) :
    ∃ X, len ≤ X.length ∧
      ((⟨some ([a0, a1, a2, a3, a4, a5, a6, a7, a8] ++ rest), n, k⟩ : ExpandingArray).resize
          RadioPacket.IDX_MOD junk (9 + len) false).copyFrom RadioPacket.IDX_MOD junk
          (some [a0, a1, a2, a3, a4, a5, a6, a7, a8]) 9
        = ⟨some ([a0, a1, a2, a3, a4, a5, a6, a7, a8] ++ X), 9 + len, 9 + X.length⟩ := by
  by_cases hA : 9 + len = n
  · refine ⟨rest, by omega, ?_⟩
    subst hA
    rw [resize_same]
    unfold copyFrom
    rw [copyFromAt_fit _ junk _ _ _ _ 9 0 (by decide) (by simp) (by omega)]
    rw [memcpy_eq junk _ _ 0 9 (by simp) (by simp)]
    simp [hk]
  · by_cases hB : 9 + len < k
    · refine ⟨rest, by omega, ?_⟩
      rw [resize_within _ junk _ n k (9 + len) false hA hB]
      unfold copyFrom
      rw [copyFromAt_fit _ junk _ _ _ _ 9 0 (by decide) (by simp) (by omega)]
      rw [memcpy_eq junk _ _ 0 9 (by simp) (by simp)]
      simp [hk]
    · refine ⟨(fresh junk (9 + len)).drop 9, by simp [fresh_length], ?_⟩
      rw [resize_grow_nocopy _ junk _ n k (9 + len) (by omega) (by omega)]
      unfold copyFrom
      rw [copyFromAt_fit _ junk _ _ _ _ 9 0 (by decide) (by simp) (by omega)]
      rw [memcpy_eq junk _ _ 0 9 (by simp [fresh_length]) (by simp)]
      simp [fresh_length]

theorem packet_setBodyData_general (junk : Nat → Byte) (a0 a1 a2 a3 a4 a5 a6 a7 a8 : Byte)
    (rest : List Byte) (src : List Byte) (n k len : Nat) (hk : 9 + rest.length = k)
    (hn9 : 9 ≤ n) (hnk : n ≤ k) (hlen : len ≤ 246) :
    ∃ tail, RadioPacket.setBodyData junk
        ⟨⟨some ([a0, a1, a2, a3, a4, a5, a6, a7, a8] ++ rest), n, k⟩⟩ (some src) len
      = ⟨⟨some ([toByte (9 + len), a1, a2, a3, a4, a5, a6, toByte len, a8]
            ++ (readBytes junk src len ++ tail)), 9 + len, 9 + len + tail.length⟩⟩ := by
  have hmax : ¬ (len > RadioPacket.getMaxBodyLength) := by
    simp [RadioPacket.getMaxBodyLength, RadioPacket.getMaxPacketLength,
      RadioPacket.getHeaderLength, RadioPacket._HEADER_LEN]; omega
  have hmod : (9 + len) % 256 = 9 + len := Nat.mod_eq_of_lt (by omega)
  have hcopy := RadioPacket.copyTo_header junk ([a0, a1, a2, a3, a4, a5, a6, a7, a8] ++ rest)
    n k (by simp) hn9
  have htake : List.take 9 ([a0, a1, a2, a3, a4, a5, a6, a7, a8] ++ rest)
      = [a0, a1, a2, a3, a4, a5, a6, a7, a8] := by simp
  rw [htake] at hcopy
  obtain ⟨X, hX, hd⟩ := packet_resize_keep_header junk a0 a1 a2 a3 a4 a5 a6 a7 a8 rest n k len
    hk hn9 hnk
  unfold RadioPacket.setBodyData RadioPacket.resizeBody
  simp only [hmax, if_false, RadioPacket.getHeaderLength, RadioPacket._HEADER_LEN, hcopy,
    Option.getD_some, hmod, Bool.not_false, if_true, hd, RadioPacket.setRawBodyLength,
    RadioPacket.setRawPacketLength, ExpandingArray.set, Option.map_some']
  rcases Nat.eq_zero_or_pos len with h0 | hpos
  · subst h0
    refine ⟨X, ?_⟩
    simp [copyFromAt_zero, readBytes]
  · refine ⟨X.drop len, ?_⟩
    rw [copyFromAt_fit _ junk _ src (9 + len) _ len 9 hpos
      (by simp [RadioPacket.IDX_MOD]; omega) (by omega)]
    rw [memcpy_eq_read junk _ _ 9 len (by simp; omega)]
    simp
    exact ⟨by rw [Nat.add_comm 9 len]; rfl, by omega⟩

end GeneralBody

/-! ## Well-formed packets and buffer lengths -/

section WellFormedPackets
open ExpandingArray

theorem wellFormed_cases (junk : Nat → Byte) (p : RadioPacket)
    (h : RadioPacket.WellFormed junk p) :
    ∃ (a0 a1 a2 a3 a4 a5 a6 a7 a8 : Byte) (rest : List Byte) (n k : Nat),
      p = ⟨⟨some ([a0, a1, a2, a3, a4, a5, a6, a7, a8] ++ rest), n, k⟩⟩ ∧
      9 + rest.length = k ∧ n ≤ k ∧ n = 9 + a7.val ∧ a0.val = n := by
  obtain ⟨⟨d, n, k⟩⟩ := p
  unfold RadioPacket.WellFormed at h
  cases d with
  | none => simp at h
  | some cs =>
    simp only at h
    obtain ⟨h1, h2, h3, h4⟩ := h
    have h9 : 9 ≤ cs.length := by omega
    obtain ⟨a0, a1, a2, a3, a4, a5, a6, a7, a8, rest, rfl⟩ := list_ge9 cs h9
    have hb : RadioPacket.getRawBodyLength junk
        ⟨⟨some (a0 :: a1 :: a2 :: a3 :: a4 :: a5 :: a6 :: a7 :: a8 :: rest), n, k⟩⟩
        = a7.val := rfl
    have hp : RadioPacket.getRawPacketLength junk
        ⟨⟨some (a0 :: a1 :: a2 :: a3 :: a4 :: a5 :: a6 :: a7 :: a8 :: rest), n, k⟩⟩
        = a0.val := rfl
    rw [hb] at h3
    rw [hp] at h4
    refine ⟨a0, a1, a2, a3, a4, a5, a6, a7, a8, rest, n, k, rfl, ?_, h2, h3, h4⟩
    simp only [List.length_cons] at h1
    omega

theorem readBytes_append_left (junk : Nat → Byte) (b tail : List Byte) (len : Nat)
    (h : len ≤ b.length) : readBytes junk (b ++ tail) len = b.take len := by
  rw [readBytes_eq_take junk _ len (by simp; omega)]
  exact List.take_append_of_le_length h

theorem resize_currentLength (M : Nat) (junk : Nat → Byte) (a : ExpandingArray) (len : Nat)
    (copy : Bool) : (a.resize M junk len copy)._currentLength = len := by
  unfold resize
  split
  · rename_i h
    exact h.1.symm
  · split <;> rfl

theorem copyFromAt_grow_length (M : Nat) (junk : Nat → Byte) (a : ExpandingArray)
    (src : List Byte) (len i : Nat) (hlen : 0 < len) (hi : a._indexInRange M i = true)
    (hgrow : (i + len) % SIZE_MOD > a._currentLength) :
    (a.copyFromAt M junk (some src) len i)._currentLength
      = ((a._currentLength
          + (a._currentLength + SIZE_MOD - (i + len) % SIZE_MOD) % SIZE_MOD)
        % SIZE_MOD) % M := by
  have h1 : ¬ (len = 0) := by omega
  simp only [copyFromAt, h1, if_false, hi, Bool.not_true, Bool.false_eq_true, hgrow, if_true]
  exact resize_currentLength _ _ _ _ _

end WellFormedPackets

/-! ## The checksum reads header bytes 0..7 and the body -/

section ChecksumReads
open ExpandingArray

theorem readBytes_set_ge (junk : Nat → Byte) (l : List Byte) (i len : Nat) (v : Byte)
    (h : len ≤ i) : readBytes junk (l.set i v) len = readBytes junk l len := by
  unfold readBytes
  apply List.map_congr_left
  intro k hk
  have hk2 : k < len := List.mem_range.mp hk
  have hne : i ≠ k := by omega
  simp [List.getD_eq_getElem?_getD, List.getElem?_set_ne hne]

theorem drop_set_lt (l : List Byte) (i n : Nat) (v : Byte) (h : i < n) :
    (l.set i v).drop n = l.drop n := by
  apply List.ext_getElem?
  intro k
  have hne : i ≠ n + k := by omega
  simp [List.getElem?_drop, List.getElem?_set_ne hne]

theorem getD_set_ne (l : List Byte) (i k : Nat) (v d : Byte) (h : i ≠ k) :
    (l.set i v).getD k d = l.getD k d := by
  simp [List.getD_eq_getElem?_getD, List.getElem?_set_ne h]

theorem readBytes_getD (junk : Nat → Byte) (l : List Byte) (len k : Nat) (h : k < len) :
    (readBytes junk l len).getD k 0 = l.getD k (junk k) := by
  unfold readBytes
  simp [List.getD_eq_getElem?_getD, List.getElem?_map, List.getElem?_range h]

theorem generateChecksum_eq_with (junk : Nat → Byte) (p : RadioPacket) :
    RadioPacket.generateChecksum junk p
      = RadioPacket.generateChecksumWith (Util.crc8 junk) junk p := rfl

theorem crc8_reads_range (junk : Nat → Byte) (crc : Nat) (d d' : List Byte) (len : Nat)
    (h : readBytes junk d len = readBytes junk d' len) :
    Util.crc8 junk crc (some d) len = Util.crc8 junk crc (some d') len := by
  unfold Util.crc8
  simp only [h]

theorem generateChecksumWith_setRawCrc8 (crc8 : Nat → Option (List Byte) → Nat → Nat)
    (junk : Nat → Byte)
    (hread : ∀ crc d d' len, readBytes junk d len = readBytes junk d' len →
      crc8 crc (some d) len = crc8 crc (some d') len)
    (p : RadioPacket) (c : Nat) :
    RadioPacket.generateChecksumWith crc8 junk (p.setRawCrc8 c)
      = RadioPacket.generateChecksumWith crc8 junk p := by
  obtain ⟨⟨d, n, k⟩⟩ := p
  cases d with
  | none => rfl
  | some cs =>
    have hlen : RadioPacket.getRawBodyLength junk
        (RadioPacket.setRawCrc8 ⟨⟨some cs, n, k⟩⟩ c)
        = RadioPacket.getRawBodyLength junk ⟨⟨some cs, n, k⟩⟩ := by
      simp only [RadioPacket.getRawBodyLength, RadioPacket.setRawCrc8, ExpandingArray.set,
        ExpandingArray.get, ExpandingArray.cells, Option.map_some', Option.getD_some]
      rw [getD_set_ne cs 8 7 _ _ (by decide)]
    unfold RadioPacket.generateChecksumWith
    rw [hlen]
    simp only [RadioPacket.getHeaderData, RadioPacket.getBodyData, RadioPacket.setRawCrc8,
      ExpandingArray.set, Option.map_some', RadioPacket.getHeaderLength,
      RadioPacket._HEADER_LEN]
    rw [drop_set_lt cs 8 9 _ (by decide)]
    rw [hread _ (cs.set 8 (toByte c)) cs (9 - 1) (readBytes_set_ge junk cs 8 (9 - 1) _
      (by decide))]

theorem generateChecksumWith_congr (crc8 : Nat → Option (List Byte) → Nat → Nat)
    (junk : Nat → Byte)
    (hread : ∀ crc d d' len, readBytes junk d len = readBytes junk d' len →
      crc8 crc (some d) len = crc8 crc (some d') len)
    (p q : RadioPacket) (cs cs' : List Byte) (hp : p._data._data = some cs)
    (hq : q._data._data = some cs') (hhdr : readBytes junk cs 8 = readBytes junk cs' 8)
    (hbody : p.body junk = q.body junk) :
    RadioPacket.generateChecksumWith crc8 junk p
      = RadioPacket.generateChecksumWith crc8 junk q := by
  have hlen : p.getRawBodyLength junk = q.getRawBodyLength junk := by
    simp only [RadioPacket.getRawBodyLength, ExpandingArray.get, ExpandingArray.cells, hp, hq,
      Option.getD_some]
    rw [← readBytes_getD junk cs 8 7 (by decide), ← readBytes_getD junk cs' 8 7 (by decide),
      hhdr]
  unfold RadioPacket.body at hbody
  rw [← hlen] at hbody
  unfold RadioPacket.generateChecksumWith
  rw [← hlen]
  simp only [RadioPacket.getHeaderData, RadioPacket.getBodyData, hp, hq, Option.map_some',
    RadioPacket.getHeaderLength, RadioPacket._HEADER_LEN, Option.getD_some] at hbody ⊢
  rw [hread _ cs cs' (9 - 1) hhdr, hread _ _ _ _ hbody]

end ChecksumReads

/-! ## The modelled CRC-8 step is injective -/

section CrcInjective
open ExpandingArray

set_option maxRecDepth 1000000 in
theorem crc8_shift8_lt : ∀ x : Fin 256, Util.crc8_shift^[8] x.val < 256 := by
  decide

set_option maxRecDepth 1000000 in
theorem crc8_shift8_left_inverse : ∀ x : Fin 256,
    (fun y => if y ≥ 128 then 2 * ((y - 128) ^^^ 12) + 1 else 2 * y)^[8]
      (Util.crc8_shift^[8] x.val) = x.val := by
  decide

theorem crc8_shift8_inj (x y : Nat) (hx : x < 256) (hy : y < 256)
    (h : Util.crc8_shift^[8] x = Util.crc8_shift^[8] y) : x = y := by
  have e1 := crc8_shift8_left_inverse ⟨x, hx⟩
  have e2 := crc8_shift8_left_inverse ⟨y, hy⟩
  simp only at e1 e2
  rw [h] at e1
  exact e1.symm.trans e2

theorem crc8_fold_lt (c : Nat) (b : Byte) : (c % 256) ^^^ b.val < 256 :=
  Nat.xor_lt_two_pow (n := 8) (Nat.mod_lt _ (by decide)) b.isLt

theorem crc8_update_lt (c : Nat) (b : Byte) : Util.crc8_update c b < 256 :=
  crc8_shift8_lt ⟨(c % 256) ^^^ b.val, crc8_fold_lt c b⟩

theorem crc8_update_inj_byte (c : Nat) (x y : Byte)
    (h : Util.crc8_update c x = Util.crc8_update c y) : x = y := by
  have e := crc8_shift8_inj _ _ (crc8_fold_lt c x) (crc8_fold_lt c y) h
  exact Fin.ext (Nat.xor_right_inj.mp e)

theorem crc8_update_inj_state (c c' : Nat) (b : Byte) (hc : c < 256) (hc' : c' < 256)
    (h : Util.crc8_update c b = Util.crc8_update c' b) : c = c' := by
  have e := crc8_shift8_inj _ _ (crc8_fold_lt c b) (crc8_fold_lt c' b) h
  have e2 := Nat.xor_left_inj.mp e
  rwa [Nat.mod_eq_of_lt hc, Nat.mod_eq_of_lt hc'] at e2

theorem crc8_foldl_lt (l : List Byte) (c : Nat) (hc : c < 256) :
    List.foldl Util.crc8_update c l < 256 := by
  induction l generalizing c with
  | nil => simpa using hc
  | cons x t ih => exact ih _ (crc8_update_lt c x)

theorem crc8_foldl_inj_state (l : List Byte) (c c' : Nat) (hc : c < 256) (hc' : c' < 256)
    (hne : c ≠ c') : List.foldl Util.crc8_update c l ≠ List.foldl Util.crc8_update c' l := by
  induction l generalizing c c' with
  | nil => simpa using hne
  | cons x t ih =>
    simp only [List.foldl_cons]
    exact ih _ _ (crc8_update_lt c x) (crc8_update_lt c' x)
      (fun e => hne (crc8_update_inj_state c c' x hc hc' e))

theorem crc8_foldl_set_ne (l : List Byte) (c i : Nat) (v d : Byte) (hc : c < 256)
    (hi : i < l.length) (hv : v ≠ l.getD i d) :
    List.foldl Util.crc8_update c (l.set i v) ≠ List.foldl Util.crc8_update c l := by
  induction l generalizing c i with
  | nil => simp at hi
  | cons x t ih =>
    cases i with
    | zero =>
      simp only [List.set_cons_zero, List.foldl_cons]
      simp only [List.getD_cons_zero] at hv
      exact crc8_foldl_inj_state t _ _ (crc8_update_lt c v) (crc8_update_lt c x)
        (fun e => hv (crc8_update_inj_byte c v x e))
    | succ j =>
      simp only [List.set_cons_succ, List.foldl_cons]
      simp only [List.getD_cons_succ] at hv
      simp only [List.length_cons] at hi
      exact ih _ j (crc8_update_lt c x) (by omega) hv

set_option maxRecDepth 100000 in
theorem flipBit_ne : ∀ (x : Fin 256) (bit : Fin 8), flipBit x bit.val ≠ x := by
  decide

end CrcInjective

/-! ## The checksum of a buffer laid out as header and body -/

section ChecksumLayout
open ExpandingArray

theorem list_len8 (h : List Byte) (hh : h.length = 8) :
    ∃ a0 a1 a2 a3 a4 a5 a6 a7, h = [a0, a1, a2, a3, a4, a5, a6, a7] := by
  match h, hh with
  | [a0, a1, a2, a3, a4, a5, a6, a7], _ => exact ⟨_, _, _, _, _, _, _, _, rfl⟩

theorem generateChecksum_split (junk : Nat → Byte) (H : List Byte) (x : Byte)
    (rest : List Byte) (n k : Nat) (hH : H.length = 8) :
    RadioPacket.generateChecksum junk ⟨⟨some (H ++ x :: rest), n, k⟩⟩
      = List.foldl Util.crc8_update (List.foldl Util.crc8_update 0 H % 256)
          (readBytes junk rest (H.getD 7 0).val) := by
  obtain ⟨a0, a1, a2, a3, a4, a5, a6, a7, rfl⟩ := list_len8 H hH
  exact generateChecksum_cells junk a0 a1 a2 a3 a4 a5 a6 a7 x rest n k

end ChecksumLayout

/-! ## Reassembly as a fold over the packet array -/

section Reassembly
open ExpandingArray

theorem body_length (junk : Nat → Byte) (p : RadioPacket) :
    (p.body junk).length = p.getRawBodyLength junk := by
  simp [RadioPacket.body, readBytes_length]

theorem getRawBodyLength_le (junk : Nat → Byte) (p : RadioPacket) :
    p.getRawBodyLength junk ≤ 255 := by
  unfold RadioPacket.getRawBodyLength
  have := (p._data.get junk 7).isLt
  omega

theorem bodies_length (junk : Nat → Byte) (l : List RadioPacket) :
    ((l.map (RadioPacket.body junk)).flatten).length
      = (l.map (fun p => p.getRawBodyLength junk)).sum := by
  induction l with
  | nil => rfl
  | cons p t ih => simp [body_length, ih]

theorem sum_lengths_le (junk : Nat → Byte) (l : List RadioPacket) :
    (l.map (fun p => p.getRawBodyLength junk)).sum ≤ 255 * l.length := by
  induction l with
  | nil => simp
  | cons p t ih =>
    have := getRawBodyLength_le junk p
    simp only [List.map_cons, List.sum_cons, List.length_cons]
    omega

theorem sum_lengths_take_le (junk : Nat → Byte) (l : List RadioPacket) (m : Nat) :
    ((l.take m).map (fun p => p.getRawBodyLength junk)).sum
      ≤ (l.map (fun p => p.getRawBodyLength junk)).sum := by
  conv_rhs => rw [← List.take_append_drop m l]
  simp only [List.map_append, List.sum_append]
  omega

theorem splice_body (J body out : List Byte) (S L : Nat) (hJ : J.length = S) :
    (J ++ out.drop S).take S ++ body ++ (J ++ out.drop S).drop (S + L)
      = J ++ (body ++ out.drop (S + L)) := by
  subst hJ
  rw [List.take_left, List.drop_append, List.drop_drop, List.append_assoc]

theorem defragment_fold (junk : Nat → Byte) (ps : List RadioPacket) (out : List Byte)
    (hcount : ps.length ≤ 255)
    (hout : (ps.map (fun p => p.getRawBodyLength junk)).sum ≤ out.length) (m : Nat)
    (hm : m ≤ ps.length) :
    (List.range m).foldl (RadioPacket.defragmentBody junk (ps.map some)) (0, out)
      = (((ps.take m).map (fun p => p.getRawBodyLength junk)).sum,
          ((ps.take m).map (RadioPacket.body junk)).flatten
            ++ out.drop ((ps.take m).map (fun p => p.getRawBodyLength junk)).sum) := by
  induction m with
  | zero => simp
  | succ m ih =>
    have hm' : m < ps.length := by omega
    rw [List.range_succ, List.foldl_append, ih (by omega)]
    have hget : (ps.map some).getD m none = some ps[m] := by
      simp [List.getD_eq_getElem?_getD, List.getElem?_eq_getElem hm']
    have htake : ps.take (m + 1) = ps.take m ++ [ps[m]] := by
      rw [List.take_succ, List.getElem?_eq_getElem hm']
      rfl
    have hS := bodies_length junk (ps.take m)
    have hle := sum_lengths_take_le junk ps (m + 1)
    have hlt : (ps.take (m + 1)).length ≤ 255 := by
      rw [List.length_take]; omega
    have hbound : ((ps.take (m + 1)).map (fun p => p.getRawBodyLength junk)).sum
        ≤ 255 * 255 :=
      le_trans (sum_lengths_le junk _) (Nat.mul_le_mul_left 255 hlt)
    rw [htake] at hle hbound
    simp only [List.map_append, List.sum_append, List.map_cons, List.map_nil, List.sum_cons,
      List.sum_nil, Nat.add_zero] at hle hbound
    simp only [List.foldl_cons, List.foldl_nil, RadioPacket.defragmentBody, hget, htake,
      List.map_append, List.sum_append, List.map_cons, List.map_nil, List.sum_cons,
      List.sum_nil, Nat.add_zero, List.flatten_append, List.flatten_cons, List.flatten_nil,
      List.append_nil]
    rw [Nat.mod_eq_of_lt (by omega)]
    congr 1
    rw [memcpy_eq_read junk _ _ _ _ (by
      simp only [List.length_append, List.length_drop, hS]; omega)]
    have hbody : readBytes junk (ps[m].getBodyData.getD []) (ps[m].getRawBodyLength junk)
        = ps[m].body junk := rfl
    rw [hbody, splice_body _ _ _ _ _ hS, List.append_assoc]

end Reassembly

/-! ## Reading through a prefix -/

section PrefixReads
open ExpandingArray

theorem getD_take_append (l t : List Byte) (n i : Nat) (d : Byte) (hn : n ≤ l.length)
    (hi : i < n) : (l.take n ++ t).getD i d = l.getD i d := by
  rw [List.getD_append _ _ _ _ (by simp; omega)]
  simp only [List.getD_eq_getElem?_getD]
  rw [List.getElem?_take_of_lt hi]

end PrefixReads

/-! ## Reassembly in closed form -/

section ReassemblyClosed
open ExpandingArray

theorem defragment_eq (junk : Nat → Byte) (ps : List RadioPacket) (out : List Byte)
    (hcount : ps.length ≤ 255)
    (hout : (ps.map (fun p => p.getRawBodyLength junk)).sum ≤ out.length) :
    RadioPacket.defragment junk (ps.map some) ps.length out
      = (((ps.map (fun p => p.getRawBodyLength junk)).sum + 1) % 65536,
          (ps.map (RadioPacket.body junk)).flatten
            ++ out.drop (ps.map (fun p => p.getRawBodyLength junk)).sum) := by
  unfold RadioPacket.defragment
  simp only [Nat.mod_eq_of_lt (show ps.length < 256 by omega)]
  rw [defragment_fold junk ps out hcount hout ps.length (le_refl _), List.take_length]

end ReassemblyClosed

/-! ## Splitting a concatenation at one chunk -/

section FlattenSplit
open ExpandingArray

theorem flatten_split (L : List (List Byte)) (i : Nat) (h : i < L.length) :
    L.flatten = (L.take i).flatten ++ (L[i] ++ (L.drop (i + 1)).flatten) := by
  induction L generalizing i with
  | nil => simp at h
  | cons x t ih =>
    cases i with
    | zero => simp
    | succ j =>
      simp only [List.length_cons] at h
      simp only [List.flatten_cons, List.take_succ_cons, List.drop_succ_cons,
        List.getElem_cons_succ, List.append_assoc]
      rw [ih j (by omega)]

end FlattenSplit

/-! ## The fragment loop on an odd byte count -/

section FragmentOdd
open ExpandingArray

theorem getMaxBodyLength_eq : RadioPacket.getMaxBodyLength = 246 := by decide

theorem fragmentLoop_odd (junk : Nat → Byte) (data : List Byte) (fuel : Nat)
    (s : RadioPacket.FragmentState) (hodd : s.bytesPacketised % 2 = 1)
    (hlt : s.bytesPacketised < 65536) :
    RadioPacket.fragmentLoop junk data fuel s = none := by
  induction fuel generalizing s with
  | zero => rfl
  | succ fuel ih =>
    have hpos : s.bytesPacketised > 0 := by omega
    simp only [RadioPacket.fragmentLoop, hpos, if_true]
    apply ih
    · simp only [RadioPacket.fragmentBody, getMaxBodyLength_eq]
      omega
    · simp only [RadioPacket.fragmentBody, getMaxBodyLength_eq]
      omega

end FragmentOdd

/-! ## The fragment loop on full chunks -/

section FragmentChunks
open ExpandingArray

/-- The packet one pass of the `fragment` loop builds from a full chunk. -/
theorem fragment_packet_eq (junk : Nat → Byte) (src : List Byte) (f : Nat)
    (hsrc : 246 ≤ src.length) :
    ((RadioPacket.ctor junk).setRawFragmentNumber f).setBodyData junk (some src) 246
      = ⟨⟨some ([toByte 255, 1, 0, 0, 0xff, 0xff, toByte f, toByte 246, 0] ++ src.take 246),
          255, 255⟩⟩ := by
  rw [RadioPacket.packet_ctor_eq]
  have h : RadioPacket.setRawFragmentNumber ⟨⟨some [9, 1, 0, 0, 0xff, 0xff, 1, 0, 0], 9, 9⟩⟩ f
      = ⟨⟨some [9, 1, 0, 0, 0xff, 0xff, toByte f, 0, 0], 9, 9⟩⟩ := rfl
  rw [h, RadioPacket.packet_setBodyData_header junk _ src 246 (by simp) (by decide) hsrc]
  rfl

theorem fragmentBody_full_chunk (junk : Nat → Byte) (data : List Byte)
    (pk : RadioPacket.PacketArray) (f bp : Nat) (hbp : 246 ≤ bp) (hdata : bp ≤ data.length)
    (hlt : bp < 65536) :
    RadioPacket.fragmentBody junk data ⟨pk, f, bp⟩
      = ⟨pk.set f (some ⟨⟨some ([toByte 255, 1, 0, 0, 0xff, 0xff, toByte f, toByte 246, 0]
            ++ (data.drop (bp - 246)).take 246), 255, 255⟩⟩),
          (f + 1) % 256, bp - 246⟩ := by
  have hoff : ptrOffset junk data ((bp : Int) - (RadioPacket.getMaxBodyLength : Int))
      = data.drop (bp - 246) := by
    rw [getMaxBodyLength_eq]
    unfold ptrOffset
    have h1 : (0 : Int) ≤ (bp : Int) - ((246 : Nat) : Int) := by omega
    have h2 : ((bp : Int) - ((246 : Nat) : Int)).toNat = bp - 246 := by omega
    simp only [h1, if_true, h2]
  unfold RadioPacket.fragmentBody
  simp only [hoff]
  rw [getMaxBodyLength_eq, fragment_packet_eq junk _ f (by simp; omega)]
  have h3 : (bp + 65536 - 246) % 65536 = bp - 246 := by omega
  rw [h3]

theorem body_of_cells (junk : Nat → Byte) (a0 a1 a2 a3 a4 a5 a6 a7 a8 : Byte)
    (b : List Byte) (n k : Nat) (hb : b.length = a7.val) :
    RadioPacket.body junk ⟨⟨some ([a0, a1, a2, a3, a4, a5, a6, a7, a8] ++ b), n, k⟩⟩ = b := by
  have h : RadioPacket.body junk ⟨⟨some ([a0, a1, a2, a3, a4, a5, a6, a7, a8] ++ b), n, k⟩⟩
      = readBytes junk b a7.val := rfl
  rw [h]
  exact readBytes_self junk b _ hb

theorem fragmentLoop_step (junk : Nat → Byte) (data : List Byte) (fuel : Nat)
    (s : RadioPacket.FragmentState) (h : s.bytesPacketised > 0) :
    RadioPacket.fragmentLoop junk data (fuel + 1) s
      = RadioPacket.fragmentLoop junk data fuel (RadioPacket.fragmentBody junk data s) := by
  simp only [RadioPacket.fragmentLoop, h, if_true]

theorem fragmentLoop_exit (junk : Nat → Byte) (data : List Byte) (fuel : Nat)
    (s : RadioPacket.FragmentState) (h : s.bytesPacketised = 0) :
    RadioPacket.fragmentLoop junk data (fuel + 1) s = some s := by
  simp only [RadioPacket.fragmentLoop, h, gt_iff_lt, Nat.lt_irrefl, if_false]

theorem defragment_three_chunks (jr : Nat → Byte) (f0 f1 f2 : Byte) (c0 c1 c2 out : List Byte)
    (h0 : c0.length = 246) (h1 : c1.length = 246) (h2 : c2.length = 246)
    (hout : out.length = 738) :
    (RadioPacket.defragment jr
      [some ⟨⟨some ([toByte 255, 1, 0, 0, 0xff, 0xff, f0, toByte 246, 0] ++ c0), 255, 255⟩⟩,
        some ⟨⟨some ([toByte 255, 1, 0, 0, 0xff, 0xff, f1, toByte 246, 0] ++ c1), 255, 255⟩⟩,
        some ⟨⟨some ([toByte 255, 1, 0, 0, 0xff, 0xff, f2, toByte 246, 0] ++ c2), 255, 255⟩⟩]
      3 out).2 = c0 ++ (c1 ++ c2) := by
  have hg : ∀ (f : Byte) (b : List Byte), RadioPacket.getRawBodyLength jr
      ⟨⟨some ([toByte 255, 1, 0, 0, 0xff, 0xff, f, toByte 246, 0] ++ b), 255, 255⟩⟩
      = 246 := fun _ _ => rfl
  have hb : ∀ (f : Byte) (b : List Byte), b.length = 246 → RadioPacket.body jr
      ⟨⟨some ([toByte 255, 1, 0, 0, 0xff, 0xff, f, toByte 246, 0] ++ b), 255, 255⟩⟩ = b :=
    fun f b h => body_of_cells jr _ _ _ _ _ _ _ _ _ b 255 255 (h.trans (by decide))
  have hdef := defragment_eq jr
    [⟨⟨some ([toByte 255, 1, 0, 0, 0xff, 0xff, f0, toByte 246, 0] ++ c0), 255, 255⟩⟩,
      ⟨⟨some ([toByte 255, 1, 0, 0, 0xff, 0xff, f1, toByte 246, 0] ++ c1), 255, 255⟩⟩,
      ⟨⟨some ([toByte 255, 1, 0, 0, 0xff, 0xff, f2, toByte 246, 0] ++ c2), 255, 255⟩⟩]
    out (by simp)
    (by simp only [List.map_cons, List.map_nil, hg, List.sum_cons, List.sum_nil]; omega)
  simp only [List.map_cons, List.map_nil, List.length_cons, List.length_nil, hg,
    List.sum_cons, List.sum_nil, List.flatten_cons, List.flatten_nil, List.append_nil,
    Nat.zero_add, Nat.reduceAdd, hb f0 c0 h0, hb f1 c1 h1, hb f2 c2 h2] at hdef
  rw [hdef]
  simp only
  rw [List.drop_eq_nil_of_le (by omega), List.append_nil]

end FragmentChunks

/-! ## The packets stored by fragment2 -/

section Fragment2Packets
open ExpandingArray

theorem foldl_set_some {α : Type} (g : Nat → α) (n : Nat) (l : List (Option α))
    (hn : n ≤ l.length) :
    ((List.range n).foldl (fun pk f => pk.set f (some (g f))) l).length = l.length ∧
    ∀ f, f < n →
      ((List.range n).foldl (fun pk f => pk.set f (some (g f))) l).getD f none
        = some (g f) := by
  induction n with
  | zero => exact ⟨rfl, fun f hf => absurd hf (Nat.not_lt_zero f)⟩
  | succ n ih =>
    obtain ⟨hlen, hget⟩ := ih (by omega)
    rw [List.range_succ, List.foldl_append]
    simp only [List.foldl_cons, List.foldl_nil, List.length_set]
    refine ⟨hlen, ?_⟩
    intro f hf
    by_cases hfn : f = n
    · subst hfn
      simp only [List.getD_eq_getElem?_getD]
      rw [List.getElem?_set_self (by omega)]
      rfl
    · simp only [List.getD_eq_getElem?_getD]
      rw [List.getElem?_set_ne (by omega)]
      have := hget f (by omega)
      simpa only [List.getD_eq_getElem?_getD] using this

theorem fragment2_packet_body_length (junk jr : Nat → Byte) (src : List Byte) (f : Nat) :
    RadioPacket.getRawBodyLength jr
      (((RadioPacket.ctor junk).setRawFragmentNumber f).setBodyData junk (some src)
        RadioPacket.getMaxBodyLength) = 246 := by
  rw [RadioPacket.packet_ctor_eq]
  have h : RadioPacket.setRawFragmentNumber ⟨⟨some [9, 1, 0, 0, 0xff, 0xff, 1, 0, 0], 9, 9⟩⟩ f
      = ⟨⟨some ([9, 1, 0, 0, 0xff, 0xff, toByte f, 0, 0] ++ []), 9, 9⟩⟩ := rfl
  have hm : RadioPacket.getMaxBodyLength = 246 := by decide
  rw [h, hm]
  obtain ⟨tail, ht⟩ := packet_setBodyData_general junk 9 1 0 0 0xff 0xff (toByte f) 0 0 [] src
    9 9 246 rfl (by decide) (by decide) (by decide)
  rw [ht]
  rfl

end Fragment2Packets

/-! ## Two checksum values -/

set_option maxRecDepth 100000 in
theorem crc8_example_with_body :
    List.foldl Util.crc8_update
      (List.foldl Util.crc8_update 0 [(10 : Byte), 1, 0, 0, 0xff, 0xff, 1, 1] % 256)
      [(131 : Byte)] = 108 := by
  decide

set_option maxRecDepth 100000 in
theorem crc8_example_without_body :
    List.foldl Util.crc8_update
      (List.foldl Util.crc8_update 0 [(10 : Byte), 1, 0, 0, 0xff, 0xff, 1, 0] % 256)
      [] = 108 := by
  decide

/-! ## Resizing at the capacity and rejected copies -/

section BufferBoundary
open ExpandingArray

theorem resize_below_capacity (M : Nat) (junk : Nat → Byte) (a : ExpandingArray) (n : Nat)
    (copy : Bool) (h : n < a._arrayLength) :
    a.resize M junk n copy = { a with _currentLength := n } := by
  unfold resize
  split
  · rename_i h1
    obtain ⟨d, L, K⟩ := a
    simp only at h1 ⊢
    rw [h1.1]
  · simp [h]

theorem resize_at_capacity_nocopy (M : Nat) (junk : Nat → Byte) (a : ExpandingArray)
    (h : a._currentLength < a._arrayLength) :
    a.resize M junk a._arrayLength false
      = ⟨some (fresh junk a._arrayLength), a._arrayLength, a._arrayLength⟩ := by
  have h1 : ¬ (a._arrayLength = a._currentLength) := by omega
  have h2 : ¬ (a._arrayLength ≤ a._currentLength) := by omega
  simp [resize, allocate, h1, h2]

theorem memcpy_getD_ge (junk jr : Nat → Byte) (dst src : List Byte) (len i : Nat)
    (h1 : len ≤ i) (h2 : i < dst.length) :
    (memcpy junk dst 0 src len).getD i (jr i) = dst.getD i (jr i) := by
  unfold memcpy
  have hl : (readBytes junk src len).length = len := readBytes_length junk src len
  simp only [List.take_zero, List.nil_append, Nat.zero_add, List.getD_eq_getElem?_getD]
  rw [List.getElem?_take_of_lt h2, List.getElem?_append_right (by omega), hl,
    List.getElem?_drop]
  congr 2
  omega

theorem copyTo_getD_ge (M : Nat) (junk jr : Nat → Byte) (a : ExpandingArray)
    (dst : List Byte) (i : Nat) (h1 : a._currentLength ≤ i) (h2 : i < dst.length) :
    ((a.copyTo M junk (some dst) a._currentLength).getD dst).getD i (jr i)
      = dst.getD i (jr i) := by
  unfold copyTo copyToAt
  simp only
  split
  · split
    · rfl
    · split
      · rfl
      · split
        · rfl
        · simp only [Option.getD_some]
          exact memcpy_getD_ge junk jr _ _ _ i h1 h2
  · split
    · rfl
    · split
      · rfl
      · split
        · rfl
        · simp only [Option.getD_some]
          exact memcpy_getD_ge junk jr _ _ _ i h1 h2

theorem resize_at_capacity_copy_slack (M : Nat) (junk jr : Nat → Byte) (a : ExpandingArray)
    (h : a._currentLength < a._arrayLength) (i : Nat) (h1 : a._currentLength ≤ i)
    (h2 : i < a._arrayLength) :
    (a.resize M junk a._arrayLength true).get jr i = junk i := by
  have e1 : ¬ (a._arrayLength = a._currentLength) := by omega
  have e2 : ¬ (a._arrayLength ≤ a._currentLength) := by omega
  have hf : (fresh junk a._arrayLength).getD i (jr i) = junk i := by
    simp [fresh, List.getD_eq_getElem?_getD, h2]
  simp only [resize, allocate, e1, e2, false_and, if_false, lt_irrefl, if_true,
    ExpandingArray.get, cells, Option.getD_some]
  rw [copyTo_getD_ge M junk jr a _ i h1 (by simpa [fresh_length] using h2)]
  exact hf

theorem copyFromAt_rejects_index (M : Nat) (junk : Nat → Byte) (a : ExpandingArray)
    (data : Option (List Byte)) (len offset : Nat) (h : a._currentLength ≤ offset % M) :
    a.copyFromAt M junk data len offset = a := by
  have h1 : ¬ (offset % M < a._currentLength) := by omega
  cases data <;> simp [copyFromAt, _indexInRange, h1]

theorem copyFromAt_none (M : Nat) (junk : Nat → Byte) (a : ExpandingArray) (len offset : Nat) :
    a.copyFromAt M junk none len offset = a := rfl

theorem copyFromAt_grow_length_small (M : Nat) (junk : Nat → Byte) (a : ExpandingArray)
    (src : List Byte) (len i : Nat) (hlen : 0 < len) (hdata : a._data.isSome = true)
    (hi : i % M < a._currentLength) (hgrow : a._currentLength < i + len)
    (hsz : i + len < SIZE_MOD) :
    (a.copyFromAt M junk (some src) len i)._currentLength
      = (2 * a._currentLength + SIZE_MOD - (i + len)) % SIZE_MOD % M := by
  have hmod : (i + len) % SIZE_MOD = i + len := Nat.mod_eq_of_lt hsz
  rw [copyFromAt_grow_length M junk a src len i hlen
    (by simp [_indexInRange, hdata, hi]) (by rw [hmod]; exact hgrow)]
  rw [hmod, Nat.mod_eq_of_lt (by omega : a._currentLength + SIZE_MOD - (i + len) < SIZE_MOD)]
  congr 2
  omega

end BufferBoundary

/-! ## The representation invariant is preserved -/

section BufferInvariant
open ExpandingArray

theorem zero_length (data : List Byte) (len : Nat) :
    (Util.zero data len).length = data.length := by
  unfold Util.zero
  simp
  omega

theorem copyToAt_length (M : Nat) (junk : Nat → Byte) (a : ExpandingArray) (dst : List Byte)
    (len i : Nat) : ((a.copyToAt M junk (some dst) len i).getD dst).length = dst.length := by
  unfold copyToAt
  simp only
  split
  · rfl
  · split
    · rfl
    · split
      · rfl
      · simp [memcpy_length]

theorem valid_some (cs : List Byte) (n k : Nat) :
    Valid ⟨some cs, n, k⟩ ↔ cs.length = k ∧ n ≤ k := by
  simp [Valid]

theorem valid_allocate (M : Nat) (junk : Nat → Byte) (a : ExpandingArray) (len : Nat)
    (copy zero : Bool) (h : a.Valid) : (a.allocate M junk len copy zero).Valid := by
  unfold allocate
  split
  · exact h
  · rename_i hc
    have hlen : (if copy = true then
        (a.copyTo M junk (some (fresh junk len)) a._currentLength).getD (fresh junk len)
        else fresh junk len).length = len := by
      split
      · unfold copyTo
        rw [copyToAt_length, fresh_length]
      · exact fresh_length junk len
    obtain ⟨d, n, k⟩ := a
    cases d with
    | none =>
      simp only [Valid] at h
      simp only [Valid]
      exact ⟨hlen, by omega⟩
    | some cs =>
      simp only [Option.isSome_some, and_true, not_le] at hc
      simp only [Valid]
      exact ⟨hlen, by omega⟩

theorem valid_resize (M : Nat) (junk : Nat → Byte) (a : ExpandingArray) (len : Nat)
    (copy : Bool) (h : a.Valid) : (a.resize M junk len copy).Valid := by
  unfold resize
  split
  · exact h
  · rename_i h1
    split
    · rename_i h2
      obtain ⟨d, n, k⟩ := a
      cases d with
      | none =>
        simp only [Valid] at h
        simp only at h2
        omega
      | some cs =>
        simp only [Valid] at h ⊢
        simp only at h2
        exact ⟨h.1, by omega⟩
    · rename_i h2
      have hv := valid_allocate M junk a len copy false h
      have hal : (a.allocate M junk len copy false)._arrayLength = len := by
        unfold allocate
        split
        · rename_i h3
          obtain ⟨d, n, k⟩ := a
          cases d with
          | none => simp at h3
          | some cs =>
            simp only [Valid] at h
            simp only [Option.isSome_some, and_true] at h1 h3
            simp only at h2 ⊢
            omega
        · rfl
      generalize a.allocate M junk len copy false = b at hv hal
      obtain ⟨d, n, k⟩ := b
      simp only at hal
      subst hal
      cases d with
      | none =>
        simp only [Valid] at hv ⊢
        omega
      | some cs =>
        simp only [Valid] at hv ⊢
        exact ⟨hv.1, le_refl _⟩

theorem valid_clear (a : ExpandingArray) (zero : Bool) (h : a.Valid) : (a.clear zero).Valid := by
  obtain ⟨d, n, k⟩ := a
  cases d with
  | none =>
    simp only [Valid] at h
    cases zero <;> simp [clear, Valid, h.2]
  | some cs =>
    simp only [Valid] at h
    cases zero <;> simp [clear, Valid, h.1, zero_length]

theorem valid_reclaim (M : Nat) (junk : Nat → Byte) (a : ExpandingArray) (zero : Bool)
    (h : a.Valid) : (a.reclaim M junk zero).Valid := by
  unfold reclaim
  split
  · exact h
  · simp only [Valid]
    refine ⟨?_, le_refl _⟩
    unfold copyTo
    rw [copyToAt_length, fresh_length]

theorem valid_map_memcpy (junk : Nat → Byte) (a : ExpandingArray) (src : List Byte)
    (len i : Nat) (h : a.Valid) :
    Valid { a with _data := a._data.map (fun c => memcpy junk c i src len) } := by
  obtain ⟨d, n, k⟩ := a
  cases d with
  | none => exact h
  | some cs =>
    simp only [Valid] at h
    simp only [Valid, Option.map_some', memcpy_length]
    exact h

theorem valid_copyFromAt (M : Nat) (junk : Nat → Byte) (a : ExpandingArray)
    (data : Option (List Byte)) (len i : Nat) (h : a.Valid) :
    (a.copyFromAt M junk data len i).Valid := by
  unfold copyFromAt
  cases data with
  | none => exact h
  | some src =>
    simp only
    split
    · exact h
    · split
      · exact h
      · split
        · exact valid_map_memcpy junk _ src len i (valid_resize M junk a _ true h)
        · exact valid_map_memcpy junk a src len i h

theorem valid_ctor (M : Nat) (junk : Nat → Byte) (len : Nat) : (ctor M junk len).Valid :=
  valid_resize M junk init len false (by decide)

theorem valid_call (M : Nat) (a : ExpandingArray) (op : Op) (h : a.Valid) :
    (op.call M a).Valid := by
  cases op with
  | resize j len copy => exact valid_resize M j a len copy h
  | allocate j len copy zero => exact valid_allocate M j a len copy zero h
  | reclaim j zero => exact valid_reclaim M j a zero h
  | clear zero => exact valid_clear a zero h
  | copyFrom j data len => exact valid_copyFromAt M j a data len 0 h
  | copyFromAt j data len i => exact valid_copyFromAt M j a data len i h

theorem valid_calls (M : Nat) (ops : List Op) (a : ExpandingArray) (h : a.Valid) :
    (calls M ops a).Valid := by
  induction ops generalizing a with
  | nil => exact h
  | cons op ops ih => exact ih (op.call M a) (valid_call M a op h)

theorem valid_length_le (a : ExpandingArray) (h : a.Valid) :
    a.length ≤ a._arrayLength ∧ (0 < a.length → a._data.isSome = true) := by
  obtain ⟨d, n, k⟩ := a
  cases d with
  | none =>
    simp only [Valid] at h
    simp [ExpandingArray.length, h.1]
  | some cs =>
    simp only [Valid] at h
    simp [ExpandingArray.length, h.2]

end BufferInvariant

/-! ## Resetting a packet -/

section PacketReset
open ExpandingArray

theorem copyFrom_default_header (junk : Nat → Byte) (cs : List Byte) (k : Nat)
    (h : 9 ≤ cs.length) :
    (⟨some cs, 9, k⟩ : ExpandingArray).copyFrom RadioPacket.IDX_MOD junk
        (some RadioPacket._DEFAULT_HEADER) 9
      = ⟨some (RadioPacket._DEFAULT_HEADER ++ cs.drop 9), 9, k⟩ := by
  unfold copyFrom
  rw [copyFromAt_fit _ junk _ _ _ _ 9 0 (by decide) (by decide) (by decide)]
  rw [memcpy_eq junk _ _ 0 9 (by omega) (by decide)]
  simp [RadioPacket._DEFAULT_HEADER]

theorem packet_reset_eq (junk : Nat → Byte) (d : Option (List Byte)) (n k : Nat)
    (h : Valid ⟨d, n, k⟩) :
    RadioPacket.reset junk ⟨⟨d, n, k⟩⟩
      = ⟨⟨some (RadioPacket._DEFAULT_HEADER ++ (d.getD []).drop 9), 9, max k 9⟩⟩ := by
  unfold RadioPacket.reset RadioPacket._init
  simp only [clear, Bool.false_eq_true, if_false, RadioPacket.getHeaderLength,
    RadioPacket._HEADER_LEN]
  cases d with
  | none =>
    simp only [Valid] at h
    obtain ⟨_, rfl⟩ := h
    have e : resize RadioPacket.IDX_MOD junk ⟨none, 0, 0⟩ 9 false
        = ⟨some (fresh junk 9), 9, 9⟩ := by
      simp [resize, allocate]
    rw [e, copyFrom_default_header junk _ 9 (by simp [fresh_length])]
    simp [fresh_length]
  | some cs =>
    simp only [Valid] at h
    obtain ⟨hcs, hnk⟩ := h
    by_cases hk : 9 < k
    · rw [resize_within _ junk cs 0 k 9 false (by decide) hk]
      rw [copyFrom_default_header junk cs k (by omega)]
      simp [Nat.max_eq_left (le_of_lt hk)]
    · rw [resize_grow_nocopy _ junk cs 0 k 9 (by decide) (by omega)]
      rw [copyFrom_default_header junk _ 9 (by simp [fresh_length])]
      have e1 : cs.drop 9 = [] := List.drop_eq_nil_of_le (by omega)
      simp [fresh_length, e1, Nat.max_eq_right (by omega : k ≤ 9)]

theorem valid_reset_form (tail : List Byte) (k : Nat) (h : tail.length = k - 9) :
    Valid ⟨some (RadioPacket._DEFAULT_HEADER ++ tail), 9, max k 9⟩ := by
  simp only [Valid, List.length_append, RadioPacket._DEFAULT_HEADER, List.length_cons,
    List.length_nil, h]
  omega

end PacketReset

/-! ## Resizing the body of an arbitrary packet -/

section PacketResizeBody
open ExpandingArray

theorem take_take_append_le (l t : List Byte) (a m : Nat) (h1 : m ≤ a) (h2 : a ≤ l.length) :
    (l.take a ++ t).take m = l.take m := by
  rw [List.take_append_of_le_length (by simp; omega), List.take_take,
    Nat.min_eq_left h1]

/-- The copying resize of `resizeBody(len, true)` keeps the header and the body
bytes that both the old and the new body hold. -/
theorem packet_resize_copy_header (junk : Nat → Byte) (a0 a1 a2 a3 a4 a5 a6 a7 a8 : Byte)
    (rest : List Byte) (n k len : Nat) (hk : 9 + rest.length = k) (hn9 : 9 ≤ n)
    (hnk : n ≤ k) :
    ∃ X, len ≤ X.length ∧ X.take (min (n - 9) len) = rest.take (min (n - 9) len) ∧
      (⟨some ([a0, a1, a2, a3, a4, a5, a6, a7, a8] ++ rest), n, k⟩ : ExpandingArray).resize
          RadioPacket.IDX_MOD junk (9 + len) true
        = ⟨some ([a0, a1, a2, a3, a4, a5, a6, a7, a8] ++ X), 9 + len, 9 + X.length⟩ := by
  by_cases hA : 9 + len = n
  · refine ⟨rest, by omega, rfl, ?_⟩
    subst hA
    rw [resize_same, hk]
  · by_cases hB : 9 + len < k
    · refine ⟨rest, by omega, rfl, ?_⟩
      rw [resize_within _ junk _ n k (9 + len) true hA hB, hk]
    · refine ⟨rest.take (n - 9) ++ (fresh junk (9 + len)).drop n, ?_, ?_, ?_⟩
      · simp [fresh_length]; omega
      · exact take_take_append_le rest _ (n - 9) _ (Nat.min_le_left _ _) (by omega)
      · rw [resize_grow_copy _ junk _ n k (9 + len) (by omega) (by omega) (by omega)]
        rw [memcpy_eq junk _ _ 0 n (by simp [fresh_length]; omega) (by simp; omega)]
        have e : List.take n ([a0, a1, a2, a3, a4, a5, a6, a7, a8] ++ rest)
            = [a0, a1, a2, a3, a4, a5, a6, a7, a8] ++ rest.take (n - 9) := by
          rw [List.take_append_eq_append_take]
          rw [List.take_of_length_le (by simpa using hn9)]
          rfl
        rw [e]
        simp [fresh_length]
        omega

theorem packet_resizeBody_general (junk : Nat → Byte) (a0 a1 a2 a3 a4 a5 a6 a7 a8 : Byte)
    (rest : List Byte) (n k len : Nat) (copy : Bool) (hk : 9 + rest.length = k)
    (hn9 : 9 ≤ n) (hnk : n ≤ k) (hlen : len ≤ 246) :
    ∃ X, len ≤ X.length ∧
      (copy = true → X.take (min (n - 9) len) = rest.take (min (n - 9) len)) ∧
      RadioPacket.resizeBody junk
          ⟨⟨some ([a0, a1, a2, a3, a4, a5, a6, a7, a8] ++ rest), n, k⟩⟩ len copy
        = ⟨⟨some ([toByte (9 + len), a1, a2, a3, a4, a5, a6, toByte len, a8] ++ X),
            9 + len, 9 + X.length⟩⟩ := by
  have hmax : ¬ (len > RadioPacket.getMaxBodyLength) := by
    simp [RadioPacket.getMaxBodyLength, RadioPacket.getMaxPacketLength,
      RadioPacket.getHeaderLength, RadioPacket._HEADER_LEN]; omega
  have hmod : (9 + len) % 256 = 9 + len := Nat.mod_eq_of_lt (by omega)
  cases copy with
  | false =>
    have hcopy := RadioPacket.copyTo_header junk ([a0, a1, a2, a3, a4, a5, a6, a7, a8] ++ rest)
      n k (by simp) hn9
    have htake : List.take 9 ([a0, a1, a2, a3, a4, a5, a6, a7, a8] ++ rest)
        = [a0, a1, a2, a3, a4, a5, a6, a7, a8] := by simp
    rw [htake] at hcopy
    obtain ⟨X, hX, hd⟩ := packet_resize_keep_header junk a0 a1 a2 a3 a4 a5 a6 a7 a8 rest n k
      len hk hn9 hnk
    refine ⟨X, hX, by simp, ?_⟩
    unfold RadioPacket.resizeBody
    simp only [hmax, if_false, RadioPacket.getHeaderLength, RadioPacket._HEADER_LEN, hcopy,
      Option.getD_some, hmod, Bool.not_false, if_true, hd, RadioPacket.setRawBodyLength,
      RadioPacket.setRawPacketLength, ExpandingArray.set, Option.map_some']
    rfl
  | true =>
    obtain ⟨X, hX, hpre, hd⟩ := packet_resize_copy_header junk a0 a1 a2 a3 a4 a5 a6 a7 a8 rest
      n k len hk hn9 hnk
    refine ⟨X, hX, fun _ => hpre, ?_⟩
    unfold RadioPacket.resizeBody
    simp only [hmax, if_false, RadioPacket.getHeaderLength, RadioPacket._HEADER_LEN,
      hmod, Bool.not_true, Bool.false_eq_true, hd, RadioPacket.setRawBodyLength,
      RadioPacket.setRawPacketLength, ExpandingArray.set, Option.map_some']
    rfl

theorem packet_body_read (junk : Nat → Byte) (a0 a1 a2 a3 a4 a5 a6 a7 a8 : Byte)
    (b : List Byte) (n k : Nat) :
    RadioPacket.body junk ⟨⟨some ([a0, a1, a2, a3, a4, a5, a6, a7, a8] ++ b), n, k⟩⟩
      = readBytes junk b a7.val := rfl

end PacketResizeBody

/-! ## Body assignment on an arbitrary message buffer -/

section MessageGeneralBody
open ExpandingArray

theorem message_copyTo_header (junk : Nat → Byte) (h : List Byte) (n k : Nat)
    (hh : 4 ≤ h.length) (hn : 4 ≤ n) :
    (⟨some h, n, k⟩ : ExpandingArray).copyTo Message.IDX_MOD junk (some (fresh junk 4)) 4
      = some (h.take 4) := by
  unfold copyTo
  simp only [show (4:Nat) > 0 by decide, if_true]
  rw [copyToAt_fit Message.IDX_MOD junk h _ n k 4 0 (by simp; omega) (by omega)]
  rw [memcpy_eq junk _ _ 0 4 (by simp [fresh_length]) (by simpa using hh)]
  simp [drop_of_length_eq _ 4 (fresh_length junk 4)]

/-- The resize step of `Message::resizeBody`, with the header copied back when
`copy` is false: the buffer holds the old header and `len` or more body cells. -/
theorem message_resize_keep_header (junk : Nat → Byte) (a0 a1 a2 a3 : Byte)
    (rest : List Byte) (n k len : Nat) (hk : 4 + rest.length = k) (hn4 : 4 ≤ n)
    (hnk : n ≤ k) :
    (∃ X, len ≤ X.length ∧
      ((⟨some ([a0, a1, a2, a3] ++ rest), n, k⟩ : ExpandingArray).resize
          Message.IDX_MOD junk (4 + len) false).copyFrom Message.IDX_MOD junk
          (some [a0, a1, a2, a3]) 4
        = ⟨some ([a0, a1, a2, a3] ++ X), 4 + len, 4 + X.length⟩) ∧
    (∃ X, len ≤ X.length ∧
      (⟨some ([a0, a1, a2, a3] ++ rest), n, k⟩ : ExpandingArray).resize
          Message.IDX_MOD junk (4 + len) true
        = ⟨some ([a0, a1, a2, a3] ++ X), 4 + len, 4 + X.length⟩) := by
  have hcf : ∀ (cs : List Byte) (m q : Nat), 4 ≤ m → m ≤ cs.length →
      (⟨some cs, m, q⟩ : ExpandingArray).copyFrom Message.IDX_MOD junk
          (some [a0, a1, a2, a3]) 4
        = ⟨some ([a0, a1, a2, a3] ++ cs.drop 4), m, q⟩ := by
    intro cs m q h1 h2
    unfold copyFrom
    rw [copyFromAt_fit _ junk _ _ _ _ 4 0 (by decide) (by simp; omega) (by omega)]
    rw [memcpy_eq junk _ _ 0 4 (by omega) (by simp)]
    simp
  by_cases hA : 4 + len = n
  · subst hA
    constructor
    · refine ⟨rest, by omega, ?_⟩
      rw [resize_same, hcf _ _ _ (by omega) (by simp; omega)]
      simp [hk]
    · refine ⟨rest, by omega, ?_⟩
      rw [resize_same, hk]
  · by_cases hB : 4 + len < k
    · constructor
      · refine ⟨rest, by omega, ?_⟩
        rw [resize_within _ junk _ n k (4 + len) false hA hB,
          hcf _ _ _ (by omega) (by simp; omega)]
        simp [hk]
      · refine ⟨rest, by omega, ?_⟩
        rw [resize_within _ junk _ n k (4 + len) true hA hB, hk]
    · constructor
      · refine ⟨(fresh junk (4 + len)).drop 4, by simp [fresh_length], ?_⟩
        rw [resize_grow_nocopy _ junk _ n k (4 + len) (by omega) (by omega),
          hcf _ _ _ (by omega) (by simp [fresh_length])]
        simp [fresh_length]
      · refine ⟨rest.take (n - 4) ++ (fresh junk (4 + len)).drop n, ?_, ?_⟩
        · simp [fresh_length]; omega
        · rw [resize_grow_copy _ junk _ n k (4 + len) (by omega) (by omega) (by omega)]
          rw [memcpy_eq junk _ _ 0 n (by simp [fresh_length]; omega) (by simp; omega)]
          have e : List.take n ([a0, a1, a2, a3] ++ rest)
              = [a0, a1, a2, a3] ++ rest.take (n - 4) := by
            rw [List.take_append_eq_append_take]
            rw [List.take_of_length_le (by simpa using hn4)]
            rfl
          rw [e]
          simp [fresh_length]
          omega

theorem message_resizeBody_general (junk : Nat → Byte) (a0 a1 a2 a3 : Byte)
    (rest : List Byte) (n k len : Nat) (copy : Bool) (hk : 4 + rest.length = k)
    (hn4 : 4 ≤ n) (hnk : n ≤ k) (hlen : len ≤ 65531) :
    ∃ X, len ≤ X.length ∧
      Message.resizeBody junk ⟨⟨some ([a0, a1, a2, a3] ++ rest), n, k⟩⟩ len copy
        = ⟨⟨some ([toByte (len / 256), toByte len, a2, a3] ++ X),
            4 + len, 4 + X.length⟩⟩ := by
  have hmax : ¬ (len > Message.getMaxBodyLength) := by
    simp [Message.getMaxBodyLength, Message.getMaxMessageLength, Message.getHeaderLength,
      Message._HEADER_LEN]; omega
  have hmod : (4 + len) % 65536 = 4 + len := Nat.mod_eq_of_lt (by omega)
  have hmod2 : len % 65536 = len := Nat.mod_eq_of_lt (by omega)
  obtain ⟨⟨X1, hX1, hd1⟩, ⟨X2, hX2, hd2⟩⟩ :=
    message_resize_keep_header junk a0 a1 a2 a3 rest n k len hk hn4 hnk
  cases copy with
  | false =>
    have hcopy := message_copyTo_header junk ([a0, a1, a2, a3] ++ rest) n k (by simp) hn4
    have htake : List.take 4 ([a0, a1, a2, a3] ++ rest) = [a0, a1, a2, a3] := by simp
    rw [htake] at hcopy
    refine ⟨X1, hX1, ?_⟩
    unfold Message.resizeBody
    simp only [hmax, if_false, Message.getHeaderLength, Message._HEADER_LEN, hcopy,
      Option.getD_some, hmod, Bool.not_false, if_true, hd1, Message.setRawBodyLength, hmod2,
      Message._BODYLEN_OFFSET]
    rw [setUInt16_cells Message.IDX_MOD junk _ (4 + len) _ len 0 (by simp) (by omega)
      (by simp; omega)]
    simp
  | true =>
    refine ⟨X2, hX2, ?_⟩
    unfold Message.resizeBody
    simp only [hmax, if_false, Message.getHeaderLength, Message._HEADER_LEN, hmod,
      Bool.not_true, Bool.false_eq_true, hd2, Message.setRawBodyLength, hmod2,
      Message._BODYLEN_OFFSET]
    rw [setUInt16_cells Message.IDX_MOD junk _ (4 + len) _ len 0 (by simp) (by omega)
      (by simp; omega)]
    simp

theorem message_setBodyData_general (junk : Nat → Byte) (a0 a1 a2 a3 : Byte)
    (rest : List Byte) (n k len : Nat) (hk : 4 + rest.length = k)
    (hn4 : 4 ≤ n) (hnk : n ≤ k) (hlen : len ≤ 65531) :
    (∃ X, len ≤ X.length ∧
      Message.setBodyData junk ⟨⟨some ([a0, a1, a2, a3] ++ rest), n, k⟩⟩ none len
        = ⟨⟨some ([toByte (len / 256), toByte len, a2, a3] ++ X),
            4 + len, 4 + X.length⟩⟩) ∧
    (∀ src, ∃ tail,
      Message.setBodyData junk ⟨⟨some ([a0, a1, a2, a3] ++ rest), n, k⟩⟩ (some src) len
        = ⟨⟨some ([toByte (len / 256), toByte len, a2, a3]
              ++ (readBytes junk src len ++ tail)), 4 + len, 4 + len + tail.length⟩⟩) := by
  obtain ⟨X, hX, hq⟩ := message_resizeBody_general junk a0 a1 a2 a3 rest n k len true hk hn4
    hnk hlen
  constructor
  · refine ⟨X, hX, ?_⟩
    unfold Message.setBodyData
    rw [hq]
    rfl
  · intro src
    unfold Message.setBodyData
    rw [hq]
    simp only [Message.getHeaderLength, Message._HEADER_LEN]
    rcases Nat.eq_zero_or_pos len with h0 | hpos
    · subst h0
      refine ⟨X, ?_⟩
      simp [copyFromAt_zero, readBytes]
    · refine ⟨X.drop len, ?_⟩
      rw [copyFromAt_fit _ junk _ src (4 + len) _ len 4 hpos
        (by simp [Message.IDX_MOD]; omega) (by omega)]
      rw [memcpy_eq_read junk _ _ 4 len (by simp; omega)]
      simp
      exact ⟨by rw [Nat.add_comm 4 len]; rfl, by omega⟩

theorem message_body_read (junk : Nat → Byte) (a0 a1 a2 a3 : Byte) (b : List Byte)
    (n k : Nat) (hn : 4 ≤ n) (hk : n ≤ 4 + b.length) :
    Message.body junk ⟨⟨some ([a0, a1, a2, a3] ++ b), n, k⟩⟩
      = readBytes junk b (be16 a0 a1) := by
  unfold Message.body
  rw [(Message.message_fields_of_cells junk a0 a1 a2 a3 b n k hn hk).1]
  rfl

theorem valid_message_cases (m : Message) (hv : m._data.Valid) (h4 : 4 ≤ m.getMessageLength) :
    ∃ (a0 a1 a2 a3 : Byte) (rest : List Byte) (n k : Nat),
      m = ⟨⟨some ([a0, a1, a2, a3] ++ rest), n, k⟩⟩ ∧ 4 + rest.length = k ∧ 4 ≤ n ∧ n ≤ k := by
  obtain ⟨⟨d, n, k⟩⟩ := m
  simp only [Message.getMessageLength, ExpandingArray.length] at h4
  cases d with
  | none =>
    simp only [Valid] at hv
    omega
  | some cs =>
    simp only [Valid] at hv
    obtain ⟨a0, a1, a2, a3, rest, rfl⟩ := list_ge4 cs (by omega)
    refine ⟨a0, a1, a2, a3, rest, n, k, rfl, ?_, h4, hv.2⟩
    have := hv.1
    simp only [List.length_cons] at this
    omega

end MessageGeneralBody

/-! ## Object representations and storing inside the buffer -/

section TypedAccess
open ExpandingArray

theorem objBytes_length (n x : Nat) : (objBytes n x).length = n := by
  induction n generalizing x with
  | zero => rfl
  | succ n ih => simp [objBytes, ih]

theorem ofObjBytes_objBytes (n x : Nat) : ofObjBytes (objBytes n x) = x % 256 ^ n := by
  induction n generalizing x with
  | zero => simp [objBytes, ofObjBytes, Nat.mod_one]
  | succ n ih =>
    simp only [objBytes, ofObjBytes, ih, toByte]
    rw [pow_succ, Nat.mul_comm (256 ^ n) 256, Nat.mod_mul]

theorem objBytes_ofObjBytes (l : List Byte) : objBytes l.length (ofObjBytes l) = l := by
  induction l with
  | nil => rfl
  | cons b l ih =>
    have hb := b.isLt
    have h1 : (b.val + 256 * ofObjBytes l) / 256 = ofObjBytes l := by omega
    have h2 : toByte (b.val + 256 * ofObjBytes l) = b := by
      apply Fin.ext
      simp only [toByte]
      omega
    simp only [List.length_cons, objBytes, ofObjBytes, h1, h2, ih]

/-- The object representation of a byte-swapped value is the reversed object
representation. -/
theorem objBytes_swapped (n x : Nat) :
    objBytes n (ofObjBytes (objBytes n x).reverse) = (objBytes n x).reverse := by
  have h := objBytes_ofObjBytes (objBytes n x).reverse
  rwa [List.length_reverse, objBytes_length] at h

theorem swap_swapped (n x : Nat) (l : List Byte) (hl : l.length = n)
    (h : l = (objBytes n x).reverse) :
    ofObjBytes (objBytes n (ofObjBytes l)).reverse = x % 256 ^ n := by
  have h1 := objBytes_ofObjBytes l
  rw [hl] at h1
  rw [h1, h, List.reverse_reverse, ofObjBytes_objBytes]

theorem getD_splice_lt (cs src : List Byte) (off n j : Nat) (d : Byte) (hj : j < off)
    (hoff : off ≤ cs.length) :
    (cs.take off ++ src ++ cs.drop (off + n)).getD j d = cs.getD j d := by
  simp only [List.getD_eq_getElem?_getD, List.append_assoc]
  rw [List.getElem?_append_left (by simp; omega), List.getElem?_take_of_lt hj]

theorem getD_splice_mid (cs src : List Byte) (off n k : Nat) (d : Byte) (hk : k < n)
    (hsrc : src.length = n) (hoff : off ≤ cs.length) :
    (cs.take off ++ src ++ cs.drop (off + n)).getD (off + k) d = src.getD k d := by
  simp only [List.getD_eq_getElem?_getD]
  rw [List.getElem?_append_left (by simp; omega),
    List.getElem?_append_right (by simp)]
  congr 2
  simp
  omega

theorem getD_splice_ge (cs src : List Byte) (off n j : Nat) (d : Byte) (hj : off + n ≤ j)
    (hsrc : src.length = n) (hoff : off ≤ cs.length) :
    (cs.take off ++ src ++ cs.drop (off + n)).getD j d = cs.getD j d := by
  simp only [List.getD_eq_getElem?_getD]
  rw [List.getElem?_append_right (by simp; omega), List.getElem?_drop]
  congr 2
  simp
  omega

theorem take_drop_splice (cs src : List Byte) (off n : Nat) (hsrc : src.length = n)
    (hoff : off ≤ cs.length) :
    ((cs.take off ++ src ++ cs.drop (off + n)).drop off).take n = src := by
  have h1 : (cs.take off).length = off := by simp; omega
  rw [List.append_assoc, List.drop_append_of_le_length (by omega)]
  rw [drop_of_length_eq _ off h1, List.nil_append]
  rw [List.take_append_of_le_length (by omega), take_of_length_eq src n hsrc]

/-- Storing `n` bytes inside the buffer and loading them again. -/
theorem store_load (M : Nat) (junk jg jr : Nat → Byte) (a : ExpandingArray)
    (src : List Byte) (n off : Nat) (hv : a.Valid) (hn : 0 < n) (hsrc : src.length = n)
    (hfit : off + n ≤ a.length) :
    (a.copyFromAt M junk (some src) n off).length = a.length ∧
    (a.copyFromAt M junk (some src) n off)._arrayLength = a._arrayLength ∧
    (∀ k, k < n → (a.copyFromAt M junk (some src) n off).get jr (off + k) = src.getD k 0) ∧
    (∀ j, j < off ∨ off + n ≤ j →
      (a.copyFromAt M junk (some src) n off).get jr j = a.get jr j) ∧
    ((a.copyFromAt M junk (some src) n off).copyToAt M jg (some (fresh jg n)) n off).getD
        (fresh jg n) = src := by
  obtain ⟨d, L, K⟩ := a
  simp only [ExpandingArray.length] at hfit ⊢
  cases d with
  | none =>
    simp only [Valid] at hv
    omega
  | some cs =>
    simp only [Valid] at hv
    obtain ⟨hcs, hLK⟩ := hv
    have hoffM : off % M < L := lt_of_le_of_lt (Nat.mod_le off M) (by omega)
    rw [copyFromAt_fit M junk cs src L K n off hn hoffM hfit]
    rw [memcpy_eq junk cs src off n (by omega) (by omega), take_of_length_eq src n hsrc]
    refine ⟨rfl, rfl, ?_, ?_, ?_⟩
    · intro k hk
      simp only [ExpandingArray.get, cells, Option.getD_some]
      rw [getD_splice_mid cs src off n k _ hk hsrc (by omega)]
      simp only [List.getD_eq_getElem?_getD]
      rw [List.getElem?_eq_getElem (by omega)]
      rfl
    · intro j hj
      simp only [ExpandingArray.get, cells, Option.getD_some]
      rcases hj with hj | hj
      · exact getD_splice_lt cs src off n j _ hj (by omega)
      · exact getD_splice_ge cs src off n j _ hj hsrc (by omega)
    · rw [copyToAt_fit M jg _ _ L K n off hoffM hfit, Option.getD_some]
      rw [memcpy_eq jg _ _ 0 n (by simp [fresh_length]) (by simp [hsrc]; omega)]
      rw [take_drop_splice cs src off n hsrc (by omega)]
      simp [drop_of_length_eq _ n (fresh_length jg n)]

end TypedAccess

/-! ## Typed network-order access -/

section TypedRoundTrip
open ExpandingArray

theorem bytes_at_eq (jr : Nat → Byte) (a : ExpandingArray) (off n : Nat) (src : List Byte)
    (hsrc : src.length = n) (h : ∀ k, k < n → a.get jr (off + k) = src.getD k 0) :
    (List.range n).map (fun k => a.get jr (off + k)) = src := by
  apply List.ext_getElem
  · simp [hsrc]
  · intro i h1 h2
    simp only [List.getElem_map, List.getElem_range]
    rw [h i (by omega)]
    simp [List.getD_eq_getElem?_getD, List.getElem?_eq_getElem h2]

theorem objBytes16_swapped_length (s : Nat) : (objBytes16 (Util.htons s)).length = 2 := rfl

theorem reverse_objBytes4 (v : Nat) :
    (objBytes 4 v).reverse
      = [toByte (v / 2 ^ 24), toByte (v / 2 ^ 16), toByte (v / 2 ^ 8), toByte v] := by
  simp [objBytes, Nat.div_div_eq_div_mul]

theorem reverse_objBytes8 (v : Nat) :
    (objBytes 8 v).reverse
      = [toByte (v / 2 ^ 56), toByte (v / 2 ^ 48), toByte (v / 2 ^ 40), toByte (v / 2 ^ 32),
          toByte (v / 2 ^ 24), toByte (v / 2 ^ 16), toByte (v / 2 ^ 8), toByte v] := by
  simp [objBytes, Nat.div_div_eq_div_mul]

theorem typed16 (M : Nat) (junk jg jr : Nat → Byte) (a : ExpandingArray) (v off : Nat)
    (hv : a.Valid) (hfit : off + 2 ≤ a.length) (hval : v < 2 ^ 16) :
    (NetworkBuffer.setUInt16 M junk a v off).length = a.length ∧
    (NetworkBuffer.setUInt16 M junk a v off)._arrayLength = a._arrayLength ∧
    (List.range 2).map (fun k => (NetworkBuffer.setUInt16 M junk a v off).get jr (off + k))
      = [toByte (v / 2 ^ 8), toByte v] ∧
    (∀ j, j < off ∨ off + 2 ≤ j →
      (NetworkBuffer.setUInt16 M junk a v off).get jr j = a.get jr j) ∧
    NetworkBuffer.getUInt16 M jg (NetworkBuffer.setUInt16 M junk a v off) off = v := by
  have hs : objBytes16 (Util.htons v) = [toByte (v / 2 ^ 8), toByte v] := objBytes16_htons v
  obtain ⟨h1, h2, h3, h4, h5⟩ := store_load M junk jg jr a _ 2 off hv (by decide)
    (objBytes16_swapped_length v) hfit
  unfold NetworkBuffer.setUInt16 NetworkBuffer.getUInt16
  simp only
  refine ⟨h1, h2, ?_, h4, ?_⟩
  · rw [bytes_at_eq jr _ off 2 _ (objBytes16_swapped_length v) h3, hs]
  · rw [h5, hs]
    have e := be16_toByte v (by simpa using hval)
    unfold be16 at e
    unfold Util.ntohs ofObjBytes16
    simp only [List.getD_cons_zero, List.getD_cons_succ]
    rw [bswap16_obj]
    exact e

theorem typed32 (M : Nat) (junk jg jr : Nat → Byte) (a : ExpandingArray) (v off : Nat)
    (hv : a.Valid) (hfit : off + 4 ≤ a.length) (hval : v < 2 ^ 32) :
    (NetworkBuffer.setUInt32 M junk a v off).length = a.length ∧
    (NetworkBuffer.setUInt32 M junk a v off)._arrayLength = a._arrayLength ∧
    (List.range 4).map (fun k => (NetworkBuffer.setUInt32 M junk a v off).get jr (off + k))
      = [toByte (v / 2 ^ 24), toByte (v / 2 ^ 16), toByte (v / 2 ^ 8), toByte v] ∧
    (∀ j, j < off ∨ off + 4 ≤ j →
      (NetworkBuffer.setUInt32 M junk a v off).get jr j = a.get jr j) ∧
    NetworkBuffer.getUInt32 M jg (NetworkBuffer.setUInt32 M junk a v off) off = v := by
  have hs : objBytes 4 (Util.htonl v) = (objBytes 4 v).reverse := objBytes_swapped 4 v
  have hl : ((objBytes 4 v).reverse).length = 4 := by
    rw [List.length_reverse, objBytes_length]
  obtain ⟨h1, h2, h3, h4, h5⟩ := store_load M junk jg jr a _ 4 off hv (by decide) hl hfit
  unfold NetworkBuffer.setUInt32 NetworkBuffer.getUInt32
  simp only [hs]
  refine ⟨h1, h2, ?_, h4, ?_⟩
  · rw [bytes_at_eq jr _ off 4 _ hl h3, reverse_objBytes4]
  · rw [h5]
    unfold Util.ntohl Util.bswap32
    rw [swap_swapped 4 v _ hl rfl]
    exact Nat.mod_eq_of_lt (by simpa using hval)

theorem typed64 (M : Nat) (junk jg jr : Nat → Byte) (a : ExpandingArray) (v off : Nat)
    (hv : a.Valid) (hfit : off + 8 ≤ a.length) (hval : v < 2 ^ 64) :
    (NetworkBuffer.setUInt64 M junk a v off).length = a.length ∧
    (NetworkBuffer.setUInt64 M junk a v off)._arrayLength = a._arrayLength ∧
    (List.range 8).map (fun k => (NetworkBuffer.setUInt64 M junk a v off).get jr (off + k))
      = [toByte (v / 2 ^ 56), toByte (v / 2 ^ 48), toByte (v / 2 ^ 40), toByte (v / 2 ^ 32),
          toByte (v / 2 ^ 24), toByte (v / 2 ^ 16), toByte (v / 2 ^ 8), toByte v] ∧
    (∀ j, j < off ∨ off + 8 ≤ j →
      (NetworkBuffer.setUInt64 M junk a v off).get jr j = a.get jr j) ∧
    NetworkBuffer.getUInt64 M jg (NetworkBuffer.setUInt64 M junk a v off) off = v := by
  have hs : objBytes 8 (Util.htonll v) = (objBytes 8 v).reverse := objBytes_swapped 8 v
  have hl : ((objBytes 8 v).reverse).length = 8 := by
    rw [List.length_reverse, objBytes_length]
  obtain ⟨h1, h2, h3, h4, h5⟩ := store_load M junk jg jr a _ 8 off hv (by decide) hl hfit
  unfold NetworkBuffer.setUInt64 NetworkBuffer.getUInt64
  simp only [hs]
  refine ⟨h1, h2, ?_, h4, ?_⟩
  · rw [bytes_at_eq jr _ off 8 _ hl h3, reverse_objBytes8]
  · rw [h5]
    unfold Util.ntohll Util.bswap64
    rw [swap_swapped 8 v _ hl rfl]
    exact Nat.mod_eq_of_lt (by simpa using hval)

end TypedRoundTrip

/-! ## Fragment numbers of fragment2 -/

section Fragment2Numbers
open ExpandingArray

theorem fragment2_packet_fragment_number (junk jr : Nat → Byte) (src : List Byte) (f : Nat)
    (hf : f < 256) :
    RadioPacket.getRawFragmentNumber jr
      (((RadioPacket.ctor junk).setRawFragmentNumber f).setBodyData junk (some src)
        RadioPacket.getMaxBodyLength) = f := by
  rw [RadioPacket.packet_ctor_eq]
  have h : RadioPacket.setRawFragmentNumber ⟨⟨some [9, 1, 0, 0, 0xff, 0xff, 1, 0, 0], 9, 9⟩⟩ f
      = ⟨⟨some ([9, 1, 0, 0, 0xff, 0xff, toByte f, 0, 0] ++ []), 9, 9⟩⟩ := rfl
  have hm : RadioPacket.getMaxBodyLength = 246 := by decide
  rw [h, hm]
  obtain ⟨tail, ht⟩ := packet_setBodyData_general junk 9 1 0 0 0xff 0xff (toByte f) 0 0 [] src
    9 9 246 rfl (by decide) (by decide) (by decide)
  rw [ht]
  exact toByte_val f hf

theorem calculateFragmentNumber_eq (len : Nat) (h : len ≤ 62730) :
    RadioPacket.calculateFragmentNumber len = (len + 245) / 246 := by
  have hm : RadioPacket.getMaxBodyLength = 246 := by decide
  unfold RadioPacket.calculateFragmentNumber
  rw [hm]
  exact Nat.mod_eq_of_lt (by omega)

end Fragment2Numbers

/-! ## Leaving the fragment loop -/

section FragmentReturns
open ExpandingArray

/-- The loop of `fragment` is left as soon as the counter, decremented by 246
modulo 65536 once per pass, is 0 within the granted number of tests. -/
theorem fragmentLoop_returns (junk : Nat → Byte) (data : List Byte) (fuel k : Nat)
    (s : RadioPacket.FragmentState) (hk : k < fuel) (hlt : s.bytesPacketised < 65536)
    (hzero : (s.bytesPacketised + k * 65290) % 65536 = 0) :
    (RadioPacket.fragmentLoop junk data fuel s).isSome = true := by
  induction fuel generalizing k s with
  | zero => omega
  | succ fuel ih =>
    by_cases hpos : s.bytesPacketised > 0
    · simp only [RadioPacket.fragmentLoop, hpos, if_true]
      cases k with
      | zero => omega
      | succ k =>
        apply ih k _ (by omega)
        · simp only [RadioPacket.fragmentBody, getMaxBodyLength_eq]
          omega
        · simp only [RadioPacket.fragmentBody, getMaxBodyLength_eq]
          omega
    · simp only [RadioPacket.fragmentLoop, hpos, if_false]
      rfl

/-- For an even counter value the number of passes after which it is 0. -/
theorem even_counter_reaches_zero (c : Nat) (heven : c % 2 = 0) :
    (c + ((c / 2 * 24243) % 32768) * 65290) % 65536 = 0 := by
  omega

end FragmentReturns

/-! ## The packet invariant under the mutating calls -/

section PacketInvariant
open ExpandingArray

theorem wellFormed_cells (jr : Nat → Byte) (a0 a1 a2 a3 a4 a5 a6 a7 a8 : Byte)
    (rest : List Byte) (n k : Nat) (hk : 9 + rest.length = k) (hnk : n ≤ k)
    (hn : n = 9 + a7.val) (h0 : a0.val = n) :
    RadioPacket.WellFormed jr ⟨⟨some ([a0, a1, a2, a3, a4, a5, a6, a7, a8] ++ rest), n, k⟩⟩ := by
  unfold RadioPacket.WellFormed
  simp only
  refine ⟨by simp; omega, hnk, hn, h0⟩

/-- The buffer layout every body-resizing call produces is well formed. -/
theorem wellFormed_resized (jr : Nat → Byte) (a1 a2 a3 a4 a5 a6 a8 : Byte) (X : List Byte)
    (len : Nat) (hlen : len ≤ 246) (hX : len ≤ X.length) :
    RadioPacket.WellFormed jr
      ⟨⟨some ([toByte (9 + len), a1, a2, a3, a4, a5, a6, toByte len, a8] ++ X), 9 + len,
        9 + X.length⟩⟩ :=
  wellFormed_cells jr _ _ _ _ _ _ _ _ _ X _ _ rfl (by omega)
    (by rw [toByte_val len (by omega)]) (toByte_val (9 + len) (by omega))

theorem wellFormed_ctor (junk jr : Nat → Byte) :
    RadioPacket.WellFormed jr (RadioPacket.ctor junk) := by
  rw [RadioPacket.packet_ctor_eq]
  exact wellFormed_cells jr 9 1 0 0 0xff 0xff 1 0 0 [] 9 9 rfl (le_refl _) rfl rfl

theorem wellFormed_resizeBody (junk jr : Nat → Byte) (p : RadioPacket) (len : Nat)
    (copy : Bool) (h : RadioPacket.WellFormed jr p) :
    RadioPacket.WellFormed jr (p.resizeBody junk len copy) := by
  by_cases hlen : len ≤ 246
  · obtain ⟨a0, a1, a2, a3, a4, a5, a6, a7, a8, rest, n, k, rfl, hk, hnk, hn, h0⟩ :=
      wellFormed_cases jr p h
    obtain ⟨X, hX, _, hq⟩ := packet_resizeBody_general junk a0 a1 a2 a3 a4 a5 a6 a7 a8 rest
      n k len copy hk (by omega) hnk hlen
    rw [hq]
    exact wellFormed_resized jr a1 a2 a3 a4 a5 a6 a8 X len hlen hX
  · have hmax : len > RadioPacket.getMaxBodyLength := by
      rw [getMaxBodyLength_eq]; omega
    simp only [RadioPacket.resizeBody, hmax, if_true]
    exact h

theorem wellFormed_setBodyData (junk jr : Nat → Byte) (p : RadioPacket)
    (data : Option (List Byte)) (len : Nat) (hlen : len ≤ 246)
    (h : RadioPacket.WellFormed jr p) :
    RadioPacket.WellFormed jr (p.setBodyData junk data len) := by
  cases data with
  | none => exact wellFormed_resizeBody junk jr p len false h
  | some src =>
    obtain ⟨a0, a1, a2, a3, a4, a5, a6, a7, a8, rest, n, k, rfl, hk, hnk, hn, h0⟩ :=
      wellFormed_cases jr p h
    obtain ⟨tail, ht⟩ := packet_setBodyData_general junk a0 a1 a2 a3 a4 a5 a6 a7 a8 rest src
      n k len hk (by omega) hnk hlen
    rw [ht]
    have e : 9 + len + tail.length = 9 + (readBytes junk src len ++ tail).length := by
      simp [readBytes_length]; omega
    rw [e]
    exact wellFormed_resized jr a1 a2 a3 a4 a5 a6 a8 _ len hlen (by simp [readBytes_length])

theorem wellFormed_reset (junk jr : Nat → Byte) (p : RadioPacket)
    (h : RadioPacket.WellFormed jr p) : RadioPacket.WellFormed jr (p.reset junk) := by
  obtain ⟨a0, a1, a2, a3, a4, a5, a6, a7, a8, rest, n, k, rfl, hk, hnk, hn, h0⟩ :=
    wellFormed_cases jr p h
  rw [packet_reset_eq junk _ n k (by simp [Valid]; omega)]
  simp only [Option.getD_some, RadioPacket._DEFAULT_HEADER]
  exact wellFormed_cells jr 9 1 0 0 0xff 0xff 1 0 0 _ 9 _
    (by simp; omega) (by omega) rfl rfl

theorem wellFormed_setters (junk jr : Nat → Byte) (p : RadioPacket) (v : Nat)
    (h : RadioPacket.WellFormed jr p) :
    RadioPacket.WellFormed jr (p.setRawVersion v) ∧
    RadioPacket.WellFormed jr (p.setRawTransmitterId junk v) ∧
    RadioPacket.WellFormed jr (p.setRawReceiverId junk v) ∧
    RadioPacket.WellFormed jr (p.setRawFragmentNumber v) ∧
    RadioPacket.WellFormed jr (p.setRawCrc8 v) := by
  obtain ⟨a0, a1, a2, a3, a4, a5, a6, a7, a8, rest, n, k, rfl, hk, hnk, hn, h0⟩ :=
    wellFormed_cases jr p h
  refine ⟨?_, ?_, ?_, ?_, ?_⟩
  · exact wellFormed_cells jr a0 (toByte v) a2 a3 a4 a5 a6 a7 a8 rest n k hk hnk hn h0
  · unfold RadioPacket.setRawTransmitterId
    rw [setUInt16_cells RadioPacket.IDX_MOD junk _ n k _ 2 (by simp [RadioPacket.IDX_MOD]; omega)
      (by omega) (by simp; omega)]
    exact wellFormed_cells jr a0 a1 _ _ a4 a5 a6 a7 a8 rest n k hk hnk hn h0
  · unfold RadioPacket.setRawReceiverId
    rw [setUInt16_cells RadioPacket.IDX_MOD junk _ n k _ 4 (by simp [RadioPacket.IDX_MOD]; omega)
      (by omega) (by simp; omega)]
    exact wellFormed_cells jr a0 a1 a2 a3 _ _ a6 a7 a8 rest n k hk hnk hn h0
  · exact wellFormed_cells jr a0 a1 a2 a3 a4 a5 (toByte v) a7 a8 rest n k hk hnk hn h0
  · exact wellFormed_cells jr a0 a1 a2 a3 a4 a5 a6 a7 (toByte v) rest n k hk hnk hn h0

theorem wellFormed_call (jr : Nat → Byte) (p : RadioPacket) (op : RadioPacket.Op)
    (hop : op.withinLimit = true) (h : RadioPacket.WellFormed jr p) :
    RadioPacket.WellFormed jr (op.call p) := by
  cases op with
  | setBodyData j data len =>
    have hlen : len ≤ 246 := by
      simpa [RadioPacket.Op.withinLimit, getMaxBodyLength_eq] using hop
    exact wellFormed_setBodyData j jr p data len hlen h
  | resizeBody j bodyLen copy => exact wellFormed_resizeBody j jr p bodyLen copy h
  | reset j => exact wellFormed_reset j jr p h
  | setRawVersion v => exact (wellFormed_setters jr jr p v h).1
  | setRawTransmitterId j id => exact (wellFormed_setters j jr p id h).2.1
  | setRawReceiverId j id => exact (wellFormed_setters j jr p id h).2.2.1
  | setRawFragmentNumber v => exact (wellFormed_setters jr jr p v h).2.2.2.1
  | setRawCrc8 v => exact (wellFormed_setters jr jr p v h).2.2.2.2

theorem wellFormed_calls (jr : Nat → Byte) (ops : List RadioPacket.Op) (p : RadioPacket)
    (hops : ∀ op, op ∈ ops → op.withinLimit = true) (h : RadioPacket.WellFormed jr p) :
    RadioPacket.WellFormed jr (RadioPacket.calls ops p) := by
  induction ops generalizing p with
  | nil => exact h
  | cons op ops ih =>
    exact ih (op.call p) (fun o ho => hops o (List.mem_cons_of_mem _ ho))
      (wellFormed_call jr p op (hops op (List.mem_cons_self _ _)) h)

/-- What the invariant says about the fields of a well-formed packet. -/
theorem wellFormed_fields (jr : Nat → Byte) (p : RadioPacket)
    (h : RadioPacket.WellFormed jr p) :
    p.getRawPacketLength jr = 9 + p.getRawBodyLength jr ∧
    9 + p.getRawBodyLength jr = p._data.length ∧
    p._data.length ≤ 255 := by
  obtain ⟨a0, a1, a2, a3, a4, a5, a6, a7, a8, rest, n, k, rfl, hk, hnk, hn, h0⟩ :=
    wellFormed_cases jr p h
  have e0 : RadioPacket.getRawPacketLength jr
      ⟨⟨some ([a0, a1, a2, a3, a4, a5, a6, a7, a8] ++ rest), n, k⟩⟩ = a0.val := rfl
  have e7 : RadioPacket.getRawBodyLength jr
      ⟨⟨some ([a0, a1, a2, a3, a4, a5, a6, a7, a8] ++ rest), n, k⟩⟩ = a7.val := rfl
  have := a0.isLt
  rw [e0, e7]
  simp only [ExpandingArray.length]
  omega

theorem wellFormed_parse (junk jr : Nat → Byte) (buff : List Byte) (len : Nat)
    (p : RadioPacket) (h : RadioPacket.parse junk buff len = (RadioPacket.PARSE_OK, some p)) :
    RadioPacket.WellFormed jr p := by
  unfold RadioPacket.parse at h
  by_cases h9 : len < RadioPacket.getHeaderLength
  · simp [h9] at h
  · have hhdr : (RadioPacket.ctor junk)._data.copyFrom RadioPacket.IDX_MOD junk (some buff)
        RadioPacket.getHeaderLength = ⟨some (readBytes junk buff 9), 9, 9⟩ := by
      rw [RadioPacket.packet_ctor_eq]
      unfold copyFrom
      simp only [RadioPacket.getHeaderLength, RadioPacket._HEADER_LEN]
      rw [copyFromAt_fit _ junk _ _ _ _ 9 0 (by decide) (by decide) (by decide)]
      rw [memcpy_eq_read junk _ _ 0 9 (by decide)]
      simp
    obtain ⟨a0, a1, a2, a3, a4, a5, a6, a7, a8, hb⟩ :=
      list_len9 (readBytes junk buff 9) (readBytes_length junk buff 9)
    simp only [h9, if_false, hhdr, hb] at h
    have e7 : RadioPacket.getRawBodyLength junk
        ⟨⟨some [a0, a1, a2, a3, a4, a5, a6, a7, a8], 9, 9⟩⟩ = a7.val := rfl
    rw [e7] at h
    by_cases hA : a7.val > len - RadioPacket.getHeaderLength
    · simp [hA] at h
    · by_cases hB : a7.val > RadioPacket.getMaxBodyLength
      · simp [hA, hB] at h
      · simp only [hA, hB, if_false, Prod.mk.injEq, true_and, Option.some.injEq] at h
        rw [getMaxBodyLength_eq] at hB
        obtain ⟨tail, ht⟩ := packet_setBodyData_general junk a0 a1 a2 a3 a4 a5 a6 a7 a8 []
          (buff.drop RadioPacket.getHeaderLength) 9 9 a7.val rfl (le_refl _) (le_refl _)
          (by omega)
        simp only [List.append_nil] at ht
        rw [← h, ht]
        have e : 9 + a7.val + tail.length
            = 9 + (readBytes junk (buff.drop RadioPacket.getHeaderLength) a7.val
                ++ tail).length := by
          simp [readBytes_length]; omega
        rw [e]
        exact wellFormed_resized jr a1 a2 a3 a4 a5 a6 a8 _ a7.val (by omega)
          (by simp [readBytes_length])

theorem memcpy_getD_lt (junk : Nat → Byte) (dst src : List Byte) (i len j : Nat) (d : Byte)
    (hj : j < i) (hi : i ≤ dst.length) :
    (memcpy junk dst i src len).getD j d = dst.getD j d := by
  unfold memcpy
  simp only [List.getD_eq_getElem?_getD, List.append_assoc]
  rw [List.getElem?_take_of_lt (by omega), List.getElem?_append_left (by simp; omega),
    List.getElem?_take_of_lt hj]

/-- A copying resize keeps every byte below the old length, whatever the new
length is. -/
theorem resize_copy_getD (M : Nat) (junk : Nat → Byte) (cs : List Byte) (n k m j : Nat)
    (d : Byte) (hcs : cs.length = k) (hnk : n ≤ k) (hj : j < n) :
    ∃ cs', resize M junk ⟨some cs, n, k⟩ m true = ⟨some cs', m, cs'.length⟩ ∧
      k ≤ cs'.length ∧ cs'.getD j d = cs.getD j d := by
  subst hcs
  by_cases hA : m = n
  · subst hA
    exact ⟨cs, resize_same M junk cs m _ true, le_refl _, rfl⟩
  · by_cases hB : m < cs.length
    · exact ⟨cs, resize_within M junk cs n _ m true hA hB, le_refl _, rfl⟩
    · refine ⟨memcpy junk (fresh junk m) 0 cs n, ?_, ?_, ?_⟩
      · rw [resize_grow_copy M junk cs n _ m (by omega) (by omega) (by omega),
          memcpy_length, fresh_length]
      · rw [memcpy_length, fresh_length]; omega
      · rw [memcpy_eq junk _ _ 0 n (by simp [fresh_length]; omega) (by omega)]
        simp only [List.take_zero, List.nil_append, Nat.zero_add]
        exact getD_take_append cs _ n j d (by omega) hj

/-- `copyFromAt` at index `i` leaves every byte below `i` as it was, also when
it resizes the buffer. -/
theorem copyFromAt_front (M : Nat) (junk jr : Nat → Byte) (cs src : List Byte)
    (n k len i j : Nat) (hcs : cs.length = k) (hnk : n ≤ k) (hj : j < i) (hin : i ≤ n) :
    (copyFromAt M junk ⟨some cs, n, k⟩ (some src) len i).get jr j = cs.getD j (jr j) := by
  unfold copyFromAt
  simp only
  by_cases h0 : len = 0
  · simp only [h0, if_true]
    rfl
  · simp only [h0, if_false]
    by_cases h1 : (!_indexInRange M ⟨some cs, n, k⟩ i) = true
    · simp only [h1, if_true]
      rfl
    · simp only [h1, Bool.false_eq_true, if_false]
      by_cases h2 : (i + len) % SIZE_MOD > n
      · simp only [h2, if_true]
        obtain ⟨cs', he, hk', hg⟩ := resize_copy_getD M junk cs n k
          (((n + (n + SIZE_MOD - (i + len) % SIZE_MOD) % SIZE_MOD) % SIZE_MOD) % M) j (jr j)
          hcs hnk (by omega)
        rw [he]
        simp only [ExpandingArray.get, cells, Option.map_some', Option.getD_some]
        rw [memcpy_getD_lt junk cs' src i len j _ hj (by omega), hg]
      · simp only [h2, if_false]
        simp only [ExpandingArray.get, cells, Option.map_some', Option.getD_some]
        exact memcpy_getD_lt junk cs src i len j _ hj (by omega)

/-- `setBodyData` with `len` above 246 on a packet that carries a body: the
header keeps the old packet length while the buffer length changes. -/
theorem setBodyData_oversize_breaks (junk jr : Nat → Byte) (p : RadioPacket)
    (src : List Byte) (len : Nat) (hwf : RadioPacket.WellFormed jr p)
    (hbody : 9 < p._data.length) (h1 : 246 < len) (h2 : len < 256) :
    (p.setBodyData junk (some src) len).getRawPacketLength jr = p._data.length ∧
    (p.setBodyData junk (some src) len)._data.length
      = (2 * p._data.length + 503 - len) % 256 ∧
    (p.setBodyData junk (some src) len).getRawPacketLength jr
      ≠ (p.setBodyData junk (some src) len)._data.length := by
  obtain ⟨a0, a1, a2, a3, a4, a5, a6, a7, a8, rest, n, k, rfl, hk, hnk, hn, h0⟩ :=
    wellFormed_cases jr p hwf
  have hn255 : n ≤ 255 := by have := a0.isLt; omega
  simp only [ExpandingArray.length] at hbody ⊢
  have hmax : len > RadioPacket.getMaxBodyLength := by
    rw [getMaxBodyLength_eq]; omega
  have hset : RadioPacket.setBodyData junk
      ⟨⟨some ([a0, a1, a2, a3, a4, a5, a6, a7, a8] ++ rest), n, k⟩⟩ (some src) len
      = ⟨copyFromAt RadioPacket.IDX_MOD junk
          ⟨some ([a0, a1, a2, a3, a4, a5, a6, a7, a8] ++ rest), n, k⟩ (some src) len 9⟩ := by
    unfold RadioPacket.setBodyData RadioPacket.resizeBody
    simp only [hmax, if_true, RadioPacket.getHeaderLength, RadioPacket._HEADER_LEN]
  have hfield : (RadioPacket.setBodyData junk
      ⟨⟨some ([a0, a1, a2, a3, a4, a5, a6, a7, a8] ++ rest), n, k⟩⟩ (some src)
      len).getRawPacketLength jr = n := by
    rw [hset]
    unfold RadioPacket.getRawPacketLength
    simp only
    rw [copyFromAt_front _ junk jr _ src n k len 9 0 (by simp; omega) hnk (by decide)
      (by omega)]
    exact h0
  have hlen : (RadioPacket.setBodyData junk
      ⟨⟨some ([a0, a1, a2, a3, a4, a5, a6, a7, a8] ++ rest), n, k⟩⟩ (some src)
      len)._data._currentLength = (2 * n + 503 - len) % 256 := by
    rw [hset]
    simp only
    rw [copyFromAt_grow_length _ junk _ src len 9 (by omega)
      (by simp [ExpandingArray._indexInRange, RadioPacket.IDX_MOD]; omega)
      (by simp only [SIZE_MOD]; omega)]
    simp only [SIZE_MOD, RadioPacket.IDX_MOD]
    omega
  refine ⟨hfield, hlen, ?_⟩
  rw [hfield, hlen]
  omega

end PacketInvariant

/-! ## Claims -/

/-- C1: Message round trip.  For every 16-bit action code `a` and every body `b`
of at most 65531 bytes, the message built from `b` and `a` has message length
`4 + |b|`, and parsing its serialized bytes returns `PARSE_OK` together with a
message (equal to the one built) whose raw action is `a`, whose raw body length
is `|b|` and whose body bytes are `b`. -/
theorem C1_message_round_trip (jb jp jr : Nat → Byte) (a : Nat) (b : List Byte)
    (ha : a < 65536) (hb : b.length ≤ 65531) :
    (Message.build jb a b).getMessageLength = 4 + b.length ∧
    ∃ m, Message.parse jp (Message.serialize jr (Message.build jb a b))
            (Message.build jb a b).getMessageLength = (Message.PARSE_OK, some m) ∧
      m = Message.build jb a b ∧
      m.getRawAction jr = a ∧ m.getRawBodyLength jr = b.length ∧ m.body jr = b := by
  have ha2 : a % 65536 = a := Nat.mod_eq_of_lt ha
  rw [Message.message_build_eq jb a b hb, ha2]
  refine ⟨rfl, ?_⟩
  have hser : Message.serialize jr ⟨⟨some ([toByte (b.length / 256), toByte b.length,
      toByte (a / 256), toByte a] ++ b), 4 + b.length, 4 + b.length⟩⟩
      = toByte (b.length / 256) :: toByte b.length :: toByte (a / 256) :: toByte a :: b := by
    unfold Message.serialize Message.getData Message.getMessageLength ExpandingArray.length
    simp only [Option.getD_some]
    rw [readBytes_self jr _ _ (by simp; omega)]
    rfl
  have hdecl : be16 (toByte (b.length / 256)) (toByte b.length) = b.length :=
    be16_toByte _ (by omega)
  rw [hser]
  simp only [Message.getMessageLength, ExpandingArray.length]
  rw [Message.message_parse_cons jp _ _ _ _ b _ (by omega), hdecl]
  have h1 : ¬ (b.length < 4 + b.length - 4) := by omega
  have h2 : ¬ (b.length > 65531) := by omega
  simp only [h1, h2, if_false]
  rw [Message.message_setBodyData_header jp _ _ _ _ b b.length hb (le_refl _), List.take_length]
  refine ⟨_, rfl, rfl, ?_, ?_, ?_⟩
  · rw [(Message.message_fields_of_cells jr _ _ _ _ _ _ _ (by omega) (by simp)).2]
    exact be16_toByte a ha
  · rw [(Message.message_fields_of_cells jr _ _ _ _ _ _ _ (by omega) (by simp)).1]
    exact be16_toByte _ (by omega)
  · unfold Message.body
    rw [(Message.message_fields_of_cells jr _ _ _ _ _ _ _ (by omega) (by simp)).1, hdecl]
    simp [Message.getBodyData, Message.getHeaderLength, Message._HEADER_LEN]
    exact readBytes_self jr b _ rfl

/-- Witness for C1: action `0x1234` with the body `AA BB CC`. -/
theorem C1_message_round_trip_witness :
    (0x1234 < 65536 ∧ [(0xAA : Byte), 0xBB, 0xCC].length ≤ 65531) ∧
    ((Message.build (fun _ => 0) 0x1234 [0xAA, 0xBB, 0xCC]).getMessageLength = 4 + 3 ∧
    ∃ m, Message.parse (fun _ => 0)
            (Message.serialize (fun _ => 0) (Message.build (fun _ => 0) 0x1234 [0xAA, 0xBB, 0xCC]))
            (Message.build (fun _ => 0) 0x1234 [0xAA, 0xBB, 0xCC]).getMessageLength
              = (Message.PARSE_OK, some m) ∧
      m = Message.build (fun _ => 0) 0x1234 [0xAA, 0xBB, 0xCC] ∧
      m.getRawAction (fun _ => 0) = 0x1234 ∧ m.getRawBodyLength (fun _ => 0) = 3 ∧
      m.body (fun _ => 0) = [0xAA, 0xBB, 0xCC]) :=
  ⟨⟨by decide, by decide⟩,
    C1_message_round_trip (fun _ => 0) (fun _ => 0) (fun _ => 0) 0x1234 [0xAA, 0xBB, 0xCC]
      (by decide) (by decide)⟩

/-- C2: Packet round trip.  For any version, transmitter id, receiver id,
fragment number and crc8 and every body `b` of at most 246 bytes, the packet
built from them has buffer length `9 + |b|`, and parsing its `9 + |b|`
serialized bytes returns `PARSE_OK` together with a packet (equal to the one
built) with packet length `9 + |b|`, the same version, transmitter id, receiver
id and fragment number, body length `|b|`, the same crc8, and body bytes `b`. -/
theorem C2_packet_round_trip (jb jp jr : Nat → Byte) (v tx rx f c : Nat) (b : List Byte)
    (hv : v < 256) (htx : tx < 65536) (hrx : rx < 65536) (hf : f < 256) (hc : c < 256)
    (hb : b.length ≤ 246) :
    (RadioPacket.build jb v tx rx f c b)._data.length = 9 + b.length ∧
    ∃ q, RadioPacket.parse jp (RadioPacket.serialize jr (RadioPacket.build jb v tx rx f c b))
            (9 + b.length) = (RadioPacket.PARSE_OK, some q) ∧
      q = RadioPacket.build jb v tx rx f c b ∧
      q.getRawPacketLength jr = 9 + b.length ∧
      q.getRawVersion jr = v ∧
      q.getRawTransmitterId jr = tx ∧
      q.getRawReceiverId jr = rx ∧
      q.getRawFragmentNumber jr = f ∧
      q.getRawBodyLength jr = b.length ∧
      q.getRawCrc8 jr = c ∧
      q.body jr = b := by
  rw [RadioPacket.packet_build_eq jb v tx rx f c b hb, Nat.mod_eq_of_lt htx, Nat.mod_eq_of_lt hrx]
  refine ⟨rfl, ?_⟩
  have hser : RadioPacket.serialize jr ⟨⟨some ([toByte (9 + b.length), toByte v,
      toByte (tx / 256), toByte tx, toByte (rx / 256), toByte rx, toByte f,
      toByte b.length, toByte c] ++ b), 9 + b.length, 9 + b.length⟩⟩
      = toByte (9 + b.length) :: toByte v :: toByte (tx / 256) :: toByte tx ::
        toByte (rx / 256) :: toByte rx :: toByte f :: toByte b.length :: toByte c :: b := by
    unfold RadioPacket.serialize RadioPacket.getData ExpandingArray.length
    simp only [Option.getD_some]
    rw [readBytes_self jr _ _ (by simp; omega)]
    rfl
  have hbl : (toByte b.length).val = b.length := toByte_val _ (by omega)
  rw [hser, RadioPacket.packet_parse_cons jp _ _ _ _ _ _ _ _ _ b _ (by omega), hbl]
  have h1 : ¬ (b.length > 9 + b.length - 9) := by omega
  have h2 : ¬ (b.length > 246) := by omega
  simp only [h1, h2, if_false]
  rw [RadioPacket.packet_setBodyData_header jp _ b b.length (by simp) hb (le_refl _)]
  have hf := RadioPacket.packet_fields_of_cells jr (toByte (9 + b.length)) (toByte v)
    (toByte (tx / 256)) (toByte tx) (toByte (rx / 256)) (toByte rx) (toByte f)
    (toByte b.length) (toByte c) b (9 + b.length) (9 + b.length) (by omega) (by omega)
  have hcells : ([toByte (9 + b.length), toByte v, toByte (tx / 256), toByte tx,
      toByte (rx / 256), toByte rx, toByte f, toByte b.length, toByte c].set 0
        (toByte (9 + b.length))).set 7 (toByte b.length) ++ List.take b.length b
      = [toByte (9 + b.length), toByte v, toByte (tx / 256), toByte tx,
      toByte (rx / 256), toByte rx, toByte f, toByte b.length, toByte c] ++ b := by
    simp
  rw [hcells]
  obtain ⟨f0, f1, f2, f3, f4, f5, f6⟩ := hf
  refine ⟨_, rfl, rfl, ?_, ?_, ?_, ?_, ?_, ?_, ?_, ?_⟩
  · rw [f0]; exact toByte_val _ (by omega)
  · rw [f1]; exact toByte_val _ hv
  · rw [f2]; exact be16_toByte _ htx
  · rw [f3]; exact be16_toByte _ hrx
  · rw [f4]; exact toByte_val _ (by omega)
  · rw [f5]; exact hbl
  · rw [f6]; exact toByte_val _ hc
  · unfold RadioPacket.body
    rw [f5, hbl]
    simp only [RadioPacket.getBodyData, RadioPacket.getHeaderLength, RadioPacket._HEADER_LEN,
      Option.map_some', Option.getD_some]
    simp only [List.cons_append, List.nil_append, List.drop_succ_cons, List.drop_zero]
    exact readBytes_self jr b _ rfl

/-- Witness for C2: a packet with a three-byte body. -/
theorem C2_packet_round_trip_witness :
    ((2 < 256 ∧ 0x0102 < 65536 ∧ 0x0304 < 65536 ∧ 5 < 256 ∧ 0x4D < 256) ∧
      [(10 : Byte), 11, 12].length ≤ 246) ∧
    ((RadioPacket.build (fun _ => 0) 2 0x0102 0x0304 5 0x4D [10, 11, 12])._data.length
        = 9 + [(10 : Byte), 11, 12].length ∧
    ∃ q, RadioPacket.parse (fun _ => 0)
            (RadioPacket.serialize (fun _ => 0)
              (RadioPacket.build (fun _ => 0) 2 0x0102 0x0304 5 0x4D [10, 11, 12]))
            (9 + [(10 : Byte), 11, 12].length) = (RadioPacket.PARSE_OK, some q) ∧
      q = RadioPacket.build (fun _ => 0) 2 0x0102 0x0304 5 0x4D [10, 11, 12] ∧
      q.getRawPacketLength (fun _ => 0) = 9 + [(10 : Byte), 11, 12].length ∧
      q.getRawVersion (fun _ => 0) = 2 ∧
      q.getRawTransmitterId (fun _ => 0) = 0x0102 ∧
      q.getRawReceiverId (fun _ => 0) = 0x0304 ∧
      q.getRawFragmentNumber (fun _ => 0) = 5 ∧
      q.getRawBodyLength (fun _ => 0) = [(10 : Byte), 11, 12].length ∧
      q.getRawCrc8 (fun _ => 0) = 0x4D ∧
      q.body (fun _ => 0) = [10, 11, 12]) :=
  ⟨⟨⟨by decide, by decide, by decide, by decide, by decide⟩, by decide⟩,
    C2_packet_round_trip (fun _ => 0) (fun _ => 0) (fun _ => 0) 2 0x0102 0x0304 5 0x4D
      [10, 11, 12] (by decide) (by decide) (by decide) (by decide) (by decide) (by decide)⟩

/-- C3: Message wire layout.  For every 16-bit action `a` and body `b` of at
most 65531 bytes the serialized message is `[hi |b|, lo |b|, hi a, lo a]`
followed by `b`; action `0x1234` with body `AA BB CC` serializes to
`00 03 12 34 AA BB CC`, and parsing these seven bytes returns `PARSE_OK` with
action `0x1234` and body `AA BB CC`. -/
theorem C3_message_wire_layout (jb jp jr : Nat → Byte) (a : Nat) (b : List Byte)
    (ha : a < 65536) (hb : b.length ≤ 65531) :
    Message.serialize jr (Message.build jb a b)
      = [toByte (b.length / 256), toByte b.length, toByte (a / 256), toByte a] ++ b ∧
    Message.serialize jr (Message.build jb 0x1234 [0xAA, 0xBB, 0xCC])
      = [0x00, 0x03, 0x12, 0x34, 0xAA, 0xBB, 0xCC] ∧
    ∃ m, Message.parse jp [0x00, 0x03, 0x12, 0x34, 0xAA, 0xBB, 0xCC] 7
        = (Message.PARSE_OK, some m) ∧
      m.getRawAction jr = 0x1234 ∧ m.body jr = [0xAA, 0xBB, 0xCC] := by
  have hgen : ∀ (a : Nat) (b : List Byte), a < 65536 → b.length ≤ 65531 →
      Message.serialize jr (Message.build jb a b)
        = [toByte (b.length / 256), toByte b.length, toByte (a / 256), toByte a] ++ b := by
    intro a b ha hb
    rw [Message.message_build_eq jb a b hb, Nat.mod_eq_of_lt ha]
    unfold Message.serialize Message.getData Message.getMessageLength ExpandingArray.length
    simp only [Option.getD_some]
    exact readBytes_self jr _ _ (by simp; omega)
  refine ⟨hgen a b ha hb, ?_, ?_⟩
  · rw [hgen 0x1234 [0xAA, 0xBB, 0xCC] (by decide) (by decide)]
    decide
  · rw [Message.message_parse_cons jp _ _ _ _ _ 7 (by decide)]
    have hd : be16 (0x00 : Byte) 0x03 = 3 := by decide
    rw [hd]
    simp only [show ¬ (3 < 7 - 4) by decide, show ¬ (3 > 65531) by decide, if_false]
    rw [Message.message_setBodyData_header jp _ _ _ _ _ 3 (by decide) (by decide)]
    refine ⟨_, rfl, ?_, ?_⟩
    · rw [(Message.message_fields_of_cells jr _ _ _ _ _ _ _ (by decide) (by decide)).2]
      decide
    · unfold Message.body
      rw [(Message.message_fields_of_cells jr _ _ _ _ _ _ _ (by decide) (by decide)).1]
      have hd2 : be16 (toByte (3 / 256)) (toByte 3) = 3 := by decide
      rw [hd2]
      simp only [Message.getBodyData, Message.getHeaderLength, Message._HEADER_LEN,
        Option.map_some', Option.getD_some]
      exact readBytes_self jr _ 3 rfl

/-- Witness for C3: action `0xBEEF` with a two-byte body. -/
theorem C3_message_wire_layout_witness :
    (0xBEEF < 65536 ∧ [(1 : Byte), 2].length ≤ 65531) ∧
    (Message.serialize (fun _ => 0) (Message.build (fun _ => 0) 0xBEEF [1, 2])
      = [toByte ([(1 : Byte), 2].length / 256), toByte [(1 : Byte), 2].length,
          toByte (0xBEEF / 256), toByte 0xBEEF] ++ [1, 2] ∧
    Message.serialize (fun _ => 0) (Message.build (fun _ => 0) 0x1234 [0xAA, 0xBB, 0xCC])
      = [0x00, 0x03, 0x12, 0x34, 0xAA, 0xBB, 0xCC] ∧
    ∃ m, Message.parse (fun _ => 0) [0x00, 0x03, 0x12, 0x34, 0xAA, 0xBB, 0xCC] 7
        = (Message.PARSE_OK, some m) ∧
      m.getRawAction (fun _ => 0) = 0x1234 ∧ m.body (fun _ => 0) = [0xAA, 0xBB, 0xCC]) :=
  ⟨⟨by decide, by decide⟩,
    C3_message_wire_layout (fun _ => 0) (fun _ => 0) (fun _ => 0) 0xBEEF [1, 2]
      (by decide) (by decide)⟩

/-- C4: the default-constructed packet has buffer length 9 and, read through
the raw accessors, packet length 9, version 1, transmitter id 0, receiver id
`0xFFFF`, fragment number 1, body length 0 and crc8 0. -/
theorem C4_default_packet (junk jr : Nat → Byte) :
    (RadioPacket.ctor junk)._data.length = 9 ∧
    (RadioPacket.ctor junk).getRawPacketLength jr = 9 ∧
    (RadioPacket.ctor junk).getRawVersion jr = 1 ∧
    (RadioPacket.ctor junk).getRawTransmitterId jr = 0 ∧
    (RadioPacket.ctor junk).getRawReceiverId jr = 0xFFFF ∧
    (RadioPacket.ctor junk).getRawFragmentNumber jr = 1 ∧
    (RadioPacket.ctor junk).getRawBodyLength jr = 0 ∧
    (RadioPacket.ctor junk).getRawCrc8 jr = 0 := by
  rw [RadioPacket.packet_ctor_eq]
  have hf := RadioPacket.packet_fields_of_cells jr 9 1 0 0 0xff 0xff 1 0 0 [] 9 9 (by decide)
    (by decide)
  simp only [List.append_nil] at hf
  obtain ⟨f0, f1, f2, f3, f4, f5, f6⟩ := hf
  refine ⟨rfl, ?_, ?_, ?_, ?_, ?_, ?_, ?_⟩
  · rw [f0]; decide
  · rw [f1]; decide
  · rw [f2]; decide
  · rw [f3]; decide
  · rw [f4]; decide
  · rw [f5]; decide
  · rw [f6]; decide


/-- Counterexample to C5: the default-constructed packet serializes to
`09 01 00 00 FF FF 01 00 00`; its stored crc byte is 0 while `generateChecksum`
yields 169, so the ninth byte is not the checksum of the preceding eight. -/
theorem C5_default_crc_is_not_checksum :
    RadioPacket.serialize (fun _ => 0) (RadioPacket.ctor (fun _ => 0))
      = [0x09, 0x01, 0x00, 0x00, 0xFF, 0xFF, 0x01, 0x00, 0x00] ∧
    RadioPacket.generateChecksum (fun _ => 0) (RadioPacket.ctor (fun _ => 0)) = 169 ∧
    (RadioPacket.ctor (fun _ => 0)).getRawCrc8 (fun _ => 0)
      ≠ RadioPacket.generateChecksum (fun _ => 0) (RadioPacket.ctor (fun _ => 0)) := by
  have hc := generateChecksum_default (fun _ => 0) (fun _ => 0)
  refine ⟨?_, hc, ?_⟩
  · rw [RadioPacket.packet_ctor_eq]
    unfold RadioPacket.serialize RadioPacket.getData ExpandingArray.length
    simp only [Option.getD_some]
    exact readBytes_self _ _ 9 rfl
  · rw [hc, RadioPacket.packet_ctor_eq]
    have hf := RadioPacket.packet_fields_of_cells (fun _ => 0) 9 1 0 0 0xff 0xff 1 0 0 [] 9 9
      (by decide) (by decide)
    simp only [List.append_nil] at hf
    rw [hf.2.2.2.2.2.2]
    decide

/-- C5, amended: the default-constructed packet serializes to
`09 01 00 00 FF FF 01 00 00` (the ninth byte is the default crc field 0); once
the caller stores `generateChecksum()` with `setRawCrc8`, the packet serializes
to `09 01 00 00 FF FF 01 00` followed by the crc8 over these eight bytes, and
the stored crc byte equals `generateChecksum()` of that packet. -/
theorem C5_default_packet_bytes (junk jr : Nat → Byte) :
    RadioPacket.serialize jr (RadioPacket.ctor junk)
      = [0x09, 0x01, 0x00, 0x00, 0xFF, 0xFF, 0x01, 0x00, 0x00] ∧
    RadioPacket.serialize jr
        ((RadioPacket.ctor junk).setRawCrc8 (RadioPacket.generateChecksum jr (RadioPacket.ctor junk)))
      = [0x09, 0x01, 0x00, 0x00, 0xFF, 0xFF, 0x01, 0x00] ++
          [toByte (Util.crc8 jr (Util.crc8 jr 0 none 0)
            (some [0x09, 0x01, 0x00, 0x00, 0xFF, 0xFF, 0x01, 0x00]) 8)] ∧
    ((RadioPacket.ctor junk).setRawCrc8
        (RadioPacket.generateChecksum jr (RadioPacket.ctor junk))).getRawCrc8 jr
      = RadioPacket.generateChecksum jr
          ((RadioPacket.ctor junk).setRawCrc8
            (RadioPacket.generateChecksum jr (RadioPacket.ctor junk))) := by
  have hc := generateChecksum_default junk jr
  have hcrc : Util.crc8 jr (Util.crc8 jr 0 none 0)
      (some [0x09, 0x01, 0x00, 0x00, 0xFF, 0xFF, 0x01, 0x00]) 8 = 169 := by
    have e : Util.crc8 jr (Util.crc8 jr 0 none 0)
        (some [0x09, 0x01, 0x00, 0x00, 0xFF, 0xFF, 0x01, 0x00]) 8
        = List.foldl Util.crc8_update 0 [(9 : Byte), 1, 0, 0, 0xff, 0xff, 1, 0] := rfl
    rw [e, crc8_default_header]
  have hset : (RadioPacket.ctor junk).setRawCrc8 169
      = ⟨⟨some ([9, 1, 0, 0, 0xff, 0xff, 1, 0, toByte 169] ++ []), 9, 9⟩⟩ := rfl
  rw [hc, hcrc, hset]
  refine ⟨?_, ?_, ?_⟩
  · rw [RadioPacket.packet_ctor_eq]
    unfold RadioPacket.serialize RadioPacket.getData ExpandingArray.length
    simp only [Option.getD_some]
    exact readBytes_self _ _ 9 rfl
  · unfold RadioPacket.serialize RadioPacket.getData ExpandingArray.length
    simp only [Option.getD_some]
    exact readBytes_self _ _ 9 rfl
  · rw [(RadioPacket.packet_fields_of_cells jr _ _ _ _ _ _ _ _ _ [] 9 9 (by decide)
      (by decide)).2.2.2.2.2.2, generateChecksum_cells, crc8_default_header]
    rfl


/-- C6: order of the status decisions of `RadioPacket::parse` on a buffer of
`len` bytes: incomplete header if `len < 9`; otherwise insufficient bytes if
the declared body length (byte 7) exceeds `len - 9`; otherwise maximum length
exceeded if it exceeds 246; otherwise `PARSE_OK` with a packet whose version,
transmitter id, receiver id, fragment number and crc8 are those of the
buffer header and whose body is `buffer[9 .. 9 + declared)`. -/
theorem C6_packet_parse_status_order (jp jr : Nat → Byte) (buff : List Byte) (len : Nat)
    (hbuf : len ≤ buff.length) :
    (len < 9 →
      RadioPacket.parse jp buff len = (RadioPacket.PARSE_ERROR_INCOMPLETE_HEADER, none)) ∧
    (9 ≤ len → (buff.getD 7 0).val > len - 9 →
      RadioPacket.parse jp buff len = (RadioPacket.PARSE_ERROR_INSUFFICIENT_BYTES, none)) ∧
    (9 ≤ len → (buff.getD 7 0).val ≤ len - 9 → (buff.getD 7 0).val > 246 →
      RadioPacket.parse jp buff len = (RadioPacket.PARSE_ERROR_MAX_LENGTH_EXCEEDED, none)) ∧
    (9 ≤ len → (buff.getD 7 0).val ≤ len - 9 → (buff.getD 7 0).val ≤ 246 →
      ∃ p, RadioPacket.parse jp buff len = (RadioPacket.PARSE_OK, some p) ∧
        p.getRawVersion jr = (buff.getD 1 0).val ∧
        p.getRawTransmitterId jr = be16 (buff.getD 2 0) (buff.getD 3 0) ∧
        p.getRawReceiverId jr = be16 (buff.getD 4 0) (buff.getD 5 0) ∧
        p.getRawFragmentNumber jr = (buff.getD 6 0).val ∧
        p.getRawCrc8 jr = (buff.getD 8 0).val ∧
        p.body jr = (buff.drop 9).take (buff.getD 7 0).val) := by
  refine ⟨?_, ?_, ?_, ?_⟩
  · intro h
    simp [RadioPacket.parse, RadioPacket.getHeaderLength, RadioPacket._HEADER_LEN, h]
  · intro h9 hd
    obtain ⟨b0, b1, b2, b3, b4, b5, b6, b7, b8, rest, rfl⟩ := list_ge9 buff (by omega)
    simp only [List.getD_cons_succ, List.getD_cons_zero] at hd
    rw [RadioPacket.packet_parse_cons jp _ _ _ _ _ _ _ _ _ rest len h9]
    simp only [hd, if_true]
  · intro h9 hd hm
    obtain ⟨b0, b1, b2, b3, b4, b5, b6, b7, b8, rest, rfl⟩ := list_ge9 buff (by omega)
    simp only [List.getD_cons_succ, List.getD_cons_zero] at hd hm
    rw [RadioPacket.packet_parse_cons jp _ _ _ _ _ _ _ _ _ rest len h9]
    have hd2 : ¬ (b7.val > len - 9) := by omega
    simp only [hd2, hm, if_true, if_false]
  · intro h9 hd hm
    obtain ⟨b0, b1, b2, b3, b4, b5, b6, b7, b8, rest, rfl⟩ := list_ge9 buff (by omega)
    simp only [List.getD_cons_succ, List.getD_cons_zero, List.drop_succ_cons,
      List.drop_zero] at hd hm ⊢
    simp only [List.length_cons] at hbuf
    rw [RadioPacket.packet_parse_cons jp _ _ _ _ _ _ _ _ _ rest len h9]
    have hd2 : ¬ (b7.val > len - 9) := by omega
    have hm2 : ¬ (b7.val > 246) := by omega
    simp only [hd2, hm2, if_false]
    rw [RadioPacket.packet_setBodyData_header jp _ rest b7.val (by simp) hm (by omega)]
    have hcells : ([b0, b1, b2, b3, b4, b5, b6, b7, b8].set 0 (toByte (9 + b7.val))).set 7
        (toByte b7.val) ++ List.take b7.val rest
        = [toByte (9 + b7.val), b1, b2, b3, b4, b5, b6, toByte b7.val, b8]
          ++ List.take b7.val rest := by
      simp
    rw [hcells]
    have htl : (List.take b7.val rest).length = b7.val := by
      rw [List.length_take]; omega
    have hf := RadioPacket.packet_fields_of_cells jr (toByte (9 + b7.val)) b1 b2 b3 b4 b5 b6
      (toByte b7.val) b8 (List.take b7.val rest) (9 + b7.val) (9 + b7.val) (by omega)
      (by omega)
    obtain ⟨-, f1, f2, f3, f4, f5, f6⟩ := hf
    have hbl : (toByte b7.val).val = b7.val := toByte_val _ b7.isLt
    refine ⟨_, rfl, f1, f2, f3, f4, f6, ?_⟩
    unfold RadioPacket.body
    rw [f5, hbl]
    simp only [RadioPacket.getBodyData, RadioPacket.getHeaderLength, RadioPacket._HEADER_LEN,
      Option.map_some', Option.getD_some]
    simp only [List.cons_append, List.nil_append, List.drop_succ_cons, List.drop_zero]
    exact readBytes_self jr _ _ htl

/-- Witness for C6: a twelve-byte buffer declaring a three-byte body. -/
theorem C6_packet_parse_status_order_witness :
    ([(12 : Byte), 7, 1, 2, 3, 4, 5, 3, 77, 10, 11, 12].length = 12 ∧ 9 ≤ 12) ∧
    ∃ p, RadioPacket.parse (fun _ => 0) [12, 7, 1, 2, 3, 4, 5, 3, 77, 10, 11, 12] 12
          = (RadioPacket.PARSE_OK, some p) ∧
        p.getRawVersion (fun _ => 0) = 7 ∧
        p.getRawTransmitterId (fun _ => 0) = be16 1 2 ∧
        p.getRawReceiverId (fun _ => 0) = be16 3 4 ∧
        p.getRawFragmentNumber (fun _ => 0) = 5 ∧
        p.getRawCrc8 (fun _ => 0) = 77 ∧
        p.body (fun _ => 0) = [10, 11, 12] :=
  ⟨⟨by decide, by decide⟩,
    (C6_packet_parse_status_order (fun _ => 0) (fun _ => 0)
      [12, 7, 1, 2, 3, 4, 5, 3, 77, 10, 11, 12] 12 (by decide)).2.2.2
      (by decide) (by decide) (by decide)⟩

/-- C7, the code at the failing inputs: a complete empty-body message followed
by one trailing byte is rejected with `PARSE_ERROR_INSUFFICIENT_BUFFER_BYTES`,
and a four-byte buffer declaring a one-byte body that is not there is answered
with `PARSE_OK`; the comparison in `Message::parse` is inverted. -/
theorem C7_message_parse_comparison_inverted (junk : Nat → Byte) :
    Message.parse junk [0, 0, 0, 0, 0xAA] 5
      = (Message.PARSE_ERROR_INSUFFICIENT_BUFFER_BYTES, none) ∧
    (Message.parse junk [0, 1, 0, 0] 4).1 = Message.PARSE_OK := by
  constructor
  · rw [Message.message_parse_cons junk _ _ _ _ _ 5 (by decide)]
    have hd : be16 (0 : Byte) 0 = 0 := by decide
    rw [hd]
    simp
  · rw [Message.message_parse_cons junk _ _ _ _ _ 4 (by decide)]
    have hd : be16 (0 : Byte) 1 = 1 := by decide
    rw [hd]
    simp


/-- C8: a buffer shorter than the header is rejected with the incomplete-header
status by both codecs, whatever its contents: `RadioPacket::parse` for every
`len < 9` and `Message::parse` for every `len < 4`. -/
theorem C8_parse_short_header (junk : Nat → Byte) (buff : List Byte) (len : Nat) :
    (len < 9 → RadioPacket.parse junk buff len
      = (RadioPacket.PARSE_ERROR_INCOMPLETE_HEADER, none)) ∧
    (len < 4 → Message.parse junk buff len
      = (Message.PARSE_ERROR_INSUFFICIENT_HEADER_BYTES, none)) := by
  constructor
  · intro h
    simp [RadioPacket.parse, RadioPacket.getHeaderLength, RadioPacket._HEADER_LEN, h]
  · intro h
    simp [Message.parse, Message.getHeaderLength, Message._HEADER_LEN, h]


/-- Witness for C8: `len = 8` for the packet codec, `len = 3` for the message
codec. -/
theorem C8_parse_short_header_witness :
    (8 < 9 ∧ 3 < 4) ∧
    RadioPacket.parse (fun _ => 0) [9, 1, 0, 0, 0xff, 0xff, 1, 0] 8
      = (RadioPacket.PARSE_ERROR_INCOMPLETE_HEADER, none) ∧
    Message.parse (fun _ => 0) [0, 0, 0] 3
      = (Message.PARSE_ERROR_INSUFFICIENT_HEADER_BYTES, none) :=
  ⟨⟨by decide, by decide⟩,
    (C8_parse_short_header (fun _ => 0) [9, 1, 0, 0, 0xff, 0xff, 1, 0] 8).1 (by decide),
    (C8_parse_short_header (fun _ => 0) [0, 0, 0] 3).2 (by decide)⟩

/-- Counterexample to C9: a nine-byte buffer whose header declares a body of
255 bytes is answered with `PARSE_ERROR_INSUFFICIENT_BYTES`, not with
`PARSE_ERROR_MAX_LENGTH_EXCEEDED`. -/
theorem C9_short_buffer_reports_insufficient_bytes :
    RadioPacket.parse (fun _ => 0) [9, 1, 0, 0, 0xff, 0xff, 1, 255, 0] 9
      = (RadioPacket.PARSE_ERROR_INSUFFICIENT_BYTES, none) ∧
    (RadioPacket.parse (fun _ => 0) [9, 1, 0, 0, 0xff, 0xff, 1, 255, 0] 9).1
      ≠ RadioPacket.PARSE_ERROR_MAX_LENGTH_EXCEEDED := by
  rw [RadioPacket.packet_parse_cons (fun _ => 0) _ _ _ _ _ _ _ _ _ [] 9 (by decide)]
  decide

/-- C9, amended: on a buffer with `len >= 9` whose header declares a body
length above 246, `RadioPacket::parse` returns `PARSE_ERROR_MAX_LENGTH_EXCEEDED`
when at least the declared number of bytes follows the header
(`declared <= len - 9`), and `PARSE_ERROR_INSUFFICIENT_BYTES` when fewer follow,
whatever the remaining contents. -/
theorem C9_packet_parse_over_limit (junk : Nat → Byte) (buff : List Byte) (len : Nat)
    (hhdr : 9 ≤ buff.length) (hlen : 9 ≤ len) (hdecl : (buff.getD 7 0).val > 246) :
    ((buff.getD 7 0).val ≤ len - 9 →
      RadioPacket.parse junk buff len = (RadioPacket.PARSE_ERROR_MAX_LENGTH_EXCEEDED, none)) ∧
    ((buff.getD 7 0).val > len - 9 →
      RadioPacket.parse junk buff len = (RadioPacket.PARSE_ERROR_INSUFFICIENT_BYTES, none)) := by
  obtain ⟨b0, b1, b2, b3, b4, b5, b6, b7, b8, rest, rfl⟩ := list_ge9 buff hhdr
  simp only [List.getD_cons_succ, List.getD_cons_zero] at hdecl ⊢
  rw [RadioPacket.packet_parse_cons junk _ _ _ _ _ _ _ _ _ rest len hlen]
  constructor
  · intro h
    have hd2 : ¬ (b7.val > len - 9) := by omega
    simp only [hd2, hdecl, if_true, if_false]
  · intro h
    simp only [h, if_true]

/-- Witness for C9 (amended): a header declaring 250 bytes, followed by 250
bytes (`len = 259`), and the same header alone (`len = 9`). -/
theorem C9_packet_parse_over_limit_witness :
    (9 ≤ ([(3 : Byte), 1, 0, 0, 0xff, 0xff, 1, 250, 0] ++ List.replicate 250 0).length ∧
      9 ≤ 259 ∧ 250 > 246 ∧ 250 ≤ 259 - 9 ∧ 250 > 9 - 9) ∧
    RadioPacket.parse (fun _ => 0)
        ([3, 1, 0, 0, 0xff, 0xff, 1, 250, 0] ++ List.replicate 250 0) 259
      = (RadioPacket.PARSE_ERROR_MAX_LENGTH_EXCEEDED, none) ∧
    RadioPacket.parse (fun _ => 0) [3, 1, 0, 0, 0xff, 0xff, 1, 250, 0] 9
      = (RadioPacket.PARSE_ERROR_INSUFFICIENT_BYTES, none) :=
  ⟨⟨by simp only [List.length_append, List.length_replicate, List.length_cons,
        List.length_nil]; omega,
      by decide, by decide, by decide, by decide⟩,
    (C9_packet_parse_over_limit (fun _ => 0)
      ([3, 1, 0, 0, 0xff, 0xff, 1, 250, 0] ++ List.replicate 250 0) 259
      (by simp only [List.length_append, List.length_replicate, List.length_cons,
        List.length_nil]; omega) (by decide) (by decide)).1 (by decide),
    (C9_packet_parse_over_limit (fun _ => 0) [3, 1, 0, 0, 0xff, 0xff, 1, 250, 0] 9
      (by decide) (by decide) (by decide)).2 (by decide)⟩

/-- C10: on a buffer with `4 <= len <= 65535` whose header declares a body
length above 65531, `Message::parse` returns
`PARSE_ERROR_BODY_LENGTH_EXCEEDED`, whatever the remaining contents and however
many bytes follow the header. -/
theorem C10_message_parse_over_limit (junk : Nat → Byte) (buff : List Byte) (len : Nat)
    (hhdr : 4 ≤ buff.length) (hlen : 4 ≤ len) (hlen2 : len ≤ 65535)
    (hdecl : be16 (buff.getD 0 0) (buff.getD 1 0) > 65531) :
    Message.parse junk buff len = (Message.PARSE_ERROR_BODY_LENGTH_EXCEEDED, none) := by
  obtain ⟨b0, b1, b2, b3, rest, rfl⟩ := list_ge4 buff hhdr
  simp only [List.getD_cons_succ, List.getD_cons_zero] at hdecl
  rw [Message.message_parse_cons junk _ _ _ _ rest len hlen]
  have h1 : ¬ (be16 b0 b1 < len - 4) := by omega
  simp only [h1, hdecl, if_true, if_false]


/-- Witness for C10: a bare header declaring 65534 body bytes. -/
theorem C10_message_parse_over_limit_witness :
    (4 ≤ [(0xFF : Byte), 0xFE, 0, 0].length ∧ 4 ≤ 4 ∧ 4 ≤ 65535 ∧
      be16 (0xFF : Byte) 0xFE > 65531) ∧
    Message.parse (fun _ => 0) [0xFF, 0xFE, 0, 0] 4
      = (Message.PARSE_ERROR_BODY_LENGTH_EXCEEDED, none) :=
  ⟨⟨by decide, by decide, by decide, by decide⟩,
    C10_message_parse_over_limit (fun _ => 0) [0xFF, 0xFE, 0, 0] 4
      (by decide) (by decide) (by decide) (by decide)⟩

/-- C11: `setBodyData(data, len)` with `len <= 246` on any well-formed packet,
whatever its previous body, gives a packet with buffer length `9 + len`, raw
packet length `9 + len`, raw body length `len`, body bytes `data[0..len)` and
nothing else, and unchanged version, transmitter id, receiver id, fragment
number and crc8. -/
theorem C11_setBodyData_replaces_body (junk jr : Nat → Byte) (p : RadioPacket)
    (src : List Byte) (len : Nat) (hwf : RadioPacket.WellFormed jr p) (hlen : len ≤ 246)
    (hsrc : len ≤ src.length) :
    (p.setBodyData junk (some src) len)._data.length = 9 + len ∧
    (p.setBodyData junk (some src) len).getRawPacketLength jr = 9 + len ∧
    (p.setBodyData junk (some src) len).getRawBodyLength jr = len ∧
    (p.setBodyData junk (some src) len).body jr = src.take len ∧
    (p.setBodyData junk (some src) len).getRawVersion jr = p.getRawVersion jr ∧
    (p.setBodyData junk (some src) len).getRawTransmitterId jr = p.getRawTransmitterId jr ∧
    (p.setBodyData junk (some src) len).getRawReceiverId jr = p.getRawReceiverId jr ∧
    (p.setBodyData junk (some src) len).getRawFragmentNumber jr = p.getRawFragmentNumber jr ∧
    (p.setBodyData junk (some src) len).getRawCrc8 jr = p.getRawCrc8 jr := by
  obtain ⟨a0, a1, a2, a3, a4, a5, a6, a7, a8, rest, n, k, rfl, hk, hnk, hn, h0⟩ :=
    wellFormed_cases jr p hwf
  obtain ⟨tail, hset⟩ := packet_setBodyData_general junk a0 a1 a2 a3 a4 a5 a6 a7 a8 rest src
    n k len hk (by omega) hnk hlen
  rw [hset]
  obtain ⟨-, g1, g2, g3, g4, -, g6⟩ := RadioPacket.packet_fields_of_cells jr a0 a1 a2 a3 a4
    a5 a6 a7 a8 rest n k (by omega) (by omega)
  obtain ⟨f0, f1, f2, f3, f4, f5, f6⟩ := RadioPacket.packet_fields_of_cells jr
    (toByte (9 + len)) a1 a2 a3 a4 a5 a6 (toByte len) a8 (readBytes junk src len ++ tail)
    (9 + len) (9 + len + tail.length) (by omega) (by simp [readBytes_length])
  have hbl : (toByte len).val = len := toByte_val _ (by omega)
  refine ⟨rfl, ?_, ?_, ?_, ?_, ?_, ?_, ?_, ?_⟩
  · rw [f0]; exact toByte_val _ (by omega)
  · rw [f5]; exact hbl
  · unfold RadioPacket.body
    rw [f5, hbl]
    simp only [RadioPacket.getBodyData, RadioPacket.getHeaderLength, RadioPacket._HEADER_LEN,
      Option.map_some', Option.getD_some]
    simp only [List.cons_append, List.nil_append, List.drop_succ_cons, List.drop_zero]
    rw [readBytes_append_left jr _ tail len (by simp [readBytes_length]),
      take_of_length_eq _ len (readBytes_length junk src len)]
    exact readBytes_eq_take junk src len hsrc
  · rw [f1, g1]
  · rw [f2, g2]
  · rw [f3, g3]
  · rw [f4, g4]
  · rw [f6, g6]

/-- Witness for C11: a packet with a three-byte body receives a two-byte
body. -/
theorem C11_setBodyData_replaces_body_witness :
    (RadioPacket.WellFormed (fun _ => 0)
        ⟨⟨some [12, 7, 1, 2, 3, 4, 5, 3, 77, 10, 11, 12], 12, 12⟩⟩ ∧ 2 ≤ 246 ∧
      2 ≤ [(0xAA : Byte), 0xBB].length) ∧
    (RadioPacket.setBodyData (fun _ => 0)
        ⟨⟨some [12, 7, 1, 2, 3, 4, 5, 3, 77, 10, 11, 12], 12, 12⟩⟩
        (some [0xAA, 0xBB]) 2)._data.length = 9 + 2 ∧
    (RadioPacket.setBodyData (fun _ => 0)
        ⟨⟨some [12, 7, 1, 2, 3, 4, 5, 3, 77, 10, 11, 12], 12, 12⟩⟩
        (some [0xAA, 0xBB]) 2).body (fun _ => 0) = [0xAA, 0xBB] :=
  ⟨⟨by decide, by decide, by decide⟩,
    (C11_setBodyData_replaces_body (fun _ => 0) (fun _ => 0)
      ⟨⟨some [12, 7, 1, 2, 3, 4, 5, 3, 77, 10, 11, 12], 12, 12⟩⟩ [0xAA, 0xBB] 2
      (by decide) (by decide) (by decide)).1,
    (C11_setBodyData_replaces_body (fun _ => 0) (fun _ => 0)
      ⟨⟨some [12, 7, 1, 2, 3, 4, 5, 3, 77, 10, 11, 12], 12, 12⟩⟩ [0xAA, 0xBB] 2
      (by decide) (by decide) (by decide)).2.2.2.1⟩

/-- C12, the code on a packet that carries a body: `setBodyData(data, len)` with
`len` in `247..255` is not a no-op there.  `resizeBody` returns early, but the
following `copyFromAt` still runs, finds `9 + len` beyond the buffer and resizes
it: the buffer length becomes `(2 * length - 9 - len) mod 256`, which always
differs from the old length. -/
theorem C12_setBodyData_oversize_resizes (junk jr : Nat → Byte) (p : RadioPacket)
    (src : List Byte) (len : Nat) (hwf : RadioPacket.WellFormed jr p)
    (hbody : 9 < p._data.length) (h1 : 246 < len) (h2 : len < 256) :
    (p.setBodyData junk (some src) len)._data.length
      = (2 * p._data.length + 503 - len) % 256 ∧
    (p.setBodyData junk (some src) len)._data.length ≠ p._data.length := by
  obtain ⟨a0, a1, a2, a3, a4, a5, a6, a7, a8, rest, n, k, rfl, hk, hnk, hn, h0⟩ :=
    wellFormed_cases jr p hwf
  have hn255 : n ≤ 255 := by have := a0.isLt; omega
  simp only [ExpandingArray.length] at hbody ⊢
  have hmax : len > RadioPacket.getMaxBodyLength := by
    simp [RadioPacket.getMaxBodyLength, RadioPacket.getMaxPacketLength,
      RadioPacket.getHeaderLength, RadioPacket._HEADER_LEN]; omega
  have hlen : (RadioPacket.setBodyData junk
      ⟨⟨some ([a0, a1, a2, a3, a4, a5, a6, a7, a8] ++ rest), n, k⟩⟩ (some src)
      len)._data._currentLength = (2 * n + 503 - len) % 256 := by
    unfold RadioPacket.setBodyData RadioPacket.resizeBody
    simp only [hmax, if_true, RadioPacket.getHeaderLength, RadioPacket._HEADER_LEN]
    rw [copyFromAt_grow_length _ junk _ src len 9 (by omega)
      (by simp [ExpandingArray._indexInRange, RadioPacket.IDX_MOD]; omega)
      (by simp only [SIZE_MOD]; omega)]
    simp only [SIZE_MOD, RadioPacket.IDX_MOD]
    omega
  refine ⟨hlen, ?_⟩
  rw [hlen]
  omega

/-- Witness for C12: a packet with a one-byte body (length 10) and `len = 247`;
the buffer length becomes 20. -/
theorem C12_setBodyData_oversize_resizes_witness :
    (RadioPacket.WellFormed (fun _ => 0)
        ⟨⟨some [10, 1, 0, 0, 0xff, 0xff, 1, 1, 0, 1], 10, 10⟩⟩ ∧
      9 < (⟨some [10, 1, 0, 0, 0xff, 0xff, 1, 1, 0, 1], 10, 10⟩ : ExpandingArray).length ∧
      246 < 247 ∧ 247 < 256) ∧
    (RadioPacket.setBodyData (fun _ => 0)
        ⟨⟨some [10, 1, 0, 0, 0xff, 0xff, 1, 1, 0, 1], 10, 10⟩⟩
        (some (List.replicate 247 0xEE)) 247)._data.length = 20 ∧
    (RadioPacket.setBodyData (fun _ => 0)
        ⟨⟨some [10, 1, 0, 0, 0xff, 0xff, 1, 1, 0, 1], 10, 10⟩⟩
        (some (List.replicate 247 0xEE)) 247)._data.length
      ≠ (⟨some [10, 1, 0, 0, 0xff, 0xff, 1, 1, 0, 1], 10, 10⟩ : ExpandingArray).length :=
  ⟨⟨by decide, by decide, by decide, by decide⟩,
    C12_setBodyData_oversize_resizes (fun _ => 0) (fun _ => 0)
      ⟨⟨some [10, 1, 0, 0, 0xff, 0xff, 1, 1, 0, 1], 10, 10⟩⟩ (List.replicate 247 0xEE) 247
      (by decide) (by decide) (by decide) (by decide)⟩

/-- C13: `generateChecksum` excludes the crc field.  For every packet and every
`c`, `setRawCrc8(c)` leaves `generateChecksum()` unchanged; this holds for the
modelled `Util::crc8` and for every CRC routine that reads only `data[0..len)`.
The checksum depends only on header bytes 0..7 and the body bytes: two packets
that agree on them have the same checksum. -/
theorem C13_checksum_excludes_crc_field (junk : Nat → Byte) (p : RadioPacket) (c : Nat) :
    RadioPacket.generateChecksum junk (p.setRawCrc8 c) = RadioPacket.generateChecksum junk p ∧
    (∀ crc8 : Nat → Option (List Byte) → Nat → Nat,
      (∀ crc d d' len, readBytes junk d len = readBytes junk d' len →
        crc8 crc (some d) len = crc8 crc (some d') len) →
      RadioPacket.generateChecksumWith crc8 junk (p.setRawCrc8 c)
        = RadioPacket.generateChecksumWith crc8 junk p) ∧
    (∀ (q : RadioPacket) (cs cs' : List Byte),
      p._data._data = some cs → q._data._data = some cs' →
      readBytes junk cs 8 = readBytes junk cs' 8 → p.body junk = q.body junk →
      RadioPacket.generateChecksum junk p = RadioPacket.generateChecksum junk q) := by
  refine ⟨?_, ?_, ?_⟩
  · rw [generateChecksum_eq_with, generateChecksum_eq_with]
    exact generateChecksumWith_setRawCrc8 _ junk (crc8_reads_range junk) p c
  · intro crc8 hread
    exact generateChecksumWith_setRawCrc8 crc8 junk hread p c
  · intro q cs cs' hp hq hhdr hbody
    rw [generateChecksum_eq_with, generateChecksum_eq_with]
    exact generateChecksumWith_congr _ junk (crc8_reads_range junk) p q cs cs' hp hq hhdr hbody

/-- Witness for C13: a packet with a one-byte body, `c = 0x55`, and a second
packet that differs from it in the crc byte and in its spare capacity only. -/
theorem C13_checksum_excludes_crc_field_witness :
    ((∀ crc d d' len, readBytes (fun _ => 0) d len = readBytes (fun _ => 0) d' len →
        Util.crc8 (fun _ => 0) crc (some d) len = Util.crc8 (fun _ => 0) crc (some d') len) ∧
      readBytes (fun _ => 0) [(10 : Byte), 1, 0, 0, 0xff, 0xff, 1, 1, 0, 131] 8
        = readBytes (fun _ => 0) [(10 : Byte), 1, 0, 0, 0xff, 0xff, 1, 1, 0x77, 131, 5] 8 ∧
      RadioPacket.body (fun _ => 0) ⟨⟨some [10, 1, 0, 0, 0xff, 0xff, 1, 1, 0, 131], 10, 10⟩⟩
        = RadioPacket.body (fun _ => 0)
            ⟨⟨some [10, 1, 0, 0, 0xff, 0xff, 1, 1, 0x77, 131, 5], 10, 11⟩⟩) ∧
    RadioPacket.generateChecksumWith (Util.crc8 (fun _ => 0)) (fun _ => 0)
        (RadioPacket.setRawCrc8 ⟨⟨some [10, 1, 0, 0, 0xff, 0xff, 1, 1, 0, 131], 10, 10⟩⟩ 0x55)
      = RadioPacket.generateChecksumWith (Util.crc8 (fun _ => 0)) (fun _ => 0)
          ⟨⟨some [10, 1, 0, 0, 0xff, 0xff, 1, 1, 0, 131], 10, 10⟩⟩ ∧
    RadioPacket.generateChecksum (fun _ => 0)
        ⟨⟨some [10, 1, 0, 0, 0xff, 0xff, 1, 1, 0, 131], 10, 10⟩⟩
      = RadioPacket.generateChecksum (fun _ => 0)
          ⟨⟨some [10, 1, 0, 0, 0xff, 0xff, 1, 1, 0x77, 131, 5], 10, 11⟩⟩ :=
  ⟨⟨crc8_reads_range (fun _ => 0), by decide, by decide⟩,
    (C13_checksum_excludes_crc_field (fun _ => 0)
      ⟨⟨some [10, 1, 0, 0, 0xff, 0xff, 1, 1, 0, 131], 10, 10⟩⟩ 0x55).2.1
        (Util.crc8 (fun _ => 0)) (crc8_reads_range (fun _ => 0)),
    (C13_checksum_excludes_crc_field (fun _ => 0)
      ⟨⟨some [10, 1, 0, 0, 0xff, 0xff, 1, 1, 0, 131], 10, 10⟩⟩ 0x55).2.2
        ⟨⟨some [10, 1, 0, 0, 0xff, 0xff, 1, 1, 0x77, 131, 5], 10, 11⟩⟩ _ _ rfl rfl
        (by decide) (by decide)⟩

/-- Counterexample to C14: in the well-formed packet
`0A 01 00 00 FF FF 01 01 00 83` flipping bit 0 of header byte 7, the body-length
field, leaves `generateChecksum()` unchanged (108 in both cases). -/
theorem C14_length_bit_flip_keeps_checksum :
    RadioPacket.WellFormed (fun _ => 0)
      ⟨⟨some [10, 1, 0, 0, 0xff, 0xff, 1, 1, 0, 131], 10, 10⟩⟩ ∧
    RadioPacket.generateChecksum (fun _ => 0)
        (RadioPacket.mk (ExpandingArray.set ⟨some [10, 1, 0, 0, 0xff, 0xff, 1, 1, 0, 131], 10, 10⟩ 7
          (flipBit (ExpandingArray.get (fun _ => 0)
            ⟨some [10, 1, 0, 0, 0xff, 0xff, 1, 1, 0, 131], 10, 10⟩ 7) 0)))
      = RadioPacket.generateChecksum (fun _ => 0)
          ⟨⟨some [10, 1, 0, 0, 0xff, 0xff, 1, 1, 0, 131], 10, 10⟩⟩ := by
  refine ⟨by decide, ?_⟩
  have hset : (⟨some [10, 1, 0, 0, 0xff, 0xff, 1, 1, 0, 131], 10, 10⟩ : ExpandingArray).set 7
      (flipBit ((⟨some [10, 1, 0, 0, 0xff, 0xff, 1, 1, 0, 131], 10, 10⟩ :
        ExpandingArray).get (fun _ => 0) 7) 0)
      = ⟨some ([10, 1, 0, 0, 0xff, 0xff, 1, 0, 0] ++ [131]), 10, 10⟩ := by decide
  have horig : (⟨⟨some [10, 1, 0, 0, 0xff, 0xff, 1, 1, 0, 131], 10, 10⟩⟩ : RadioPacket)
      = ⟨⟨some ([10, 1, 0, 0, 0xff, 0xff, 1, 1, 0] ++ [131]), 10, 10⟩⟩ := rfl
  rw [hset, horig, generateChecksum_cells, generateChecksum_cells]
  have r1 : readBytes (fun _ => 0) [(131 : Byte)] (1 : Byte).val = [131] := by decide
  have r0 : readBytes (fun _ => 0) [(131 : Byte)] (0 : Byte).val = [] := by decide
  rw [r1, r0, crc8_example_with_body, crc8_example_without_body]

/-- C14, amended: for every well-formed packet, flipping any single bit in
header bytes 0..6 or in any body byte gives a packet whose `generateChecksum()`
differs from the original one. -/
theorem C14_checksum_sensitivity (junk : Nat → Byte) (p : RadioPacket) (i bit : Nat)
    (hwf : RadioPacket.WellFormed junk p) (hbit : bit < 8)
    (hi : i < 7 ∨ (9 ≤ i ∧ i < p._data.length)) :
    RadioPacket.generateChecksum junk
        { _data := p._data.set i (flipBit (p._data.get junk i) bit) }
      ≠ RadioPacket.generateChecksum junk p := by
  obtain ⟨a0, a1, a2, a3, a4, a5, a6, a7, a8, rest, n, k, rfl, hk, hnk, hn, h0⟩ :=
    wellFormed_cases junk p hwf
  simp only [ExpandingArray.length] at hi
  have hcells : ([a0, a1, a2, a3, a4, a5, a6, a7, a8] ++ rest)
      = [a0, a1, a2, a3, a4, a5, a6, a7] ++ a8 :: rest := rfl
  have hflip : ∀ x : Byte, flipBit x bit ≠ x := fun x => flipBit_ne x ⟨bit, hbit⟩
  have hc0 : ∀ l : List Byte, List.foldl Util.crc8_update 0 l % 256
      = List.foldl Util.crc8_update 0 l :=
    fun l => Nat.mod_eq_of_lt (crc8_foldl_lt l 0 (by decide))
  simp only [ExpandingArray.set, ExpandingArray.get, ExpandingArray.cells, Option.map_some',
    Option.getD_some]
  rcases hi with hi | ⟨hi9, hin⟩
  · -- a header byte before the body-length field
    rw [hcells, List.set_append_left _ _ (by simp; omega),
      generateChecksum_split junk _ a8 rest n k (by simp),
      generateChecksum_split junk _ a8 rest n k (by simp)]
    rw [getD_set_ne _ i 7 _ _ (by omega), hc0, hc0]
    apply crc8_foldl_inj_state _ _ _ (crc8_foldl_lt _ 0 (by decide))
      (crc8_foldl_lt _ 0 (by decide))
    apply crc8_foldl_set_ne _ 0 i _ (junk i) (by decide) (by simp; omega)
    rw [List.getD_append _ _ _ _ (by simp; omega)]
    exact hflip _
  · -- a body byte
    have hL : a7.val ≤ rest.length := by omega
    rw [List.set_append_right _ _ (by simp; omega)]
    simp only [List.length_cons, List.length_nil, Nat.zero_add, Nat.reduceAdd]
    rw [generateChecksum_cells, generateChecksum_cells, hc0,
      readBytes_eq_take junk _ _ (by simp; omega), readBytes_eq_take junk _ _ hL,
      List.set_take]
    apply crc8_foldl_set_ne _ _ (i - 9) _ (junk i) (crc8_foldl_lt _ 0 (by decide))
      (by simp; omega)
    have e1 : ([a0, a1, a2, a3, a4, a5, a6, a7, a8] ++ rest).getD i (junk i)
        = rest.getD (i - 9) (junk i) := by
      rw [List.getD_append_right _ _ _ _ (by simp; omega)]
      rfl
    have e2 : (List.take a7.val rest).getD (i - 9) (junk i) = rest.getD (i - 9) (junk i) := by
      simp only [List.getD_eq_getElem?_getD]
      rw [List.getElem?_take_of_lt (by omega)]
    rw [e1, e2]
    exact hflip _

/-- Witness for C14 (amended): bit 2 of header byte 3. -/
theorem C14_checksum_sensitivity_witness :
    (RadioPacket.WellFormed (fun _ => 0)
        ⟨⟨some [10, 1, 0, 0, 0xff, 0xff, 1, 1, 0, 131], 10, 10⟩⟩ ∧ 2 < 8 ∧
      ((3 : Nat) < 7 ∨ (9 ≤ 3 ∧ 3 < (⟨some [10, 1, 0, 0, 0xff, 0xff, 1, 1, 0, 131], 10, 10⟩ :
        ExpandingArray).length))) ∧
    RadioPacket.generateChecksum (fun _ => 0)
        (RadioPacket.mk (ExpandingArray.set ⟨some [10, 1, 0, 0, 0xff, 0xff, 1, 1, 0, 131], 10, 10⟩ 3
          (flipBit (ExpandingArray.get (fun _ => 0)
            ⟨some [10, 1, 0, 0, 0xff, 0xff, 1, 1, 0, 131], 10, 10⟩ 3) 2)))
      ≠ RadioPacket.generateChecksum (fun _ => 0)
          ⟨⟨some [10, 1, 0, 0, 0xff, 0xff, 1, 1, 0, 131], 10, 10⟩⟩ :=
  ⟨⟨by decide, by decide, Or.inl (by decide)⟩,
    C14_checksum_sensitivity (fun _ => 0)
      ⟨⟨some [10, 1, 0, 0, 0xff, 0xff, 1, 1, 0, 131], 10, 10⟩⟩ 3 2 (by decide) (by decide)
      (Or.inl (by decide))⟩

/-- C15, the code on an odd payload length: `fragment` does not return, however
many loop tests are granted.  `bytesPacketised` is decremented by 246 modulo
65536 and stays odd, so it never becomes 0. -/
theorem C15_fragment_odd_length_never_returns (fuel : Nat) (junk : Nat → Byte)
    (packets : RadioPacket.PacketArray) (data : List Byte) (len : Nat)
    (hodd : len % 2 = 1) :
    RadioPacket.fragment fuel junk packets data len = none := by
  unfold RadioPacket.fragment
  rw [fragmentLoop_odd junk data fuel _ (by simp only; omega)
    (by simp only; exact Nat.mod_lt _ (by decide))]
  rfl

/-- Witness for C15: the lengths 1, 245, 247 and 745. -/
theorem C15_fragment_odd_length_never_returns_witness :
    (1 % 2 = 1 ∧ 245 % 2 = 1 ∧ 247 % 2 = 1 ∧ 745 % 2 = 1) ∧
    RadioPacket.fragment 1000 (fun _ => 0) [none] [0x42] 1 = none ∧
    RadioPacket.fragment 1000 (fun _ => 0) [none] (List.replicate 245 0x42) 245 = none ∧
    RadioPacket.fragment 1000 (fun _ => 0) [none, none] (List.replicate 247 0x42) 247 = none ∧
    RadioPacket.fragment 1000 (fun _ => 0) [none, none, none, none]
      (List.replicate 745 0x42) 745 = none :=
  ⟨⟨by decide, by decide, by decide, by decide⟩,
    C15_fragment_odd_length_never_returns 1000 (fun _ => 0) [none] [0x42] 1 (by decide),
    C15_fragment_odd_length_never_returns 1000 (fun _ => 0) [none] _ 245 (by decide),
    C15_fragment_odd_length_never_returns 1000 (fun _ => 0) [none, none] _ 247 (by decide),
    C15_fragment_odd_length_never_returns 1000 (fun _ => 0) [none, none, none, none] _ 745
      (by decide)⟩

/-- C16, the code on a payload of 738 bytes: `fragment` returns three packets
whose bodies are the last, the middle and the first chunk of 246 bytes, in
this order; `defragment` applied to them writes the chunks in this reversed
order, which differs from the payload as soon as bytes 0 and 492 differ. -/
theorem C16_fragment_emits_chunks_in_reverse (junk jr : Nat → Byte) (data : List Byte)
    (hlen : data.length = 738) :
    ∃ p0 p1 p2,
      RadioPacket.fragment 4 junk [none, none, none] data 738
        = some (3, [some p0, some p1, some p2]) ∧
      p0.body jr = data.drop 492 ∧
      p1.body jr = (data.drop 246).take 246 ∧
      p2.body jr = data.take 246 ∧
      (RadioPacket.defragment jr [some p0, some p1, some p2] 3 (List.replicate 738 0)).2
        = data.drop 492 ++ ((data.drop 246).take 246 ++ data.take 246) ∧
      (data.getD 0 0 ≠ data.getD 492 0 →
        (RadioPacket.defragment jr [some p0, some p1, some p2] 3 (List.replicate 738 0)).2
          ≠ data) := by
  have ht0 : (data.drop 492).take 246 = data.drop 492 := by
    apply List.take_of_length_le
    rw [List.length_drop, hlen]
  have hfrag : RadioPacket.fragment 4 junk [none, none, none] data 738
      = some (3, [some ⟨⟨some ([toByte 255, 1, 0, 0, 0xff, 0xff, toByte 0, toByte 246, 0]
            ++ data.drop 492), 255, 255⟩⟩,
          some ⟨⟨some ([toByte 255, 1, 0, 0, 0xff, 0xff, toByte 1, toByte 246, 0]
            ++ (data.drop 246).take 246), 255, 255⟩⟩,
          some ⟨⟨some ([toByte 255, 1, 0, 0, 0xff, 0xff, toByte 2, toByte 246, 0]
            ++ data.take 246), 255, 255⟩⟩]) := by
    unfold RadioPacket.fragment
    rw [fragmentLoop_step junk data 3 _ (by decide),
      fragmentBody_full_chunk junk data _ _ _ (by decide) (by omega) (by decide),
      fragmentLoop_step junk data 2 _ (by simp),
      fragmentBody_full_chunk junk data _ _ _ (by decide) (by omega) (by decide),
      fragmentLoop_step junk data 1 _ (by simp),
      fragmentBody_full_chunk junk data _ _ _ (by decide) (by omega) (by decide),
      fragmentLoop_exit junk data 0 _ (by simp)]
    have hn : (738 % 65536 - 246 = 492) ∧ (738 % 65536 - 246 - 246 = 246)
        ∧ (738 % 65536 - 246 - 246 - 246 = 0) := by decide
    simp only [hn.1, hn.2.1, hn.2.2, ht0, List.drop_zero]
    rfl
  have hl0 : (data.drop 492).length = 246 := by rw [List.length_drop, hlen]
  have hl1 : ((data.drop 246).take 246).length = 246 := by
    rw [List.length_take, List.length_drop, hlen]; decide
  have hl2 : (data.take 246).length = 246 := by
    rw [List.length_take, hlen]; decide
  have hb0 := body_of_cells jr (toByte 255) 1 0 0 0xff 0xff (toByte 0) (toByte 246) 0 _ 255 255
    (hl0.trans (by decide))
  have hb1 := body_of_cells jr (toByte 255) 1 0 0 0xff 0xff (toByte 1) (toByte 246) 0 _ 255 255
    (hl1.trans (by decide))
  have hb2 := body_of_cells jr (toByte 255) 1 0 0 0xff 0xff (toByte 2) (toByte 246) 0 _ 255 255
    (hl2.trans (by decide))
  have hout := defragment_three_chunks jr (toByte 0) (toByte 1) (toByte 2) _ _ _
    (List.replicate 738 0) hl0 hl1 hl2 (List.length_replicate _ _)
  refine ⟨_, _, _, hfrag, hb0, hb1, hb2, hout, ?_⟩
  intro hne
  rw [hout]
  intro heq
  apply hne
  have h492 : (data.drop 492 ++ ((data.drop 246).take 246 ++ data.take 246)).getD 0 0
      = data.getD 492 0 := by
    rw [List.getD_append _ _ _ _ (by rw [hl0]; decide)]
    simp only [List.getD_eq_getElem?_getD, List.getElem?_drop, Nat.add_zero]
  rw [← h492, heq]

/-- Witness for C16: 492 zero bytes followed by 246 one bytes. -/
theorem C16_fragment_emits_chunks_in_reverse_witness :
    (List.replicate 492 (0 : Byte) ++ List.replicate 246 1).length = 738 ∧
    ∃ p0 p1 p2,
      RadioPacket.fragment 4 (fun _ => 0) [none, none, none]
          (List.replicate 492 (0 : Byte) ++ List.replicate 246 1) 738
        = some (3, [some p0, some p1, some p2]) ∧
      (RadioPacket.defragment (fun _ => 0) [some p0, some p1, some p2] 3
          (List.replicate 738 0)).2
        ≠ List.replicate 492 (0 : Byte) ++ List.replicate 246 1 := by
  have hlen : (List.replicate 492 (0 : Byte) ++ List.replicate 246 1).length = 738 := by
    simp only [List.length_append, List.length_replicate]
  have hne : (List.replicate 492 (0 : Byte) ++ List.replicate 246 1).getD 0 0
      ≠ (List.replicate 492 (0 : Byte) ++ List.replicate 246 1).getD 492 0 := by
    rw [List.getD_append _ _ _ _ (by simp only [List.length_replicate]; decide),
      List.getD_append_right _ _ _ _ (by simp only [List.length_replicate]; decide)]
    simp only [List.length_replicate, Nat.sub_self, List.getD_eq_getElem?_getD,
      List.getElem?_replicate]
    decide
  obtain ⟨p0, p1, p2, hfrag, -, -, -, -, hdiff⟩ :=
    C16_fragment_emits_chunks_in_reverse (fun _ => 0) (fun _ => 0)
      (List.replicate 492 (0 : Byte) ++ List.replicate 246 1) hlen
  exact ⟨hlen, p0, p1, p2, hfrag, hdiff hne⟩

/-- C17, the code: `fragment2` returns `calculateFragmentNumber(len)` and every
packet it stores, the last one included, has body length 246, whatever `len`
is. -/
theorem C17_fragment2_every_body_is_full (junk jr : Nat → Byte)
    (packets : RadioPacket.PacketArray) (data : List Byte) (len : Nat)
    (hcap : RadioPacket.calculateFragmentNumber (len % 65536) ≤ packets.length) :
    (RadioPacket.fragment2 junk packets data len).1
      = RadioPacket.calculateFragmentNumber (len % 65536) ∧
    ∀ f, f < (RadioPacket.fragment2 junk packets data len).1 →
      ∃ p, (RadioPacket.fragment2 junk packets data len).2.getD f none = some p ∧
        p.getRawBodyLength jr = 246 := by
  refine ⟨rfl, ?_⟩
  intro f hf
  have hf' : f < RadioPacket.calculateFragmentNumber (len % 65536) := hf
  obtain ⟨-, hget⟩ := foldl_set_some
    (fun f => ((RadioPacket.ctor junk).setRawFragmentNumber f).setBodyData junk
      (some (data.drop (f * RadioPacket.getMaxBodyLength))) RadioPacket.getMaxBodyLength)
    (RadioPacket.calculateFragmentNumber (len % 65536)) packets hcap
  exact ⟨_, hget f hf', fragment2_packet_body_length junk jr _ f⟩

/-- Witness for C17: a one-byte payload yields one packet of body length 246. -/
theorem C17_fragment2_every_body_is_full_witness :
    (RadioPacket.calculateFragmentNumber (1 % 65536) ≤ [(none : Option RadioPacket)].length ∧
      0 < (RadioPacket.fragment2 (fun _ => 0) [none] [0x42] 1).1) ∧
    (RadioPacket.fragment2 (fun _ => 0) [none] [0x42] 1).1 = 1 ∧
    ∃ p, (RadioPacket.fragment2 (fun _ => 0) [none] [0x42] 1).2.getD 0 none = some p ∧
      p.getRawBodyLength (fun _ => 0) = 246 :=
  ⟨⟨by decide, by decide⟩,
    (C17_fragment2_every_body_is_full (fun _ => 0) (fun _ => 0) [none] [0x42] 1
      (by decide)).1,
    (C17_fragment2_every_body_is_full (fun _ => 0) (fun _ => 0) [none] [0x42] 1
      (by decide)).2 0 (by decide)⟩

/-- C18: `defragment` writes to the output buffer the concatenation, in array
order, of the bodies of the given packets, and leaves the rest of the buffer
as it was; body `i` occupies the output range that starts at the sum of the
body lengths of packets `0..i-1`. -/
theorem C18_defragment_concatenates_bodies (junk : Nat → Byte) (ps : List RadioPacket)
    (out : List Byte) (hcount : ps.length ≤ 255)
    (hout : (ps.map (fun p => p.getRawBodyLength junk)).sum ≤ out.length) :
    (RadioPacket.defragment junk (ps.map some) ps.length out).2
      = (ps.map (RadioPacket.body junk)).flatten
          ++ out.drop (ps.map (fun p => p.getRawBodyLength junk)).sum ∧
    ∀ (i : Nat) (hi : i < ps.length),
      (((RadioPacket.defragment junk (ps.map some) ps.length out).2.drop
          ((ps.take i).map (fun p => p.getRawBodyLength junk)).sum).take
          (ps[i].getRawBodyLength junk)) = ps[i].body junk := by
  rw [defragment_eq junk ps out hcount hout]
  refine ⟨rfl, ?_⟩
  intro i hi
  have hflat : (ps.map (RadioPacket.body junk)).flatten
      = ((ps.take i).map (RadioPacket.body junk)).flatten
        ++ (ps[i].body junk ++ ((ps.drop (i + 1)).map (RadioPacket.body junk)).flatten) := by
    rw [flatten_split (ps.map (RadioPacket.body junk)) i (by simpa using hi)]
    simp [List.map_take, List.map_drop]
  simp only
  rw [hflat, List.append_assoc, List.drop_left' (bodies_length junk (ps.take i)),
    List.append_assoc, List.take_left' (body_length junk ps[i])]

/-- Witness for C18: two packets with bodies `A1 A2` and `B1`. -/
theorem C18_defragment_concatenates_bodies_witness :
    ([(⟨⟨some [11, 1, 0, 0, 0xff, 0xff, 0, 2, 0, 0xA1, 0xA2], 11, 11⟩⟩ : RadioPacket),
        ⟨⟨some [10, 1, 0, 0, 0xff, 0xff, 1, 1, 0, 0xB1], 10, 10⟩⟩].length ≤ 255 ∧
      ([(⟨⟨some [11, 1, 0, 0, 0xff, 0xff, 0, 2, 0, 0xA1, 0xA2], 11, 11⟩⟩ : RadioPacket),
        ⟨⟨some [10, 1, 0, 0, 0xff, 0xff, 1, 1, 0, 0xB1], 10, 10⟩⟩].map
          (fun p => p.getRawBodyLength (fun _ => 0))).sum ≤ [(0 : Byte), 0, 0, 0].length) ∧
    (RadioPacket.defragment (fun _ => 0)
        [some ⟨⟨some [11, 1, 0, 0, 0xff, 0xff, 0, 2, 0, 0xA1, 0xA2], 11, 11⟩⟩,
          some ⟨⟨some [10, 1, 0, 0, 0xff, 0xff, 1, 1, 0, 0xB1], 10, 10⟩⟩] 2 [0, 0, 0, 0]).2
      = [0xA1, 0xA2, 0xB1, 0] :=
  ⟨⟨by decide, by decide⟩,
    (C18_defragment_concatenates_bodies (fun _ => 0)
      [⟨⟨some [11, 1, 0, 0, 0xff, 0xff, 0, 2, 0, 0xA1, 0xA2], 11, 11⟩⟩,
        ⟨⟨some [10, 1, 0, 0, 0xff, 0xff, 1, 1, 0, 0xB1], 10, 10⟩⟩] [0, 0, 0, 0]
      (by decide) (by decide)).1⟩

/-- C19, the code: `defragment` returns one more than the number of bytes
written: 1 for an empty array, body length plus 1 for a single packet. -/
theorem C19_defragment_returns_count_plus_one (junk : Nat → Byte) (out : List Byte)
    (p : RadioPacket) :
    RadioPacket.defragment junk [] 0 out = (1, out) ∧
    (RadioPacket.defragment junk [some p] 1 out).1 = p.getRawBodyLength junk + 1 := by
  constructor
  · rfl
  · have hb := getRawBodyLength_le junk p
    simp only [RadioPacket.defragment, RadioPacket.defragmentBody, List.range_succ,
      List.range_zero, List.nil_append, List.foldl_cons, List.foldl_nil,
      List.getD_cons_zero, Nat.zero_add]
    rw [Nat.mod_eq_of_lt (by omega), Nat.mod_eq_of_lt (by omega)]

/-- C20: buffer growth preserves data.  For every buffer satisfying its
representation invariant, with length `L`, and every `n > L`, after
`resize(n, true)` the length is `n` and every byte at an index below `L` is
unchanged. -/
theorem C20_resize_growth_preserves_data (M : Nat) (junk jr : Nat → Byte) (a : ExpandingArray)
    (n : Nat) (hvalid : a.Valid) (hgrow : a.length < n) :
    (a.resize M junk n true).length = n ∧
    ∀ i, i < a.length → (a.resize M junk n true).get jr i = a.get jr i := by
  refine ⟨resize_currentLength M junk a n true, ?_⟩
  intro i hi
  obtain ⟨d, L, k⟩ := a
  simp only [ExpandingArray.length] at hgrow hi
  cases d with
  | none =>
    simp only [ExpandingArray.Valid] at hvalid
    omega
  | some cs =>
    simp only [ExpandingArray.Valid] at hvalid
    obtain ⟨hcs, hLk⟩ := hvalid
    by_cases hk : n < k
    · rw [ExpandingArray.resize_within M junk cs L k n true (by omega) hk]
      rfl
    · rw [ExpandingArray.resize_grow_copy M junk cs L k n (by omega) hgrow (by omega)]
      rw [memcpy_eq junk _ _ 0 L (by simp [fresh_length]; omega) (by omega)]
      simp only [ExpandingArray.get, ExpandingArray.cells, Option.getD_some, List.take_zero,
        List.nil_append, Nat.zero_add]
      exact getD_take_append cs _ L i _ (by omega) hi

/-- Witness for C20: a buffer of length 3 and capacity 4 grown to 6. -/
theorem C20_resize_growth_preserves_data_witness :
    ((⟨some [1, 2, 3, 4], 3, 4⟩ : ExpandingArray).Valid ∧
      (⟨some [1, 2, 3, 4], 3, 4⟩ : ExpandingArray).length < 6) ∧
    (ExpandingArray.resize 256 (fun _ => 0) ⟨some [1, 2, 3, 4], 3, 4⟩ 6 true).length = 6 ∧
    ∀ i, i < (⟨some [1, 2, 3, 4], 3, 4⟩ : ExpandingArray).length →
      (ExpandingArray.resize 256 (fun _ => 0) ⟨some [1, 2, 3, 4], 3, 4⟩ 6 true).get
          (fun _ => 0) i
        = (⟨some [1, 2, 3, 4], 3, 4⟩ : ExpandingArray).get (fun _ => 0) i :=
  ⟨⟨by decide, by decide⟩,
    C20_resize_growth_preserves_data 256 (fun _ => 0) (fun _ => 0) ⟨some [1, 2, 3, 4], 3, 4⟩ 6
      (by decide) (by decide)⟩

/-- C21, the code when the copy runs past the length: `copyFromAt(src, len, i)`
with `i < L < i + len` calls `resize(L + (L - (i + len)))`, so the length
becomes `2 * L - (i + len)` reduced to `size_t` and then to `IndexType`, not
`i + len`.  Whenever `i + len <= 2 * L` the buffer shrinks below `L`. -/
theorem C21_copyFromAt_growth_shrinks (M : Nat) (junk : Nat → Byte) (a : ExpandingArray)
    (src : List Byte) (len i : Nat) (hdata : a._data.isSome = true) (hi : i < a.length)
    (hgrow : a.length < i + len) (hsz : i + len < SIZE_MOD) :
    (a.copyFromAt M junk (some src) len i).length
      = (2 * a.length + SIZE_MOD - (i + len)) % SIZE_MOD % M ∧
    (i + len ≤ 2 * a.length →
      (a.copyFromAt M junk (some src) len i).length < a.length ∧
      (a.copyFromAt M junk (some src) len i).length ≠ i + len) := by
  simp only [ExpandingArray.length] at hi hgrow ⊢
  have hlen : 0 < len := by omega
  have hiM : i % M < a._currentLength := lt_of_le_of_lt (Nat.mod_le i M) hi
  have hL := copyFromAt_grow_length_small M junk a src len i hlen hdata hiM
    hgrow hsz
  refine ⟨hL, ?_⟩
  intro hle
  rw [hL]
  have e : (2 * a._currentLength + SIZE_MOD - (i + len)) % SIZE_MOD
      = 2 * a._currentLength - (i + len) := by
    have : 2 * a._currentLength + SIZE_MOD - (i + len)
        = (2 * a._currentLength - (i + len)) + SIZE_MOD := by omega
    rw [this, Nat.add_mod_right]
    exact Nat.mod_eq_of_lt (by omega)
  rw [e]
  have hle2 := Nat.mod_le (2 * a._currentLength - (i + len)) M
  constructor <;> omega

/-- Witness for C21: a 2-byte buffer, `copyFromAt(src, 2, 1)`: the length becomes
1 instead of 3. -/
theorem C21_copyFromAt_growth_shrinks_witness :
    ((⟨some [1, 2], 2, 2⟩ : ExpandingArray)._data.isSome = true ∧
      1 < (⟨some [1, 2], 2, 2⟩ : ExpandingArray).length ∧
      (⟨some [1, 2], 2, 2⟩ : ExpandingArray).length < 1 + 2 ∧ 1 + 2 < SIZE_MOD) ∧
    (ExpandingArray.copyFromAt 256 (fun _ => 0) ⟨some [1, 2], 2, 2⟩ (some [8, 9]) 2 1).length
      = 1 :=
  ⟨⟨by decide, by decide, by decide, by decide⟩,
    ((C21_copyFromAt_growth_shrinks 256 (fun _ => 0) ⟨some [1, 2], 2, 2⟩ [8, 9] 2 1
      (by decide) (by decide) (by decide) (by decide)).1).trans (by decide)⟩

/-- C22: `NetworkBuffer` typed access is big-endian and round-trips.  For every
buffer satisfying its representation invariant, each width `w` in 16, 32, 64,
every `w`-bit value `v` and every offset with `offset + w/8 <= length`:
`setUIntw(v, offset)` keeps length and capacity, stores the bytes of `v`
most-significant first at `offset .. offset + w/8 - 1`, leaves every other byte
unchanged, and a following `getUIntw(offset)` returns `v`. -/
theorem C22_typed_access_round_trip (M : Nat) (junk jg jr : Nat → Byte)
    (a : ExpandingArray) (v off : Nat) (hvalid : a.Valid) :
    (off + 2 ≤ a.length → v < 2 ^ 16 →
      (NetworkBuffer.setUInt16 M junk a v off).length = a.length ∧
      (NetworkBuffer.setUInt16 M junk a v off)._arrayLength = a._arrayLength ∧
      (List.range 2).map (fun k => (NetworkBuffer.setUInt16 M junk a v off).get jr (off + k))
        = [toByte (v / 2 ^ 8), toByte v] ∧
      (∀ j, j < off ∨ off + 2 ≤ j →
        (NetworkBuffer.setUInt16 M junk a v off).get jr j = a.get jr j) ∧
      NetworkBuffer.getUInt16 M jg (NetworkBuffer.setUInt16 M junk a v off) off = v) ∧
    (off + 4 ≤ a.length → v < 2 ^ 32 →
      (NetworkBuffer.setUInt32 M junk a v off).length = a.length ∧
      (NetworkBuffer.setUInt32 M junk a v off)._arrayLength = a._arrayLength ∧
      (List.range 4).map (fun k => (NetworkBuffer.setUInt32 M junk a v off).get jr (off + k))
        = [toByte (v / 2 ^ 24), toByte (v / 2 ^ 16), toByte (v / 2 ^ 8), toByte v] ∧
      (∀ j, j < off ∨ off + 4 ≤ j →
        (NetworkBuffer.setUInt32 M junk a v off).get jr j = a.get jr j) ∧
      NetworkBuffer.getUInt32 M jg (NetworkBuffer.setUInt32 M junk a v off) off = v) ∧
    (off + 8 ≤ a.length → v < 2 ^ 64 →
      (NetworkBuffer.setUInt64 M junk a v off).length = a.length ∧
      (NetworkBuffer.setUInt64 M junk a v off)._arrayLength = a._arrayLength ∧
      (List.range 8).map (fun k => (NetworkBuffer.setUInt64 M junk a v off).get jr (off + k))
        = [toByte (v / 2 ^ 56), toByte (v / 2 ^ 48), toByte (v / 2 ^ 40), toByte (v / 2 ^ 32),
            toByte (v / 2 ^ 24), toByte (v / 2 ^ 16), toByte (v / 2 ^ 8), toByte v] ∧
      (∀ j, j < off ∨ off + 8 ≤ j →
        (NetworkBuffer.setUInt64 M junk a v off).get jr j = a.get jr j) ∧
      NetworkBuffer.getUInt64 M jg (NetworkBuffer.setUInt64 M junk a v off) off = v) :=
  ⟨fun hfit hval => typed16 M junk jg jr a v off hvalid hfit hval,
    fun hfit hval => typed32 M junk jg jr a v off hvalid hfit hval,
    fun hfit hval => typed64 M junk jg jr a v off hvalid hfit hval⟩

/-- Witness for C22: a ten-byte buffer, the 64-bit value 0x1122334455667788
stored at offset 1 and read back. -/
theorem C22_typed_access_round_trip_witness :
    ((⟨some [0, 1, 2, 3, 4, 5, 6, 7, 8, 9], 10, 10⟩ : ExpandingArray).Valid ∧
      1 + 8 ≤ (⟨some [0, 1, 2, 3, 4, 5, 6, 7, 8, 9], 10, 10⟩ : ExpandingArray).length ∧
      0x1122334455667788 < 2 ^ 64) ∧
    NetworkBuffer.getUInt64 256 (fun _ => 0)
        (NetworkBuffer.setUInt64 256 (fun _ => 0) ⟨some [0, 1, 2, 3, 4, 5, 6, 7, 8, 9], 10, 10⟩
          0x1122334455667788 1) 1
      = 0x1122334455667788 :=
  ⟨⟨by decide, by decide, by decide⟩,
    ((C22_typed_access_round_trip 256 (fun _ => 0) (fun _ => 0) (fun _ => 0)
      ⟨some [0, 1, 2, 3, 4, 5, 6, 7, 8, 9], 10, 10⟩ 0x1122334455667788 1 (by decide)).2.2
      (by decide) (by decide)).2.2.2.2⟩

/-- C23: `RadioPacket::reset` returns any packet to the default state.  For every
packet whose buffer satisfies its representation invariant, whatever its header
fields and body, after `reset` the buffer length is 9, the 9 serialized bytes
are the default header `09 01 00 00 FF FF 01 00 00`, the body is empty, and a
second `reset` changes nothing. -/
theorem C23_reset_restores_default (junk j2 jr : Nat → Byte) (p : RadioPacket)
    (hvalid : p._data.Valid) :
    (p.reset junk)._data.length = 9 ∧
    (p.reset junk).serialize jr = [9, 1, 0x00, 0x00, 0xff, 0xff, 1, 0, 0] ∧
    (p.reset junk).body jr = [] ∧
    (p.reset junk).reset j2 = p.reset junk := by
  obtain ⟨⟨d, n, k⟩⟩ := p
  have h1 := packet_reset_eq junk d n k hvalid
  have hv := valid_reset_form ((d.getD []).drop 9) k (by
    cases d with
    | none =>
      simp only [ExpandingArray.Valid] at hvalid
      simp [hvalid.2]
    | some cs =>
      simp only [ExpandingArray.Valid] at hvalid
      simp [hvalid.1])
  have h2 := packet_reset_eq j2 _ 9 _ hv
  rw [h1, h2]
  refine ⟨rfl, ?_, ?_, ?_⟩
  · simp only [RadioPacket.serialize, RadioPacket.getData, Option.getD_some,
      ExpandingArray.length]
    rw [readBytes_append_left jr _ _ 9 (by decide)]
    rfl
  · rfl
  · simp [RadioPacket._DEFAULT_HEADER]

/-- Witness for C23: a packet with version 7, ids 0x0102 and 0x0304, fragment 5,
crc 77 and a three-byte body. -/
theorem C23_reset_restores_default_witness :
    (⟨some [12, 7, 1, 2, 3, 4, 5, 3, 77, 10, 11, 12], 12, 12⟩ : ExpandingArray).Valid ∧
    (RadioPacket.reset (fun _ => 0)
        ⟨⟨some [12, 7, 1, 2, 3, 4, 5, 3, 77, 10, 11, 12], 12, 12⟩⟩).serialize (fun _ => 0)
      = [9, 1, 0x00, 0x00, 0xff, 0xff, 1, 0, 0] :=
  ⟨by decide,
    (C23_reset_restores_default (fun _ => 0) (fun _ => 0) (fun _ => 0)
      ⟨⟨some [12, 7, 1, 2, 3, 4, 5, 3, 77, 10, 11, 12], 12, 12⟩⟩ (by decide)).2.1⟩

/-- C24: `RadioPacket::resizeBody(len, copy)` preserves the header.  For every
well-formed packet, both values of `copy` and every `len <= 246`: version,
transmitter id, receiver id, fragment number and crc8 are unchanged, the raw
packet-length field becomes `9 + len`, the raw body-length field becomes `len`
and the buffer length becomes `9 + len`; with `copy = true` the first
`min(old body length, len)` body bytes are unchanged.  For `len` in `247..255`
the packet is unchanged. -/
theorem C24_resizeBody_preserves_header (junk jr : Nat → Byte) (p : RadioPacket)
    (len : Nat) (copy : Bool) (hwf : RadioPacket.WellFormed jr p) :
    (len ≤ 246 →
      (p.resizeBody junk len copy).getRawVersion jr = p.getRawVersion jr ∧
      (p.resizeBody junk len copy).getRawTransmitterId jr = p.getRawTransmitterId jr ∧
      (p.resizeBody junk len copy).getRawReceiverId jr = p.getRawReceiverId jr ∧
      (p.resizeBody junk len copy).getRawFragmentNumber jr = p.getRawFragmentNumber jr ∧
      (p.resizeBody junk len copy).getRawCrc8 jr = p.getRawCrc8 jr ∧
      (p.resizeBody junk len copy).getRawPacketLength jr = 9 + len ∧
      (p.resizeBody junk len copy).getRawBodyLength jr = len ∧
      (p.resizeBody junk len copy)._data.length = 9 + len ∧
      (copy = true → ∀ j, j < min (p.getRawBodyLength jr) len →
        ((p.resizeBody junk len copy).body jr).getD j 0 = (p.body jr).getD j 0)) ∧
    (246 < len → p.resizeBody junk len copy = p) := by
  constructor
  · intro hlen
    obtain ⟨a0, a1, a2, a3, a4, a5, a6, a7, a8, rest, n, k, rfl, hk, hnk, hn, h0⟩ :=
      wellFormed_cases jr p hwf
    obtain ⟨X, hX, hpre, hq⟩ := packet_resizeBody_general junk a0 a1 a2 a3 a4 a5 a6 a7 a8 rest
      n k len copy hk (by omega) hnk hlen
    rw [hq]
    obtain ⟨f0, f1, f2, f3, f4, f5, f6⟩ := RadioPacket.packet_fields_of_cells jr
      (toByte (9 + len)) a1 a2 a3 a4 a5 a6 (toByte len) a8 X (9 + len) (9 + X.length)
      (by omega) (by omega)
    obtain ⟨g0, g1, g2, g3, g4, g5, g6⟩ := RadioPacket.packet_fields_of_cells jr
      a0 a1 a2 a3 a4 a5 a6 a7 a8 rest n k (by omega) (by omega)
    rw [f0, f1, f2, f3, f4, f5, f6, g1, g2, g3, g4, g5, g6, toByte_val _ (by omega),
      toByte_val _ (by omega)]
    refine ⟨rfl, rfl, rfl, rfl, rfl, rfl, rfl, rfl, ?_⟩
    intro hc j hj
    have hpre2 := hpre hc
    have hn7 : n - 9 = a7.val := by omega
    rw [hn7] at hpre2
    rw [packet_body_read, packet_body_read, toByte_val _ (by omega)]
    rw [readBytes_eq_take jr X len hX, readBytes_eq_take jr rest a7.val (by omega)]
    have hj1 : j < len := lt_of_lt_of_le hj (Nat.min_le_right _ _)
    have hj2 : j < a7.val := lt_of_lt_of_le hj (Nat.min_le_left _ _)
    have e1 : (X.take len).getD j 0 = (X.take (min a7.val len)).getD j 0 := by
      simp only [List.getD_eq_getElem?_getD]
      rw [List.getElem?_take_of_lt hj1, List.getElem?_take_of_lt hj]
    have e2 : (rest.take a7.val).getD j 0 = (rest.take (min a7.val len)).getD j 0 := by
      simp only [List.getD_eq_getElem?_getD]
      rw [List.getElem?_take_of_lt hj2, List.getElem?_take_of_lt hj]
    rw [e1, e2, hpre2]
  · intro hlen
    have hmax : len > RadioPacket.getMaxBodyLength := by
      simp [RadioPacket.getMaxBodyLength, RadioPacket.getMaxPacketLength,
        RadioPacket.getHeaderLength, RadioPacket._HEADER_LEN]; omega
    simp [RadioPacket.resizeBody, hmax]

/-- Witness for C24: a packet with version 7, fragment 5, crc 77 and a
three-byte body, resized to a two-byte body with `copy = true`. -/
theorem C24_resizeBody_preserves_header_witness :
    (RadioPacket.WellFormed (fun _ => 0)
        ⟨⟨some [12, 7, 1, 2, 3, 4, 5, 3, 77, 10, 11, 12], 12, 12⟩⟩ ∧ 2 ≤ 246) ∧
    (RadioPacket.resizeBody (fun _ => 0)
        ⟨⟨some [12, 7, 1, 2, 3, 4, 5, 3, 77, 10, 11, 12], 12, 12⟩⟩ 2 true)._data.length
      = 9 + 2 ∧
    (RadioPacket.resizeBody (fun _ => 0)
        ⟨⟨some [12, 7, 1, 2, 3, 4, 5, 3, 77, 10, 11, 12], 12, 12⟩⟩ 2
        true).getRawFragmentNumber (fun _ => 0)
      = RadioPacket.getRawFragmentNumber (fun _ => 0)
          ⟨⟨some [12, 7, 1, 2, 3, 4, 5, 3, 77, 10, 11, 12], 12, 12⟩⟩ :=
  ⟨⟨by decide, by decide⟩,
    ((C24_resizeBody_preserves_header (fun _ => 0) (fun _ => 0)
      ⟨⟨some [12, 7, 1, 2, 3, 4, 5, 3, 77, 10, 11, 12], 12, 12⟩⟩ 2 true (by decide)).1
      (by decide)).2.2.2.2.2.2.2.1,
    ((C24_resizeBody_preserves_header (fun _ => 0) (fun _ => 0)
      ⟨⟨some [12, 7, 1, 2, 3, 4, 5, 3, 77, 10, 11, 12], 12, 12⟩⟩ 2 true (by decide)).1
      (by decide)).2.2.2.1⟩

/-- C25: `Message::resizeBody(len, copy)` and `Message::setBodyData(data, len)`
with `len <= 65531`.  For every message whose buffer satisfies its
representation invariant and holds the 4-byte header, each of the two calls
preserves the action field, sets the big-endian body-length field to `len` and
makes `getMessageLength()` equal `4 + len`; after `setBodyData` with a non-null
`data` the body is `data[0..len)`. -/
theorem C25_message_body_length_fields (junk jr : Nat → Byte) (m : Message) (len : Nat)
    (copy : Bool) (data : Option (List Byte)) (src : List Byte) (hvalid : m._data.Valid)
    (hheader : 4 ≤ m.getMessageLength) (hlen : len ≤ 65531) :
    ((m.resizeBody junk len copy).getRawAction jr = m.getRawAction jr ∧
      (m.resizeBody junk len copy).getRawBodyLength jr = len ∧
      (m.resizeBody junk len copy).getMessageLength = 4 + len) ∧
    ((m.setBodyData junk data len).getRawAction jr = m.getRawAction jr ∧
      (m.setBodyData junk data len).getRawBodyLength jr = len ∧
      (m.setBodyData junk data len).getMessageLength = 4 + len) ∧
    (m.setBodyData junk (some src) len).body jr = readBytes junk src len ∧
    (len ≤ src.length → (m.setBodyData junk (some src) len).body jr = src.take len) := by
  obtain ⟨a0, a1, a2, a3, rest, n, k, rfl, hk, hn4, hnk⟩ := valid_message_cases m hvalid hheader
  obtain ⟨g0, g1⟩ := Message.message_fields_of_cells jr a0 a1 a2 a3 rest n k hn4 (by omega)
  have hfields : ∀ (X : List Byte) (q : Nat), len ≤ X.length →
      Message.getRawAction jr
          ⟨⟨some ([toByte (len / 256), toByte len, a2, a3] ++ X), 4 + len, q⟩⟩
        = Message.getRawAction jr ⟨⟨some ([a0, a1, a2, a3] ++ rest), n, k⟩⟩ ∧
      Message.getRawBodyLength jr
          ⟨⟨some ([toByte (len / 256), toByte len, a2, a3] ++ X), 4 + len, q⟩⟩ = len ∧
      Message.getMessageLength
          ⟨⟨some ([toByte (len / 256), toByte len, a2, a3] ++ X), 4 + len, q⟩⟩
        = 4 + len := by
    intro X q hX
    obtain ⟨f0, f1⟩ := Message.message_fields_of_cells jr (toByte (len / 256)) (toByte len)
      a2 a3 X (4 + len) q (by omega) (by omega)
    rw [f0, f1, g1, be16_toByte len (by omega)]
    exact ⟨rfl, rfl, rfl⟩
  obtain ⟨X, hX, hq⟩ := message_resizeBody_general junk a0 a1 a2 a3 rest n k len copy hk hn4
    hnk hlen
  obtain ⟨⟨Y, hY, hnone⟩, hsome⟩ := message_setBodyData_general junk a0 a1 a2 a3 rest n k len
    hk hn4 hnk hlen
  have hbody : (Message.setBodyData junk ⟨⟨some ([a0, a1, a2, a3] ++ rest), n, k⟩⟩
      (some src) len).body jr = readBytes junk src len := by
    obtain ⟨tail, ht⟩ := hsome src
    rw [ht, message_body_read jr _ _ _ _ _ _ _ (by omega)
      (by simp [readBytes_length]), be16_toByte len (by omega)]
    rw [readBytes_append_left jr _ _ len (by simp [readBytes_length])]
    exact take_of_length_eq _ len (readBytes_length junk src len)
  refine ⟨?_, ?_, hbody, ?_⟩
  · rw [hq]
    exact hfields X _ hX
  · cases data with
    | none =>
      rw [hnone]
      exact hfields Y _ hY
    | some s =>
      obtain ⟨tail, ht⟩ := hsome s
      rw [ht]
      exact hfields _ _ (by simp [readBytes_length])
  · intro hsrc
    rw [hbody, readBytes_eq_take junk src len hsrc]

/-- Witness for C25: a message with action 0x0102 and a three-byte body, given the
two-byte body AA BB. -/
theorem C25_message_body_length_fields_witness :
    ((⟨some [0, 3, 1, 2, 10, 11, 12], 7, 7⟩ : ExpandingArray).Valid ∧
      4 ≤ Message.getMessageLength ⟨⟨some [0, 3, 1, 2, 10, 11, 12], 7, 7⟩⟩ ∧
      2 ≤ 65531 ∧ 2 ≤ [(0xAA : Byte), 0xBB].length) ∧
    (Message.setBodyData (fun _ => 0) ⟨⟨some [0, 3, 1, 2, 10, 11, 12], 7, 7⟩⟩
        (some [0xAA, 0xBB]) 2).body (fun _ => 0) = [0xAA, 0xBB] :=
  ⟨⟨by decide, by decide, by decide, by decide⟩,
    (C25_message_body_length_fields (fun _ => 0) (fun _ => 0)
      ⟨⟨some [0, 3, 1, 2, 10, 11, 12], 7, 7⟩⟩ 2 true none [0xAA, 0xBB]
      (by decide) (by decide) (by decide)).2.2.2 (by decide)⟩

/-- C26: `RadioPacket::fragment2` on a payload of `len <= 62730` bytes, with room
in the caller's array for the packets, returns `calculateFragmentNumber(len)`,
which is the ceiling of `len / 246` (the number `r` with
`246 * (r - 1) < len <= 246 * r`), and for every `f` below that count the packet
stored at array position `f` has fragment number `f`. -/
theorem C26_fragment2_count_and_numbers (junk jr : Nat → Byte)
    (packets : RadioPacket.PacketArray) (data : List Byte) (len : Nat)
    (hlen : len ≤ 62730) (hroom : RadioPacket.calculateFragmentNumber len ≤ packets.length) :
    (RadioPacket.fragment2 junk packets data len).1 = RadioPacket.calculateFragmentNumber len ∧
    len ≤ 246 * (RadioPacket.fragment2 junk packets data len).1 ∧
    246 * (RadioPacket.fragment2 junk packets data len).1 < len + 246 ∧
    ∀ f, f < (RadioPacket.fragment2 junk packets data len).1 →
      ∃ p, (RadioPacket.fragment2 junk packets data len).2.getD f none = some p ∧
        p.getRawFragmentNumber jr = f := by
  have hmod : len % 65536 = len := Nat.mod_eq_of_lt (by omega)
  have hcount : (RadioPacket.fragment2 junk packets data len).1
      = RadioPacket.calculateFragmentNumber len := by
    simp only [RadioPacket.fragment2, hmod]
  have hceil := calculateFragmentNumber_eq len hlen
  refine ⟨hcount, ?_, ?_, ?_⟩
  · rw [hcount, hceil]; omega
  · rw [hcount, hceil]; omega
  · intro f hf
    rw [hcount] at hf
    have hf256 : f < 256 := by rw [hceil] at hf; omega
    obtain ⟨_, hget⟩ := foldl_set_some
      (fun f => ((RadioPacket.ctor junk).setRawFragmentNumber f).setBodyData junk
        (some (data.drop (f * RadioPacket.getMaxBodyLength))) RadioPacket.getMaxBodyLength)
      (RadioPacket.calculateFragmentNumber len) packets hroom
    refine ⟨_, ?_, fragment2_packet_fragment_number junk jr
      (data.drop (f * RadioPacket.getMaxBodyLength)) f hf256⟩
    simp only [RadioPacket.fragment2, hmod]
    exact hget f hf

/-- Witness for C26: a payload of 300 bytes and an array of two slots; two
packets are produced. -/
theorem C26_fragment2_count_and_numbers_witness :
    (300 ≤ 62730 ∧
      RadioPacket.calculateFragmentNumber 300
        ≤ ([none, none] : RadioPacket.PacketArray).length) ∧
    (RadioPacket.fragment2 (fun _ => 0) [none, none] (List.replicate 300 1) 300).1 = 2 :=
  ⟨⟨by decide, by decide⟩,
    ((C26_fragment2_count_and_numbers (fun _ => 0) (fun _ => 0) [none, none]
      (List.replicate 300 1) 300 (by decide) (by decide)).1).trans (by decide)⟩

/-- C27, the code at the boundary `new_length = capacity`: below the capacity
`resize(n, copy)` changes only the length, but `resize(capacity, copy)` on a
buffer whose length is smaller takes the allocation path (the test is
`len < _arrayLength`).  With `copy = false` the storage is replaced by a new
array none of whose bytes comes from the old one; with `copy = true` the bytes
between the old length and the capacity are replaced. -/
theorem C27_resize_to_capacity_reallocates (M : Nat) (junk jr : Nat → Byte)
    (a : ExpandingArray) (copy : Bool) (h : a.length < a._arrayLength) :
    (∀ n, n < a._arrayLength → a.resize M junk n copy = { a with _currentLength := n }) ∧
    a.resize M junk a._arrayLength false
      = ⟨some (fresh junk a._arrayLength), a._arrayLength, a._arrayLength⟩ ∧
    (∀ i, a.length ≤ i → i < a._arrayLength →
      (a.resize M junk a._arrayLength true).get jr i = junk i) :=
  ⟨fun n hn => resize_below_capacity M junk a n copy hn,
    resize_at_capacity_nocopy M junk a h,
    fun i h1 h2 => resize_at_capacity_copy_slack M junk jr a h i h1 h2⟩

/-- Witness for C27: a buffer holding 1, 2, 3, 4 with length 2 and capacity 4;
`resize(4, false)` leaves four bytes of the new array (7 from this allocator). -/
theorem C27_resize_to_capacity_reallocates_witness :
    (⟨some [1, 2, 3, 4], 2, 4⟩ : ExpandingArray).length
        < (⟨some [1, 2, 3, 4], 2, 4⟩ : ExpandingArray)._arrayLength ∧
    ExpandingArray.resize 256 (fun _ => 7) ⟨some [1, 2, 3, 4], 2, 4⟩ 4 false
      = ⟨some [7, 7, 7, 7], 4, 4⟩ :=
  ⟨by decide,
    ((C27_resize_to_capacity_reallocates 256 (fun _ => 7) (fun _ => 0)
      ⟨some [1, 2, 3, 4], 2, 4⟩ false (by decide)).2.1).trans (by decide)⟩

/-- C28, the code: `dispose(safe)` sets the length to 0 and releases the storage,
but assigns neither `_data` nor `_arrayLength`: the capacity keeps its value and
an allocated buffer keeps a non-null storage pointer. -/
theorem C28_dispose_keeps_pointer_and_capacity (a : ExpandingArray) (safe : Bool) :
    (a.dispose safe).length = 0 ∧
    (a.dispose safe)._arrayLength = a._arrayLength ∧
    (a.dispose safe)._data.isSome = a._data.isSome := by
  refine ⟨rfl, rfl, ?_⟩
  cases safe <;> cases h : a._data <;> simp [ExpandingArray.dispose, ExpandingArray.clear, h]

/-- C29: `copyFromAt(src, len, offset)` returns the buffer unchanged when `src` is
null, when `len` is 0, and when the offset converted to `IndexType` is not below
the length.  The range test sees the converted offset only: an offset at or
beyond the length whose conversion is below the length passes the test, and when
`offset + len` exceeds the length the buffer is resized. -/
theorem C29_copyFromAt_offset_is_truncated (M : Nat) (junk : Nat → Byte)
    (a : ExpandingArray) (data : Option (List Byte)) (src : List Byte) (len offset : Nat) :
    a.copyFromAt M junk none len offset = a ∧
    a.copyFromAt M junk data 0 offset = a ∧
    (a.length ≤ offset % M → a.copyFromAt M junk data len offset = a) ∧
    (a.length ≤ offset → offset < M → a.copyFromAt M junk data len offset = a) ∧
    (a._data.isSome = true → 0 < len → a.length ≤ offset → offset % M < a.length →
      offset + len < SIZE_MOD →
      (a.copyFromAt M junk (some src) len offset).length
        = (2 * a.length + SIZE_MOD - (offset + len)) % SIZE_MOD % M) := by
  refine ⟨rfl, ExpandingArray.copyFromAt_zero M junk a data offset,
    copyFromAt_rejects_index M junk a data len offset, ?_, ?_⟩
  · intro h1 h2
    exact copyFromAt_rejects_index M junk a data len offset
      (by rw [Nat.mod_eq_of_lt h2]; exact h1)
  · intro hdata hlen h1 h2 hsz
    simp only [ExpandingArray.length] at h1 h2 ⊢
    exact copyFromAt_grow_length_small M junk a src len offset hlen hdata h2 (by omega) hsz

/-- Witness for C29: a 2-byte buffer of a `uint8_t`-indexed array and
`copyFromAt(src, 1, 256)`: offset 256 is not a valid index, yet the length
becomes 3. -/
theorem C29_copyFromAt_offset_is_truncated_witness :
    ((⟨some [1, 2], 2, 2⟩ : ExpandingArray)._data.isSome = true ∧ 0 < 1 ∧
      (⟨some [1, 2], 2, 2⟩ : ExpandingArray).length ≤ 256 ∧
      256 % 256 < (⟨some [1, 2], 2, 2⟩ : ExpandingArray).length ∧ 256 + 1 < SIZE_MOD) ∧
    (ExpandingArray.copyFromAt 256 (fun _ => 0) ⟨some [1, 2], 2, 2⟩ (some [9]) 1 256).length
      = 3 :=
  ⟨⟨by decide, by decide, by decide, by decide, by decide⟩,
    ((C29_copyFromAt_offset_is_truncated 256 (fun _ => 0) ⟨some [1, 2], 2, 2⟩ none [9] 1
      256).2.2.2.2 (by decide) (by decide) (by decide) (by decide) (by decide)).trans
      (by decide)⟩

/-- C30: the buffer invariant.  For a freshly constructed `ExpandingArray` of any
initial length, after any sequence of calls of `resize`, `allocate`, `reclaim`,
`clear`, `copyFrom` and `copyFromAt` with any arguments, the length does not
exceed the capacity, and whenever the length is positive the storage pointer is
not null. -/
theorem C30_length_within_capacity (M : Nat) (junk : Nat → Byte) (n : Nat)
    (ops : List ExpandingArray.Op) :
    (ExpandingArray.calls M ops (ExpandingArray.ctor M junk n)).length
        ≤ (ExpandingArray.calls M ops (ExpandingArray.ctor M junk n))._arrayLength ∧
    (0 < (ExpandingArray.calls M ops (ExpandingArray.ctor M junk n)).length →
      (ExpandingArray.calls M ops (ExpandingArray.ctor M junk n))._data.isSome = true) :=
  valid_length_le _ (valid_calls M ops _ (valid_ctor M junk n))

/-- Witness for C30: an empty buffer, `resize(3, false)`, then
`copyFromAt(src, 2, 1)`: the length is positive and the storage is allocated. -/
theorem C30_length_within_capacity_witness :
    0 < (ExpandingArray.calls 256
        [ExpandingArray.Op.resize (fun _ => 0) 3 false,
          ExpandingArray.Op.copyFromAt (fun _ => 0) (some [1, 2]) 2 1]
        (ExpandingArray.ctor 256 (fun _ => 0) 0)).length ∧
    (ExpandingArray.calls 256
        [ExpandingArray.Op.resize (fun _ => 0) 3 false,
          ExpandingArray.Op.copyFromAt (fun _ => 0) (some [1, 2]) 2 1]
        (ExpandingArray.ctor 256 (fun _ => 0) 0))._data.isSome = true :=
  ⟨by decide,
    (C30_length_within_capacity 256 (fun _ => 0) 0
      [ExpandingArray.Op.resize (fun _ => 0) 3 false,
        ExpandingArray.Op.copyFromAt (fun _ => 0) (some [1, 2]) 2 1]).2 (by decide)⟩

/-- C31, the code: the packet invariant and the call that breaks it.  After the
default constructor and any sequence of `setBodyData`, `resizeBody`, `reset`
and the setters for version, transmitter id, receiver id, fragment number and
crc8 in which no `setBodyData` has `len` above 246, and for every packet that
`parse` returns with `PARSE_OK`, the raw packet-length field equals 9 plus the
raw body-length field, which equals the buffer length, at most 255.  A further
`setBodyData` with non-null data and `len` in `247..255` on such a packet that
carries a body leaves the packet-length field as it was and changes the buffer
length, so the two differ. -/
theorem C31_invariant_broken_by_oversize_setBodyData (junk jr : Nat → Byte)
    (ops : List RadioPacket.Op) (hops : ops.all RadioPacket.Op.withinLimit = true) :
    ((RadioPacket.calls ops (RadioPacket.ctor junk)).getRawPacketLength jr
        = 9 + (RadioPacket.calls ops (RadioPacket.ctor junk)).getRawBodyLength jr ∧
      9 + (RadioPacket.calls ops (RadioPacket.ctor junk)).getRawBodyLength jr
        = (RadioPacket.calls ops (RadioPacket.ctor junk))._data.length ∧
      (RadioPacket.calls ops (RadioPacket.ctor junk))._data.length ≤ 255) ∧
    (∀ jp buff len p, RadioPacket.parse jp buff len = (RadioPacket.PARSE_OK, some p) →
      p.getRawPacketLength jr = 9 + p.getRawBodyLength jr ∧
      9 + p.getRawBodyLength jr = p._data.length ∧
      p._data.length ≤ 255) ∧
    (∀ j src len, 9 < (RadioPacket.calls ops (RadioPacket.ctor junk))._data.length →
      246 < len → len < 256 →
      ((RadioPacket.calls ops (RadioPacket.ctor junk)).setBodyData j (some src)
          len).getRawPacketLength jr
        ≠ ((RadioPacket.calls ops (RadioPacket.ctor junk)).setBodyData j (some src)
            len)._data.length) := by
  have hwf : RadioPacket.WellFormed jr (RadioPacket.calls ops (RadioPacket.ctor junk)) :=
    wellFormed_calls jr ops _ (fun op hop => List.all_eq_true.mp hops op hop)
      (wellFormed_ctor junk jr)
  refine ⟨wellFormed_fields jr _ hwf, ?_, ?_⟩
  · intro jp buff len p hp
    exact wellFormed_fields jr p (wellFormed_parse jp jr buff len p hp)
  · intro j src len hbody h1 h2
    exact (setBodyData_oversize_breaks j jr _ src len hwf hbody h1 h2).2.2

/-- Witness for C31: the default packet, `setBodyData(data, 1)`, then
`setBodyData(data, 247)`: the packet-length field stays 10, the buffer length
becomes 20. -/
theorem C31_invariant_broken_by_oversize_setBodyData_witness :
    (List.all [RadioPacket.Op.setBodyData (fun _ => 0) (some [1]) 1]
        RadioPacket.Op.withinLimit = true ∧
      9 < (RadioPacket.calls [RadioPacket.Op.setBodyData (fun _ => 0) (some [1]) 1]
          (RadioPacket.ctor (fun _ => 0)))._data.length ∧
      246 < 247 ∧ 247 < 256) ∧
    ((RadioPacket.calls [RadioPacket.Op.setBodyData (fun _ => 0) (some [1]) 1]
        (RadioPacket.ctor (fun _ => 0))).setBodyData (fun _ => 0)
        (some (List.replicate 247 0xEE)) 247).getRawPacketLength (fun _ => 0)
      ≠ ((RadioPacket.calls [RadioPacket.Op.setBodyData (fun _ => 0) (some [1]) 1]
          (RadioPacket.ctor (fun _ => 0))).setBodyData (fun _ => 0)
          (some (List.replicate 247 0xEE)) 247)._data.length :=
  ⟨⟨by decide, by decide, by decide, by decide⟩,
    (C31_invariant_broken_by_oversize_setBodyData (fun _ => 0) (fun _ => 0)
      [RadioPacket.Op.setBodyData (fun _ => 0) (some [1]) 1] (by decide)).2.2
      (fun _ => 0) (List.replicate 247 0xEE) 247 (by decide) (by decide) (by decide)⟩

/-- C32, the code: `RadioPacket::fragment` returns exactly for the even payload
lengths.  The counter `bytesPacketised` is decremented by 246 modulo 65536, so
its parity never changes: for every odd `len` the loop is not left, however
many tests are granted; for every even `len` the counter is 0 after fewer than
32768 passes and the call returns within 32768 loop tests. -/
theorem C32_fragment_returns_iff_even (junk : Nat → Byte)
    (packets : RadioPacket.PacketArray) (data : List Byte) (len : Nat) :
    (len % 2 = 1 → ∀ fuel, RadioPacket.fragment fuel junk packets data len = none) ∧
    (len % 2 = 0 → (RadioPacket.fragment 32768 junk packets data len).isSome = true) := by
  constructor
  · intro hodd fuel
    unfold RadioPacket.fragment
    rw [fragmentLoop_odd junk data fuel _ (by simp only; omega)
      (by simp only; exact Nat.mod_lt _ (by decide))]
    rfl
  · intro heven
    unfold RadioPacket.fragment
    rw [Option.isSome_map']
    have hlt : len % 65536 < 65536 := Nat.mod_lt _ (by decide)
    exact fragmentLoop_returns junk data 32768 ((len % 65536) / 2 * 24243 % 32768) _
      (Nat.mod_lt _ (by decide)) hlt
      (even_counter_reaches_zero (len % 65536) (by omega))

/-- Witness for C32: the odd length 247 (no return within any number of tests)
and the even length 2 (the call returns). -/
theorem C32_fragment_returns_iff_even_witness :
    (247 % 2 = 1 ∧ 2 % 2 = 0) ∧
    RadioPacket.fragment 100000 (fun _ => 0) [none, none] (List.replicate 247 0x42) 247
      = none ∧
    (RadioPacket.fragment 32768 (fun _ => 0) [none] [0x42, 0x43] 2).isSome = true :=
  ⟨⟨by decide, by decide⟩,
    (C32_fragment_returns_iff_even (fun _ => 0) [none, none] (List.replicate 247 0x42)
      247).1 (by decide) 100000,
    (C32_fragment_returns_iff_even (fun _ => 0) [none] [0x42, 0x43] 2).2 (by decide)⟩

end RadioPacket
